import Mathlib

/-!
# The CasADi simulator node (`SimulatorInternal`)

A shallow embedding of `casadi/core/function/simulator_internal.cpp`: the constructor,
`init()` and `evaluate()` of the node that drives an integrator over a time grid and samples
an output function at every grid point.

Conventions of the embedding.

* `double` values are elements of a type `R` carrying a decidable linear order and a zero.
  Only comparison and copying of values occur in the file, no arithmetic, so rounding plays
  no role; NaN is not represented.
* A C++ member function that may throw is a function `σ → Except Error Unit × σ`: it returns
  the outcome together with the object as it is left at the point of the throw.
* The diagnostic printing guarded by `monitored(...)` has no effect on the object and is left
  out.
-/

namespace casadi

/-! ## Sparsity patterns and matrices -/

/-- Modelled from the spec: the class `Sparsity` is declared outside the given sources. A
sparsity pattern is a shape together with the set of structurally non-zero positions
`(row, column)`, every one of them inside the shape. -/
structure Sparsity where
  /-- Number of rows. -/
  size1 : Nat
  /-- Number of columns. -/
  size2 : Nat
  /-- The structurally non-zero positions. -/
  pattern : Finset (Nat × Nat)
  /-- Every structural non-zero lies inside the shape. -/
  inRange : ∀ p ∈ pattern, p.1 < size1 ∧ p.2 < size2

namespace Sparsity

/-- Two patterns are equal when their shapes and their sets of non-zero positions are. -/
instance : DecidableEq Sparsity := fun a b =>
  decidable_of_iff (a.size1 = b.size1 ∧ a.size2 = b.size2 ∧ a.pattern = b.pattern)
    (by cases a; cases b; simp)

/-- Number of elements, structural zeros included: `numel()`. -/
def numel (sp : Sparsity) : Nat := sp.size1 * sp.size2

/-- Number of structural non-zeros: `nnz()`. -/
def nnz (sp : Sparsity) : Nat := sp.pattern.card

/-- Zero rows or zero columns: `isempty()`. -/
def isempty (sp : Sparsity) : Bool := sp.size1 == 0 || sp.size2 == 0

/-- Exactly one column: `iscolumn()`. -/
def iscolumn (sp : Sparsity) : Bool := sp.size2 == 1

/-- Every position is a structural non-zero: `isdense()`. -/
def isdense (sp : Sparsity) : Bool := sp.nnz == sp.numel

/-- The dense pattern of a given shape: `Sparsity::dense(nrow, ncol)`. -/
def dense (nrow ncol : Nat) : Sparsity where
  size1 := nrow
  size2 := ncol
  pattern := Finset.range nrow ×ˢ Finset.range ncol
  inRange := by
    intro p hp
    simpa [Finset.mem_product] using hp

/-- The pattern of a given shape without any structural non-zero: `Sparsity(nrow, ncol)`. -/
def sparse (nrow ncol : Nat) : Sparsity where
  size1 := nrow
  size2 := ncol
  pattern := ∅
  inRange := by
    intro p hp
    simp at hp

/-- The pattern of a column of `nrow + 1` rows whose only structural non-zero is the first
entry. -/
def firstOnly (nrow : Nat) : Sparsity where
  size1 := nrow + 1
  size2 := 1
  pattern := {(0, 0)}
  inRange := by
    intro p hp
    simp at hp
    subst hp
    simp

end Sparsity

/-- Modelled from the spec: the class `Matrix<double>` (`DMatrix`) is declared outside the
given sources. A matrix is a sparsity pattern and the vector of its structural non-zeros,
`data()`, in column-major order. -/
structure DMatrix (R : Type) where
  /-- The sparsity pattern. -/
  sparsity : Sparsity
  /-- The non-zeros; `begin()` and `end()` iterate over this vector. -/
  data : List R

namespace DMatrix

variable {R : Type}

/-- Element count of the matrix: `numel()`. -/
def numel (m : DMatrix R) : Nat := m.sparsity.numel

/-- Count of structural non-zeros: `nnz()`. -/
def nnz (m : DMatrix R) : Nat := m.sparsity.nnz

/-- Zero rows or zero columns: `isempty()`. -/
def isempty (m : DMatrix R) : Bool := m.sparsity.isempty

/-- Exactly one column: `iscolumn()`. -/
def iscolumn (m : DMatrix R) : Bool := m.sparsity.iscolumn

/-- No structural zero: `isdense()`. -/
def isdense (m : DMatrix R) : Bool := m.sparsity.isdense

/-- The vector of non-zeros holds one value per structural non-zero. -/
def WellFormed (m : DMatrix R) : Prop := m.data.length = m.sparsity.nnz

/-- A matrix of a given pattern, all non-zeros equal to zero. -/
def zerosOf [Zero R] (sp : Sparsity) : DMatrix R := ⟨sp, List.replicate sp.nnz 0⟩

/-- The dense all-zero matrix: `Matrix<double>::zeros(nrow, ncol)`. -/
def zeros [Zero R] (nrow ncol : Nat) : DMatrix R := zerosOf (Sparsity.dense nrow ncol)

/-- A dense column holding the given values. -/
def column (v : List R) : DMatrix R := ⟨Sparsity.dense v.length 1, v⟩

end DMatrix

/-! ## Errors -/

/-- The failures of the node, one constructor per assertion of the source, and the failures
of the operations it calls. -/
inductive Error where
  /-- Constructor: the grid is not a column vector. -/
  | gridNotColumn
  /-- Constructor: the grid is not dense. -/
  | gridNotDense
  /-- The assertion of `init()`: the supplied time grid must be non-decreasing. -/
  | gridNotNonDecreasing
  /-- The assertion of `init()` on output number `i`: a column-matrix shape is expected. -/
  | outputNotColumn (i : Nat)
  /-- The assertion of `init()`: the `DAE_T` argument must be scalar or empty. -/
  | timeArgument
  /-- The assertion of `init()`: the `DAE_P` argument must be empty or match the integrator. -/
  | parameterArgument
  /-- The assertion of `init()`: the `DAE_X` argument must be empty or match the integrator. -/
  | stateArgument
  /-- The consistency check that closes `evaluate()`. -/
  | consistencyCheck
  /-- A slot was written with a matrix of another pattern. -/
  | slotMismatch
  /-- The output function was used while null. -/
  | nullFunction
  /-- An index outside a container, as thrown by `at`. -/
  | outOfRange
  deriving DecidableEq, Repr

/-- The error classes of the specification. -/
inductive ErrorKind where
  | InvalidGrid
  | SchemaMismatch
  | InternalInvariantViolation
  | Other
  deriving DecidableEq, Repr

/-- The class an error belongs to. -/
def Error.kind : Error → ErrorKind
  | .gridNotColumn => .InvalidGrid
  | .gridNotDense => .InvalidGrid
  | .gridNotNonDecreasing => .InvalidGrid
  | .outputNotColumn _ => .SchemaMismatch
  | .timeArgument => .SchemaMismatch
  | .parameterArgument => .SchemaMismatch
  | .stateArgument => .SchemaMismatch
  | .slotMismatch => .SchemaMismatch
  | .consistencyCheck => .InternalInvariantViolation
  | .nullFunction => .Other
  | .outOfRange => .Other

/-- A member function that may throw: the outcome and the object as the call leaves it. -/
abbrev Op (σ : Type) := σ → Except Error Unit × σ

namespace Op

variable {σ α : Type}

/-- Return normally without touching the object. -/
def skip : Op σ := fun s => (.ok (), s)

/-- Throw. -/
def fail (e : Error) : Op σ := fun s => (.error e, s)

/-- Sequencing of statements: the second runs only if the first did not throw. -/
def seq (a b : Op σ) : Op σ := fun s =>
  match a s with
  | (.ok _, s1) => b s1
  | (.error e, s1) => (.error e, s1)

/-- A loop running the body once for every element, in order, until one throws. -/
def forEach : List α → (α → Op σ) → Op σ
  | [], _ => skip
  | x :: xs, body => seq (body x) (forEach xs body)

end Op

/-! ## Helpers on vectors -/

section Vectors

variable {R : Type}

/-- Modelled from the spec: `isNonDecreasing` lives in `std_vector_tools.hpp`, outside the
given sources. The scan compares every element with its predecessor and answers false at the
first element that is not greater than or equal to it. -/
def isNonDecreasingFrom [LinearOrder R] : R → List R → Bool
  | _, [] => true
  | el, v :: vs => if el ≤ v then isNonDecreasingFrom v vs else false

/-- Modelled from the spec: `isNonDecreasing(v)`, true on the empty vector. -/
def isNonDecreasing [LinearOrder R] : List R → Bool
  | [] => true
  | el :: vs => isNonDecreasingFrom el vs

/-- The effect of `std::vector::resize(n)`: keep the first `n` elements, pad with
default-constructed ones. -/
def resize {α : Type} (v : List α) (n : Nat) (dflt : α) : List α :=
  v.take n ++ List.replicate (n - v.length) dflt

/-- The effect of `std::copy(src.begin(), src.end(), it)` for an iterator `it` at offset
`pos` of `dst`: the elements of `src` replace those of `dst` from `pos` on. -/
def copyAt {α : Type} (dst : List α) (pos : Nat) (src : List α) : List α :=
  dst.take pos ++ src ++ dst.drop (pos + src.length)

end Vectors

/-! ## Option dictionaries -/

/-- Modelled from the spec: `GenericType`, the value of an option, is declared outside the
given sources. -/
inductive GenericType (R : Type) where
  | double (v : R)
  | integer (v : Int)
  | text (v : String)
  | flag (v : Bool)
  deriving DecidableEq

/-- Modelled from the spec: `Dict`, a map from option names to values. -/
abbrev Dict (R : Type) := String → Option (GenericType R)

namespace Dict

variable {R : Type}

/-- Set one option: `setOption(key, value)`. -/
def setOption (d : Dict R) (key : String) (v : GenericType R) : Dict R :=
  fun k => if k = key then some v else d k

/-- Set every option of a dictionary: `setOption(dict)`. -/
def setOptions (d src : Dict R) : Dict R :=
  fun k => match src k with
    | some v => some v
    | none => d k

end Dict

/-! ## Slots -/

/-- The input slots of the output function named by the source (`DAE_NUM_IN` many). -/
inductive DAEInput where
  | DAE_X
  | DAE_Z
  | DAE_P
  | DAE_T
  deriving DecidableEq, Repr

/-- The input slots of the integrator named by the source. -/
inductive IntegratorInput where
  | INTEGRATOR_X0
  | INTEGRATOR_P
  | INTEGRATOR_Z0
  deriving DecidableEq, Repr

/-- The output slots of the integrator named by the source. -/
inductive IntegratorOutput where
  | INTEGRATOR_XF
  | INTEGRATOR_ZF
  deriving DecidableEq, Repr

/-- The numeric values of the enumeration `IntegratorOutput`, declared outside the given
sources: they fix the layout of the output vector of the generated output function. -/
structure OutputLayout where
  INTEGRATOR_NUM_OUT : Nat
  INTEGRATOR_XF : Nat
  INTEGRATOR_ZF : Nat

/-- The input and output schemes the node can carry. -/
inductive IOScheme where
  | unset
  | SCHEME_IntegratorInput
  | SCHEME_IntegratorOutput
  deriving DecidableEq, Repr

open DAEInput IntegratorInput IntegratorOutput

/-! ## The output function -/

/-- Modelled from the spec: the class `Function` is declared outside the given sources. An
output function has one input buffer per slot, a vector of output buffers, and a rule `f`
giving non-zero `k` of output `i` from the input buffers. -/
structure Function (R : Type) where
  /-- The input buffers. -/
  ibuf : DAEInput → DMatrix R
  /-- The output buffers. -/
  obuf : List (DMatrix R)
  /-- The numerical rule of the function. -/
  f : (DAEInput → DMatrix R) → Nat → Nat → R

namespace Function

variable {R : Type}

/-- Input buffer of a slot: `input(slot)`. -/
def input (fn : Function R) (slot : DAEInput) : DMatrix R := fn.ibuf slot

/-- Output buffer number `i`, if there is one: `output(i)`. -/
def output (fn : Function R) (i : Nat) : Option (DMatrix R) := fn.obuf[i]?

/-- Number of outputs: `n_out()`. -/
def n_out (fn : Function R) : Nat := fn.obuf.length

/-- The function with the non-zeros of `val` copied into a slot. -/
def assign (fn : Function R) (val : DMatrix R) (slot : DAEInput) : Function R :=
  { fn with ibuf := fun j => if j = slot then ⟨(fn.ibuf slot).sparsity, val.data⟩ else fn.ibuf j }

/-- Modelled from the spec: `setInput(val, slot)` copies the non-zeros of `val` into the slot;
writing a slot with a matrix of another pattern is a contract violation. -/
def setInput (fn : Function R) (val : DMatrix R) (slot : DAEInput) : Except Error (Function R) :=
  if val.sparsity = (fn.ibuf slot).sparsity then .ok (fn.assign val slot)
  else .error .slotMismatch

/-- Modelled from the spec: `setInput(double, slot)` assigns the number to every non-zero. -/
def setInputScalar (fn : Function R) (t : R) (slot : DAEInput) : Function R :=
  { fn with ibuf := fun j =>
      if j = slot then ⟨(fn.ibuf slot).sparsity, List.replicate (fn.ibuf slot).sparsity.nnz t⟩
      else fn.ibuf j }

/-- The result of output `i` of pattern `sp` on given inputs. -/
def result (f : (DAEInput → DMatrix R) → Nat → Nat → R) (inputs : DAEInput → DMatrix R)
    (i : Nat) (sp : Sparsity) : DMatrix R :=
  ⟨sp, (List.range sp.nnz).map (f inputs i)⟩

/-- Recompute the output buffers from index `i` on. -/
def evalOutputs (f : (DAEInput → DMatrix R) → Nat → Nat → R) (inputs : DAEInput → DMatrix R) :
    Nat → List (DMatrix R) → List (DMatrix R)
  | _, [] => []
  | i, o :: os => result f inputs i o.sparsity :: evalOutputs f inputs (i + 1) os

/-- Modelled from the spec: `evaluate()` recomputes every output from the current inputs. -/
def evaluate (fn : Function R) : Function R :=
  { fn with obuf := evalOutputs fn.f fn.ibuf 0 fn.obuf }

end Function

/-! ## The integrator -/

/-- Modelled from the spec: an integrator plugin, declared outside the given sources. From
the two functions `f`, `g` of the problem it fixes the patterns of the input and output
slots, the default options, and how the memory `M` of an instance evolves under `init()`,
`reset()` and `integrate(t)` and is read through the output slots. -/
structure IntegratorClass (R F M : Type) where
  inputSparsity : F → F → IntegratorInput → Sparsity
  outputSparsity : F → F → IntegratorOutput → Sparsity
  defaults : Dict R
  initMem : F → F → Dict R → M
  resetMem : F → F → Dict R → (IntegratorInput → DMatrix R) → M
  integrateMem : F → F → Dict R → M → R → M
  outputData : F → F → M → IntegratorOutput → List R

/-- The calls an integrator instance receives from the node. -/
inductive IntegratorCall (R : Type) where
  | setInput (slot : IntegratorInput) (val : DMatrix R)
  | reset
  | integrate (t : R)

/-- Modelled from the spec: an integrator instance, declared outside the given sources: its
plugin, its construction parameters `name`, `f_`, `g_`, its option dictionary, the non-zeros
of its input slots, its memory, and the record of the calls it received. -/
structure Integrator (R F M : Type) where
  cls : IntegratorClass R F M
  name : String
  f_ : F
  g_ : F
  dictionary : Dict R
  is_init : Bool
  inputData : IntegratorInput → List R
  mem : M
  calls : List (IntegratorCall R)

namespace Integrator

variable {R F M : Type}

/-- Input buffer of a slot: `input(slot)`. -/
def input (I : Integrator R F M) (slot : IntegratorInput) : DMatrix R :=
  ⟨I.cls.inputSparsity I.f_ I.g_ slot, I.inputData slot⟩

/-- Output buffer of a slot: `output(slot)`. -/
def output (I : Integrator R F M) (slot : IntegratorOutput) : DMatrix R :=
  ⟨I.cls.outputSparsity I.f_ I.g_ slot, I.cls.outputData I.f_ I.g_ I.mem slot⟩

/-- A fresh, uninitialized instance of the same plugin: `create(name, f, g)`. -/
def create [Zero R] (I : Integrator R F M) (name : String) (f g : F) : Integrator R F M where
  cls := I.cls
  name := name
  f_ := f
  g_ := g
  dictionary := I.cls.defaults
  is_init := false
  inputData := fun slot => List.replicate (I.cls.inputSparsity f g slot).nnz 0
  mem := I.cls.initMem f g I.cls.defaults
  calls := []

/-- Set one option. -/
def setOption (I : Integrator R F M) (key : String) (v : GenericType R) : Integrator R F M :=
  { I with dictionary := I.dictionary.setOption key v }

/-- Set every option of a dictionary. -/
def setOptions (I : Integrator R F M) (d : Dict R) : Integrator R F M :=
  { I with dictionary := I.dictionary.setOptions d }

/-- Initialize the instance: `init()`. -/
def init (I : Integrator R F M) : Integrator R F M :=
  { I with is_init := true, mem := I.cls.initMem I.f_ I.g_ I.dictionary }

/-- The instance with the non-zeros of `val` copied into a slot, the call recorded. -/
def assign (I : Integrator R F M) (val : DMatrix R) (slot : IntegratorInput) :
    Integrator R F M :=
  { I with
    inputData := fun j => if j = slot then val.data else I.inputData j
    calls := I.calls ++ [.setInput slot val] }

/-- Modelled from the spec: `setInput(val, slot)`; a matrix of another pattern is refused. -/
def setInput (I : Integrator R F M) (val : DMatrix R) (slot : IntegratorInput) :
    Except Error (Integrator R F M) :=
  if val.sparsity = (I.input slot).sparsity then .ok (I.assign val slot)
  else .error .slotMismatch

/-- Restore the initial condition: `reset()`. -/
def reset (I : Integrator R F M) : Integrator R F M :=
  { I with
    mem := I.cls.resetMem I.f_ I.g_ I.dictionary I.input
    calls := I.calls ++ [.reset] }

/-- Advance to time `t`: `integrate(t)`. -/
def integrate (I : Integrator R F M) (t : R) : Integrator R F M :=
  { I with
    mem := I.cls.integrateMem I.f_ I.g_ I.dictionary I.mem t
    calls := I.calls ++ [.integrate t] }

end Integrator

/-! ## The simulator node -/

/-- The members of `SimulatorInternal`: the integrator, the output function (null or not),
the grid, the schemes, the input and output buffers of the node, and the output iterators,
each an offset into the non-zeros of its output buffer. -/
structure SimulatorInternal (R F M : Type) where
  name : String
  integrator_ : Integrator R F M
  output_fcn_ : Option (Function R)
  grid_ : List R
  ischeme_ : IOScheme
  oscheme_ : IOScheme
  ibuf_ : IntegratorInput → Option (DMatrix R)
  obuf_ : List (DMatrix R)
  output_its_ : List Nat

namespace SimulatorInternal

variable {R F M : Type}

/-- The constructor `SimulatorInternal(name, integrator, output_fcn, grid)`: the grid must be
a column vector and dense; its non-zeros become `grid_`. -/
def new (name : String) (integrator : Integrator R F M) (output_fcn : Option (Function R))
    (grid : DMatrix R) : Except Error (SimulatorInternal R F M) :=
  if !grid.iscolumn then .error .gridNotColumn
  else if !grid.isdense then .error .gridNotDense
  else .ok
    { name := name
      integrator_ := integrator
      output_fcn_ := output_fcn
      grid_ := grid.data
      ischeme_ := .SCHEME_IntegratorInput
      oscheme_ := .unset
      ibuf_ := fun _ => none
      obuf_ := []
      output_its_ := [] }

/-- Number of outputs of the node: `n_out()`. -/
def n_out (s : SimulatorInternal R F M) : Nat := s.obuf_.length

/-! ### `init()` -/

/-- First block of `init()`: on a non-empty grid, check that it is non-decreasing and replace
the integrator by a fresh instance running from the first to the last grid point. -/
def initIntegrator [LinearOrder R] [Zero R] : Op (SimulatorInternal R F M) := fun s =>
  match s.grid_ with
  | [] => (.ok (), s)
  | g0 :: gs =>
    if !isNonDecreasing (g0 :: gs) then (.error .gridNotNonDecreasing, s)
    else
      let I0 := s.integrator_.create s.integrator_.name s.integrator_.f_ s.integrator_.g_
      let I1 := I0.setOptions s.integrator_.dictionary
      let I2 := I1.setOption "t0" (.double g0)
      let I3 := I2.setOption "tf" (.double ((g0 :: gs).getLast (List.cons_ne_nil g0 gs)))
      (.ok (), { s with integrator_ := I3.init })

/-- The vector `out` of the generated output function: `INTEGRATOR_NUM_OUT` null expressions,
then entry `INTEGRATOR_XF` set to `x` and entry `INTEGRATOR_ZF` set to `z`. -/
def defaultOutputs [Zero R] (lay : OutputLayout) (x z : Sparsity) : List (DMatrix R) :=
  ((List.replicate lay.INTEGRATOR_NUM_OUT (DMatrix.zerosOf (Sparsity.sparse 0 0))).set
    lay.INTEGRATOR_XF (DMatrix.zerosOf x)).set lay.INTEGRATOR_ZF (DMatrix.zerosOf z)

/-- The function `SX::fun("ofcn", arg, out)` of `init()`: a scalar time argument, arguments
`x`, `z`, `p` with the patterns of the integrator inputs, and outputs returning `x` and `z`. -/
def defaultOutputFcn [Zero R] (lay : OutputLayout) (I : Integrator R F M) : Function R where
  ibuf := fun slot =>
    match slot with
    | DAE_T => DMatrix.zerosOf (Sparsity.dense 1 1)
    | DAE_X => DMatrix.zerosOf (I.input INTEGRATOR_X0).sparsity
    | DAE_Z => DMatrix.zerosOf (I.input INTEGRATOR_Z0).sparsity
    | DAE_P => DMatrix.zerosOf (I.input INTEGRATOR_P).sparsity
  obuf := defaultOutputs lay (I.input INTEGRATOR_X0).sparsity (I.input INTEGRATOR_Z0).sparsity
  f := fun inputs i k =>
    if i = lay.INTEGRATOR_ZF then (inputs DAE_Z).data.getD k 0
    else if i = lay.INTEGRATOR_XF then (inputs DAE_X).data.getD k 0
    else 0

/-- Second block of `init()`: generate an output function if there is none. -/
def generateOutputFcn [Zero R] (lay : OutputLayout) : Op (SimulatorInternal R F M) := fun s =>
  match s.output_fcn_ with
  | some _ => (.ok (), s)
  | none =>
    (.ok (), { s with
      output_fcn_ := some (defaultOutputFcn lay s.integrator_)
      oscheme_ := .SCHEME_IntegratorOutput })

/-- Third block of `init()`: the inputs of the node are copies of the integrator inputs. -/
def allocateInputs : Op (SimulatorInternal R F M) := fun s =>
  (.ok (), { s with ibuf_ := fun i => some (s.integrator_.input i) })

/-- Body of the output loop of `init()` for index `i`: a dense zero buffer of
`numel × grid size` entries, then the assertion that a non-empty output is a column. -/
def allocateOutput [Zero R] (i : Nat) : Op (SimulatorInternal R F M) := fun s =>
  match s.output_fcn_ with
  | none => (.error .nullFunction, s)
  | some fn =>
    match fn.output i with
    | none => (.error .outOfRange, s)
    | some o =>
      let s1 := { s with obuf_ := s.obuf_.set i (DMatrix.zeros o.numel s.grid_.length) }
      if !o.isempty && !o.iscolumn then (.error (.outputNotColumn i), s1)
      else (.ok (), s1)

/-- Fourth block of `init()`: resize `obuf_` to the number of outputs of the output function
and run the output loop. -/
def allocateOutputs [Zero R] : Op (SimulatorInternal R F M) := fun s =>
  match s.output_fcn_ with
  | none => (.error .nullFunction, s)
  | some fn =>
    let s1 := { s with obuf_ := resize s.obuf_ fn.n_out (DMatrix.zerosOf (Sparsity.sparse 0 0)) }
    Op.forEach (List.range s1.n_out) allocateOutput s1

/-- The assertion on the time argument: `input(DAE_T).numel() <= 1`. -/
def checkTimeArgument : Op (SimulatorInternal R F M) := fun s =>
  match s.output_fcn_ with
  | none => (.error .nullFunction, s)
  | some fn =>
    if (fn.input DAE_T).numel ≤ 1 then (.ok (), s) else (.error .timeArgument, s)

/-- The assertion on the parameter argument: empty, or of the pattern of the integrator
input `INTEGRATOR_P`. -/
def checkParameterArgument : Op (SimulatorInternal R F M) := fun s =>
  match s.output_fcn_ with
  | none => (.error .nullFunction, s)
  | some fn =>
    if (fn.input DAE_P).isempty
        || decide ((s.integrator_.input INTEGRATOR_P).sparsity = (fn.input DAE_P).sparsity) then
      (.ok (), s)
    else (.error .parameterArgument, s)

/-- The assertion on the state argument: empty, or of the pattern of the integrator input
`INTEGRATOR_X0`. -/
def checkStateArgument : Op (SimulatorInternal R F M) := fun s =>
  match s.output_fcn_ with
  | none => (.error .nullFunction, s)
  | some fn =>
    if (fn.input DAE_X).isempty
        || decide ((s.integrator_.input INTEGRATOR_X0).sparsity = (fn.input DAE_X).sparsity) then
      (.ok (), s)
    else (.error .stateArgument, s)

/-- Last statement of `init()`: `output_its_.resize(n_out())`. The call of the base class
`FunctionInternal::init()` before it does not touch the members modelled here. -/
def resizeIterators : Op (SimulatorInternal R F M) := fun s =>
  (.ok (), { s with output_its_ := resize s.output_its_ s.n_out 0 })

/-- The member function `init()`. -/
def init [LinearOrder R] [Zero R] (lay : OutputLayout) : Op (SimulatorInternal R F M) :=
  Op.seq initIntegrator
    (Op.seq (generateOutputFcn lay)
      (Op.seq allocateInputs
        (Op.seq allocateOutputs
          (Op.seq checkTimeArgument
            (Op.seq checkParameterArgument
              (Op.seq checkStateArgument resizeIterators))))))

/-! ### `evaluate()` -/

/-- One statement `integrator_.setInput(input(slot), slot)`. -/
def passInput (slot : IntegratorInput) : Op (SimulatorInternal R F M) := fun s =>
  match s.ibuf_ slot with
  | none => (.error .outOfRange, s)
  | some v =>
    match s.integrator_.setInput v slot with
    | .ok I => (.ok (), { s with integrator_ := I })
    | .error e => (.error e, s)

/-- The statement `integrator_.reset()`. -/
def resetIntegrator : Op (SimulatorInternal R F M) := fun s =>
  (.ok (), { s with integrator_ := s.integrator_.reset })

/-- Body of the iterator loop: `output_its_[i] = output(i).begin()`. -/
def initIterator (i : Nat) : Op (SimulatorInternal R F M) := fun s =>
  match s.obuf_[i]? with
  | none => (.error .outOfRange, s)
  | some _ => (.ok (), { s with output_its_ := s.output_its_.set i 0 })

/-- The statement `integrator_.integrate(grid_[k])`, for the grid value `t`. -/
def integrateTo (t : R) : Op (SimulatorInternal R F M) := fun s =>
  (.ok (), { s with integrator_ := s.integrator_.integrate t })

/-- The statement `if (output_fcn_.input(DAE_T).nnz()!=0) output_fcn_.setInput(t, DAE_T)`. -/
def passTime (t : R) : Op (SimulatorInternal R F M) := fun s =>
  match s.output_fcn_ with
  | none => (.error .nullFunction, s)
  | some fn =>
    if (fn.input DAE_T).nnz ≠ 0 then
      (.ok (), { s with output_fcn_ := some (fn.setInputScalar t DAE_T) })
    else (.ok (), s)

/-- A statement `if (output_fcn_.input(slot).nnz()!=0) output_fcn_.setInput(val, slot)`, the
value being read from the node when the statement runs. -/
def passMatrix (slot : DAEInput) (val : SimulatorInternal R F M → Except Error (DMatrix R)) :
    Op (SimulatorInternal R F M) := fun s =>
  match s.output_fcn_ with
  | none => (.error .nullFunction, s)
  | some fn =>
    if (fn.input slot).nnz ≠ 0 then
      match val s with
      | .error e => (.error e, s)
      | .ok v =>
        match fn.setInput v slot with
        | .ok fn1 => (.ok (), { s with output_fcn_ := some fn1 })
        | .error e => (.error e, s)
    else (.ok (), s)

/-- The value `input(INTEGRATOR_P)` of the node. -/
def inputP (s : SimulatorInternal R F M) : Except Error (DMatrix R) :=
  match s.ibuf_ INTEGRATOR_P with
  | none => .error .outOfRange
  | some v => .ok v

/-- The statement `output_fcn_.evaluate()`. -/
def evaluateOutputFcn : Op (SimulatorInternal R F M) := fun s =>
  match s.output_fcn_ with
  | none => (.error .nullFunction, s)
  | some fn => (.ok (), { s with output_fcn_ := some fn.evaluate })

/-- Body of the save loop for index `i`: copy the non-zeros of output `i` of the output
function to the iterator of buffer `i` and advance the iterator by `res.nnz()`. -/
def saveOutput (i : Nat) : Op (SimulatorInternal R F M) := fun s =>
  match s.output_fcn_ with
  | none => (.error .nullFunction, s)
  | some fn =>
    match fn.output i with
    | none => (.error .outOfRange, s)
    | some res =>
      match s.output_its_[i]?, s.obuf_[i]? with
      | some it, some buf =>
        (.ok (), { s with
          obuf_ := s.obuf_.set i { buf with data := copyAt buf.data it res.data }
          output_its_ := s.output_its_.set i (it + res.nnz) })
      | _, _ => (.error .outOfRange, s)

/-- Body of the time loop for the grid value `t`. -/
def step (t : R) : Op (SimulatorInternal R F M) :=
  Op.seq (integrateTo t)
    (Op.seq (passTime t)
      (Op.seq (passMatrix DAE_X (fun s => .ok (s.integrator_.output INTEGRATOR_XF)))
        (Op.seq (passMatrix DAE_Z (fun s => .ok (s.integrator_.output INTEGRATOR_ZF)))
          (Op.seq (passMatrix DAE_P inputP)
            (Op.seq evaluateOutputFcn
              (fun s => Op.forEach (List.range s.n_out) saveOutput s))))))

/-- Body of the consistency loop: `casadi_assert(output_its_[i] == output(i).end())`. -/
def checkIterator (i : Nat) : Op (SimulatorInternal R F M) := fun s =>
  match s.output_its_[i]?, s.obuf_[i]? with
  | some it, some buf =>
    if it = buf.data.length then (.ok (), s) else (.error .consistencyCheck, s)
  | _, _ => (.error .outOfRange, s)

/-- The iterator loop of `evaluate()`: `for (i=0; i<output_its_.size(); ++i)`. -/
def initIterators : Op (SimulatorInternal R F M) := fun s =>
  Op.forEach (List.range s.output_its_.length) initIterator s

/-- The time loop of `evaluate()`: `for (k=0; k<grid_.size(); ++k)`, the body run on
`grid_[k]`. -/
def advance : Op (SimulatorInternal R F M) := fun s => Op.forEach s.grid_ step s

/-- The consistency loop of `evaluate()`: `for (i=0; i<output_its_.size(); ++i)`. -/
def checkIterators : Op (SimulatorInternal R F M) := fun s =>
  Op.forEach (List.range s.output_its_.length) checkIterator s

/-- The member function `evaluate()`. -/
def evaluate : Op (SimulatorInternal R F M) :=
  Op.seq (passInput INTEGRATOR_X0)
    (Op.seq (passInput INTEGRATOR_Z0)
      (Op.seq (passInput INTEGRATOR_P)
        (Op.seq resetIntegrator
          (Op.seq initIterators (Op.seq advance checkIterators)))))

end SimulatorInternal

/-! ## Notions used to state the properties -/

section Notions

variable {R F M : Type}

/-- A vector has an inversion: a later index holds a smaller value than an earlier one. -/
def HasInversion [LinearOrder R] (v : List R) : Prop :=
  ∃ (i j : Nat) (hi : i < v.length) (hj : j < v.length), i < j ∧ v[j] < v[i]

/-- The test of the output loop of `init()` that makes the assertion fail: the output is not
empty and is not a column. -/
def notColumnLike (o : DMatrix R) : Bool := !o.isempty && !o.iscolumn

/-- The output function `init()` works with: the supplied one, or the generated one when the
supplied one is null. -/
def SimulatorInternal.initFcn [LinearOrder R] [Zero R] (lay : OutputLayout)
    (s : SimulatorInternal R F M) : Function R :=
  match s.output_fcn_ with
  | some fn => fn
  | none => SimulatorInternal.defaultOutputFcn lay (SimulatorInternal.initIntegrator s).2.integrator_

/-- The outcome of `init()` read off the node: the first assertion that fails, in the order
of the source. -/
def SimulatorInternal.initOutcome [LinearOrder R] [Zero R] (lay : OutputLayout)
    (s : SimulatorInternal R F M) : Except Error Unit :=
  if isNonDecreasing s.grid_ = false then .error .gridNotNonDecreasing
  else
    match (List.range (s.initFcn lay).n_out).find?
        (fun i => match (s.initFcn lay).output i with
          | some o => notColumnLike o
          | none => false) with
    | some i => .error (.outputNotColumn i)
    | none =>
      if ¬ ((s.initFcn lay).input DAE_T).numel ≤ 1 then .error .timeArgument
      else if ((s.initFcn lay).input DAE_P).isempty = false ∧
          (s.integrator_.input INTEGRATOR_P).sparsity ≠ ((s.initFcn lay).input DAE_P).sparsity then
        .error .parameterArgument
      else if ((s.initFcn lay).input DAE_X).isempty = false ∧
          (s.integrator_.input INTEGRATOR_X0).sparsity ≠ ((s.initFcn lay).input DAE_X).sparsity then
        .error .stateArgument
      else .ok ()

/-- The node is as a successful `init()` leaves it, up to what the caller and earlier runs
wrote into its buffers: the output function is set, there is one output buffer per output of
the output function, holding `numel × grid size` entries, one iterator per output buffer, and
the input buffers have the patterns of the integrator inputs. -/
structure SimulatorInternal.Initialized (s : SimulatorInternal R F M) : Prop where
  fcn : ∃ fn, s.output_fcn_ = some fn ∧ s.obuf_.length = fn.n_out ∧
    ∀ (j : Nat) (o b : DMatrix R), fn.obuf[j]? = some o → s.obuf_[j]? = some b →
      b.data.length = o.numel * s.grid_.length
  iterators : s.output_its_.length = s.obuf_.length
  inputs : ∀ slot, ∃ v, s.ibuf_ slot = some v ∧ v.sparsity = (s.integrator_.input slot).sparsity

/-- The transfers of `evaluate()` into the slots of the output function that are in use are
between slots of one pattern, so that no `setInput` is refused. -/
def SimulatorInternal.TransfersAccepted (s : SimulatorInternal R F M) : Prop :=
  ∀ fn, s.output_fcn_ = some fn →
    ((fn.input DAE_X).nnz ≠ 0 →
      (s.integrator_.output INTEGRATOR_XF).sparsity = (fn.input DAE_X).sparsity) ∧
    ((fn.input DAE_Z).nnz ≠ 0 →
      (s.integrator_.output INTEGRATOR_ZF).sparsity = (fn.input DAE_Z).sparsity) ∧
    ((fn.input DAE_P).nnz ≠ 0 →
      ∀ v, s.ibuf_ INTEGRATOR_P = some v → v.sparsity = (fn.input DAE_P).sparsity)

/-- The input buffers of the output function once a pass of the time loop has made its
transfers: a slot with a structural non-zero holds the time `t`, the state output `xf`, the
algebraic output `zf` or the parameters `p`; a slot without non-zeros is as it was. -/
def passedInputs (ib : DAEInput → DMatrix R) (t : R) (xf zf p : DMatrix R) :
    DAEInput → DMatrix R := fun slot =>
  if (ib slot).nnz ≠ 0 then
    match slot with
    | DAE_T => ⟨(ib DAE_T).sparsity, List.replicate (ib DAE_T).sparsity.nnz t⟩
    | DAE_X => ⟨(ib DAE_X).sparsity, xf.data⟩
    | DAE_Z => ⟨(ib DAE_Z).sparsity, zf.data⟩
    | DAE_P => ⟨(ib DAE_P).sparsity, p.data⟩
  else ib slot

/-- The output function once a pass of the time loop has made its transfers and evaluated
it. -/
def Function.sampled (fn : Function R) (t : R) (xf zf p : DMatrix R) : Function R :=
  { fn with
    ibuf := passedInputs fn.ibuf t xf zf p
    obuf := Function.evalOutputs fn.f (passedInputs fn.ibuf t xf zf p) 0 fn.obuf }

/-- The integrator as the opening statements of `evaluate()` leave it: inputs passed, then
reset. -/
def SimulatorInternal.startedIntegrator (s : SimulatorInternal R F M) : Integrator R F M :=
  (Op.seq (SimulatorInternal.passInput INTEGRATOR_X0)
    (Op.seq (SimulatorInternal.passInput INTEGRATOR_Z0)
      (Op.seq (SimulatorInternal.passInput INTEGRATOR_P)
        SimulatorInternal.resetIntegrator)) s).2.integrator_

/-- The integrator after `integrate(grid_[k])` in a run of `evaluate()`: started, then
advanced through the grid points `0, ..., k`. -/
def SimulatorInternal.integratorAt (s : SimulatorInternal R F M) (k : Nat) : Integrator R F M :=
  (s.grid_.take (k + 1)).foldl Integrator.integrate s.startedIntegrator

/-- The effect of a sequence of copies through one iterator: each vector is copied at the
iterator, which then advances by its length. -/
def fillFrom {α : Type} (dst : List α) (pos : Nat) : List (List α) → List α
  | [] => dst
  | r :: rs => fillFrom (copyAt dst pos r) (pos + r.length) rs

/-- The non-zeros output `j` of pattern `sp` takes along a run of the time loop from the
integrator `I` over the grid points `ts`. -/
def outputsAlong (f : (DAEInput → DMatrix R) → Nat → Nat → R) (ib : DAEInput → DMatrix R)
    (p : DMatrix R) (j : Nat) (sp : Sparsity) : Integrator R F M → List R → List (List R)
  | _, [] => []
  | I, t :: ts =>
    (Function.result f (passedInputs ib t ((I.integrate t).output INTEGRATOR_XF)
        ((I.integrate t).output INTEGRATOR_ZF) p) j sp).data ::
      outputsAlong f ib p j sp (I.integrate t) ts

/-- What a pass of the time loop relies on: the output function `fn` is set, the parameters
`p` sit in the input buffer of the node, there is one output buffer and one iterator per
output of `fn`, and the transfers into the slots in use are between slots of one pattern. -/
structure SimulatorInternal.LoopReady (s : SimulatorInternal R F M) (fn : Function R)
    (p : DMatrix R) : Prop where
  hfn : s.output_fcn_ = some fn
  hp : s.ibuf_ INTEGRATOR_P = some p
  hob : s.obuf_.length = fn.obuf.length
  hits : s.output_its_.length = fn.obuf.length
  hX : (fn.ibuf DAE_X).nnz ≠ 0 →
    s.integrator_.cls.outputSparsity s.integrator_.f_ s.integrator_.g_ INTEGRATOR_XF =
      (fn.ibuf DAE_X).sparsity
  hZ : (fn.ibuf DAE_Z).nnz ≠ 0 →
    s.integrator_.cls.outputSparsity s.integrator_.f_ s.integrator_.g_ INTEGRATOR_ZF =
      (fn.ibuf DAE_Z).sparsity
  hP : (fn.ibuf DAE_P).nnz ≠ 0 → p.sparsity = (fn.ibuf DAE_P).sparsity

/-- The node once the caller has written the non-zeros of an initial state, an algebraic
guess and parameters into its three input buffers; the patterns of the buffers stay. -/
def SimulatorInternal.withInputs (s : SimulatorInternal R F M) (x0 z0 p : List R) :
    SimulatorInternal R F M :=
  { s with
    ibuf_ := fun slot =>
      match slot with
      | INTEGRATOR_X0 => (s.ibuf_ INTEGRATOR_X0).map (fun m => { m with data := x0 })
      | INTEGRATOR_Z0 => (s.ibuf_ INTEGRATOR_Z0).map (fun m => { m with data := z0 })
      | INTEGRATOR_P => (s.ibuf_ INTEGRATOR_P).map (fun m => { m with data := p }) }

/-- Identity dynamics of an integrator plugin: after `reset()` the state output holds the
non-zeros of the initial state, and `integrate(t)` leaves the state output as it is. -/
def IntegratorClass.HoldsState (cls : IntegratorClass R F M) : Prop :=
  (∀ (f g : F) (d : Dict R) (inputs : IntegratorInput → DMatrix R),
    cls.outputData f g (cls.resetMem f g d inputs) INTEGRATOR_XF =
      (inputs INTEGRATOR_X0).data) ∧
  (∀ (f g : F) (d : Dict R) (m : M) (t : R),
    cls.outputData f g (cls.integrateMem f g d m t) INTEGRATOR_XF =
      cls.outputData f g m INTEGRATOR_XF)

end Notions

/-! ## Concrete nodes

Small instances over the integers, used to run the definitions on explicit inputs. -/

namespace Examples

/-- An integrator plugin that holds its state: `reset()` loads the non-zeros of the initial
state, `integrate(t)` leaves them as they are, and the algebraic output is all zero. -/
def holdClass (x z p : Sparsity) : IntegratorClass Int Unit (List Int) where
  inputSparsity := fun _ _ slot =>
    match slot with
    | INTEGRATOR_X0 => x
    | INTEGRATOR_Z0 => z
    | INTEGRATOR_P => p
  outputSparsity := fun _ _ slot =>
    match slot with
    | INTEGRATOR_XF => x
    | INTEGRATOR_ZF => z
  defaults := fun _ => none
  initMem := fun _ _ _ => List.replicate x.nnz 0
  resetMem := fun _ _ _ inputs => (inputs INTEGRATOR_X0).data
  integrateMem := fun _ _ _ m _ => m
  outputData := fun _ _ m slot =>
    match slot with
    | INTEGRATOR_XF => m
    | INTEGRATOR_ZF => List.replicate z.nnz 0

/-- An initialized instance of the holding plugin, with one option set. -/
def holdIntegrator (x z p : Sparsity) : Integrator Int Unit (List Int) where
  cls := holdClass x z p
  name := "hold"
  f_ := ()
  g_ := ()
  dictionary := fun k => if k = "abstol" then some (.integer 7) else none
  is_init := true
  inputData := fun slot =>
    match slot with
    | INTEGRATOR_X0 => List.replicate x.nnz 0
    | INTEGRATOR_Z0 => List.replicate z.nnz 0
    | INTEGRATOR_P => List.replicate p.nnz 0
  mem := List.replicate x.nnz 0
  calls := []

/-- An output function with given slot patterns and output patterns; non-zero `k` of every
output is non-zero `k` of the state argument plus the time. -/
def sampleFcn (t x z p : Sparsity) (outs : List Sparsity) : Function Int where
  ibuf := fun slot =>
    match slot with
    | DAE_T => DMatrix.zerosOf t
    | DAE_X => DMatrix.zerosOf x
    | DAE_Z => DMatrix.zerosOf z
    | DAE_P => DMatrix.zerosOf p
  obuf := outs.map DMatrix.zerosOf
  f := fun inputs _ k => (inputs DAE_X).data.getD k 0 + (inputs DAE_T).data.getD 0 0

/-- A layout of the integrator outputs: six outputs, the state first, the algebraic state
third. -/
def layout : OutputLayout := ⟨6, 0, 2⟩

/-- The node the constructor builds from a grid, an integrator and an output function. -/
def node (grid : List Int) (I : Integrator Int Unit (List Int)) (fn : Option (Function Int)) :
    SimulatorInternal Int Unit (List Int) where
  name := "sim"
  integrator_ := I
  output_fcn_ := fn
  grid_ := grid
  ischeme_ := .SCHEME_IntegratorInput
  oscheme_ := .unset
  ibuf_ := fun _ => none
  obuf_ := []
  output_its_ := []

/-- A node over the one-point grid `[0]` whose output function has one output of shape
`2 × 1` with a single structural non-zero. -/
def sparseOutputNode : SimulatorInternal Int Unit (List Int) :=
  node [0] (holdIntegrator (Sparsity.dense 2 1) (Sparsity.sparse 0 0) (Sparsity.sparse 0 0))
    (some (sampleFcn (Sparsity.dense 1 1) (Sparsity.dense 2 1) (Sparsity.sparse 0 0)
      (Sparsity.sparse 0 0) [Sparsity.firstOnly 1]))

/-- A node over the grid `[0, 1]` whose output function has a dense `2 × 1` algebraic slot
while the algebraic slots of the integrator are dense `3 × 1`. -/
def algebraicMismatchNode : SimulatorInternal Int Unit (List Int) :=
  node [0, 1] (holdIntegrator (Sparsity.dense 2 1) (Sparsity.dense 3 1) (Sparsity.sparse 0 0))
    (some (sampleFcn (Sparsity.dense 1 1) (Sparsity.dense 2 1) (Sparsity.dense 2 1)
      (Sparsity.sparse 0 0) [Sparsity.dense 2 1]))

/-- A node over the grid `[0, 2, 5]` whose output function has one dense `2 × 1` output. -/
def denseOutputNode : SimulatorInternal Int Unit (List Int) :=
  node [0, 2, 5] (holdIntegrator (Sparsity.dense 2 1) (Sparsity.sparse 0 0) (Sparsity.dense 1 1))
    (some (sampleFcn (Sparsity.dense 1 1) (Sparsity.dense 2 1) (Sparsity.sparse 0 0)
      (Sparsity.dense 1 1) [Sparsity.dense 2 1]))

/-- A node over the grid `[0, 1, 2]` without output function, over a holding integrator whose
state slots are dense `2 × 2`. -/
def matrixStateNode : SimulatorInternal Int Unit (List Int) :=
  node [0, 1, 2] (holdIntegrator (Sparsity.dense 2 2) (Sparsity.sparse 0 0) (Sparsity.dense 1 1))
    none

/-- A node over the grid `[0, 1, 2]` without output function, over a holding integrator whose
state slots are columns of shape `2 × 1` with a single structural non-zero. -/
def sparseStateNode : SimulatorInternal Int Unit (List Int) :=
  node [0, 1, 2] (holdIntegrator (Sparsity.firstOnly 1) (Sparsity.sparse 0 0) (Sparsity.dense 1 1))
    none

/-- An initialized node over the grid `[0, 2, 5]`: one dense `2 × 1` output, a `2 × 3`
output buffer with its iterator, and the initial state `[7, 8]` and the parameter `[3]`
written into the input buffers. -/
def readyNode : SimulatorInternal Int Unit (List Int) where
  name := "sim"
  integrator_ := holdIntegrator (Sparsity.dense 2 1) (Sparsity.sparse 0 0) (Sparsity.dense 1 1)
  output_fcn_ := some (sampleFcn (Sparsity.dense 1 1) (Sparsity.dense 2 1) (Sparsity.sparse 0 0)
    (Sparsity.dense 1 1) [Sparsity.dense 2 1])
  grid_ := [0, 2, 5]
  ischeme_ := .SCHEME_IntegratorInput
  oscheme_ := .unset
  ibuf_ := fun slot =>
    match slot with
    | INTEGRATOR_X0 => some ⟨Sparsity.dense 2 1, [7, 8]⟩
    | INTEGRATOR_Z0 => some ⟨Sparsity.sparse 0 0, []⟩
    | INTEGRATOR_P => some ⟨Sparsity.dense 1 1, [3]⟩
  obuf_ := [DMatrix.zeros 2 3]
  output_its_ := [0]

end Examples

/-! ## Basic facts -/

namespace Op

variable {σ α : Type}

theorem seq_of_ok {a b : Op σ} {s : σ} (h : (a s).1 = .ok ()) : seq a b s = b (a s).2 := by
  unfold seq
  rcases hr : a s with ⟨r, s1⟩
  rw [hr] at h
  cases r with
  | ok u => rfl
  | error e => simp at h

theorem seq_of_error {a b : Op σ} {s : σ} {e : Error} (h : (a s).1 = .error e) :
    seq a b s = (.error e, (a s).2) := by
  unfold seq
  rcases hr : a s with ⟨r, s1⟩
  rw [hr] at h
  cases r with
  | ok u => simp at h
  | error e1 =>
    simp at h
    subst h
    rfl

theorem forEach_nil (body : α → Op σ) (s : σ) : forEach [] body s = (.ok (), s) := rfl

theorem forEach_cons (x : α) (xs : List α) (body : α → Op σ) :
    forEach (x :: xs) body = seq (body x) (forEach xs body) := rfl

theorem forEach_append (xs ys : List α) (body : α → Op σ) (s : σ) :
    forEach (xs ++ ys) body s = seq (forEach xs body) (forEach ys body) s := by
  induction xs generalizing s with
  | nil => rfl
  | cons x xs ih =>
    simp only [List.cons_append, forEach_cons]
    unfold seq
    rcases hr : body x s with ⟨r, s1⟩
    cases r with
    | ok u =>
      simp only []
      rw [ih]
      rfl
    | error e => rfl

theorem seq_snd_proj {β : Type} (proj : σ → β) (a b : Op σ)
    (hb : ∀ s, proj (b s).2 = proj s) (s : σ) : proj (seq a b s).2 = proj (a s).2 := by
  unfold seq
  rcases a s with ⟨r, s1⟩
  cases r with
  | ok u => exact hb s1
  | error e => rfl

theorem seq_preserves {β : Type} (proj : σ → β) (a b : Op σ)
    (ha : ∀ s, proj (a s).2 = proj s) (hb : ∀ s, proj (b s).2 = proj s) (s : σ) :
    proj (seq a b s).2 = proj s := by
  rw [seq_snd_proj proj a b hb, ha]

theorem forEach_preserves {β : Type} (proj : σ → β) (l : List α) (body : α → Op σ)
    (h : ∀ x s, proj (body x s).2 = proj s) (s : σ) : proj (forEach l body s).2 = proj s := by
  induction l generalizing s with
  | nil => rfl
  | cons x xs ih =>
    rw [forEach_cons]
    exact seq_preserves proj _ _ (h x) ih s

end Op

section VectorFacts

variable {R : Type} [LinearOrder R]

theorem isNonDecreasingFrom_iff (el : R) (vs : List R) :
    isNonDecreasingFrom el vs = true ↔ List.Chain (· ≤ ·) el vs := by
  induction vs generalizing el with
  | nil => simp [isNonDecreasingFrom]
  | cons v vs ih =>
    by_cases h : el ≤ v
    · simp [isNonDecreasingFrom, h, ih]
    · simp [isNonDecreasingFrom, h]

theorem isNonDecreasing_iff_pairwise (v : List R) :
    isNonDecreasing v = true ↔ List.Pairwise (· ≤ ·) v := by
  cases v with
  | nil => simp [isNonDecreasing]
  | cons el vs =>
    simp only [isNonDecreasing]
    rw [isNonDecreasingFrom_iff, List.chain_iff_pairwise]

theorem isNonDecreasing_iff (v : List R) : isNonDecreasing v = true ↔ ¬ HasInversion v := by
  rw [isNonDecreasing_iff_pairwise, List.pairwise_iff_getElem]
  constructor
  · rintro h ⟨i, j, hi, hj, hij, hlt⟩
    exact absurd (h i j hi hj hij) (not_le.mpr hlt)
  · intro h i j hi hj hij
    by_contra hcon
    exact h ⟨i, j, hi, hj, hij, not_le.mp hcon⟩

theorem isNonDecreasing_false_iff (v : List R) : isNonDecreasing v = false ↔ HasInversion v := by
  rw [← Bool.not_eq_true, isNonDecreasing_iff, not_not]

theorem head_le_getLast_of_isNonDecreasing (g0 : R) (gs : List R)
    (h : isNonDecreasing (g0 :: gs) = true) :
    g0 ≤ (g0 :: gs).getLast (List.cons_ne_nil g0 gs) := by
  rw [isNonDecreasing_iff_pairwise] at h
  cases gs with
  | nil => simp
  | cons g1 gs =>
    have hmem : (g0 :: g1 :: gs).getLast (List.cons_ne_nil g0 (g1 :: gs)) ∈ g1 :: gs := by
      rw [List.getLast_cons (List.cons_ne_nil g1 gs)]
      exact List.getLast_mem _
    exact (List.pairwise_cons.mp h).1 _ hmem

end VectorFacts

/-! ## Analysis of `init()` -/

namespace SimulatorInternal

variable {R F M : Type}

theorem initIntegrator_fst [LinearOrder R] [Zero R] (s : SimulatorInternal R F M) :
    (initIntegrator s).1 =
      if isNonDecreasing s.grid_ = true then .ok () else .error .gridNotNonDecreasing := by
  obtain ⟨name, I, fn, grid, isch, osch, ib, ob, its⟩ := s
  unfold initIntegrator
  cases grid with
  | nil => simp [isNonDecreasing]
  | cons g0 gs =>
    by_cases h : isNonDecreasing (g0 :: gs) = true
    · simp [h]
    · simp [h]

theorem initIntegrator_frame [LinearOrder R] [Zero R] (s : SimulatorInternal R F M) :
    (initIntegrator s).2 = { s with integrator_ := (initIntegrator s).2.integrator_ } := by
  obtain ⟨name, I, fn, grid, isch, osch, ib, ob, its⟩ := s
  unfold initIntegrator
  cases grid with
  | nil => simp
  | cons g0 gs =>
    by_cases h : isNonDecreasing (g0 :: gs) = true
    · simp [h]
    · simp [h]

theorem initIntegrator_input_sparsity [LinearOrder R] [Zero R] (s : SimulatorInternal R F M)
    (slot : IntegratorInput) :
    ((initIntegrator s).2.integrator_.input slot).sparsity = (s.integrator_.input slot).sparsity := by
  obtain ⟨name, I, fn, grid, isch, osch, ib, ob, its⟩ := s
  unfold initIntegrator
  cases grid with
  | nil => simp
  | cons g0 gs =>
    by_cases h : isNonDecreasing (g0 :: gs) = true
    · simp [h, Integrator.input, Integrator.init, Integrator.setOption, Integrator.setOptions,
        Integrator.create]
    · simp [h]

theorem generateOutputFcn_eq [Zero R] (lay : OutputLayout) (s : SimulatorInternal R F M) :
    generateOutputFcn lay s =
      (.ok (), { s with
        output_fcn_ := some (match s.output_fcn_ with
          | some fn => fn
          | none => defaultOutputFcn lay s.integrator_)
        oscheme_ := match s.output_fcn_ with
          | some _ => s.oscheme_
          | none => .SCHEME_IntegratorOutput }) := by
  obtain ⟨name, I, fn, grid, isch, osch, ib, ob, its⟩ := s
  unfold generateOutputFcn
  cases fn <;> simp

theorem allocateOutput_eq [Zero R] (i : Nat) (s : SimulatorInternal R F M) (fn : Function R)
    (hfn : s.output_fcn_ = some fn) (o : DMatrix R) (ho : fn.obuf[i]? = some o) :
    allocateOutput i s =
      (if notColumnLike o = true then .error (.outputNotColumn i) else .ok (),
        { s with obuf_ := s.obuf_.set i (DMatrix.zeros o.numel s.grid_.length) }) := by
  unfold allocateOutput
  simp only [hfn, Function.output, ho, notColumnLike]
  split <;> rfl

/-- The outcome of the output loop over a list of valid indices: the first index whose output
is neither empty nor a column stops it; the members other than `obuf_` are not touched; on
success every buffer whose index was visited is the dense zero matrix of the source. -/
theorem forEach_allocateOutput [Zero R] (l : List Nat) (s : SimulatorInternal R F M) (fn : Function R)
    (hfn : s.output_fcn_ = some fn) (hl : ∀ i ∈ l, i < fn.obuf.length) :
    (Op.forEach l allocateOutput s).1 =
        (match l.find? (fun i => match fn.output i with
            | some o => notColumnLike o
            | none => false) with
          | some i => .error (.outputNotColumn i)
          | none => .ok ()) ∧
      (Op.forEach l allocateOutput s).2 =
        { s with obuf_ := (Op.forEach l allocateOutput s).2.obuf_ } ∧
      (Op.forEach l allocateOutput s).2.obuf_.length = s.obuf_.length ∧
      ((Op.forEach l allocateOutput s).1 = .ok () → ∀ j : Nat,
        (Op.forEach l allocateOutput s).2.obuf_[j]? =
          if j ∈ l ∧ j < s.obuf_.length then
            (fn.obuf[j]?).map (fun o => DMatrix.zeros o.numel s.grid_.length)
          else s.obuf_[j]?) := by
  induction l generalizing s with
  | nil => simp [Op.forEach_nil]
  | cons i l ih =>
    have hi : i < fn.obuf.length := hl i (List.mem_cons_self _ _)
    obtain ⟨o, ho⟩ : ∃ o, fn.obuf[i]? = some o := ⟨fn.obuf[i], List.getElem?_eq_getElem hi⟩
    have hstep := allocateOutput_eq i s fn hfn o ho
    rw [Op.forEach_cons]
    by_cases hbad : notColumnLike o = true
    · have h1 : (allocateOutput i s).1 = .error (.outputNotColumn i) := by
        rw [hstep]; simp [hbad]
      rw [Op.seq_of_error h1]
      refine ⟨?_, ?_, ?_, ?_⟩
      · simp [List.find?, Function.output, ho, hbad]
      · rw [hstep]
      · rw [hstep]; simp
      · intro h; simp at h
    · have h1 : (allocateOutput i s).1 = .ok () := by
        rw [hstep]; simp [hbad]
      rw [Op.seq_of_ok h1]
      have hs1 : (allocateOutput i s).2 =
          { s with obuf_ := s.obuf_.set i (DMatrix.zeros o.numel s.grid_.length) } := by
        rw [hstep]
      rw [hs1]
      have ih1 := ih { s with obuf_ := s.obuf_.set i (DMatrix.zeros o.numel s.grid_.length) }
        hfn (fun j hj => hl j (List.mem_cons_of_mem _ hj))
      obtain ⟨e1, e2, e3, e4⟩ := ih1
      refine ⟨?_, ?_, ?_, ?_⟩
      · rw [e1]
        simp [List.find?, Function.output, ho, hbad]
      · rw [e2]
      · rw [e3]; simp
      · intro h j
        rw [e4 h j]
        simp only [List.length_set, List.mem_cons]
        by_cases hji : j = i
        · subst hji
          by_cases hjl : j < s.obuf_.length
          · by_cases hmem : j ∈ l
            · simp [hmem, hjl]
            · simp [hmem, hjl, ho, List.getElem?_set]
          · have : s.obuf_.length ≤ j := Nat.le_of_not_lt hjl
            simp [hjl, List.set_eq_of_length_le this]
        · have hne : i ≠ j := fun h => hji h.symm
          simp [hji, List.getElem?_set_ne hne]

theorem length_resize {α : Type} (v : List α) (n : Nat) (dflt : α) :
    (resize v n dflt).length = n := by
  simp only [resize, List.length_append, List.length_take, List.length_replicate]
  omega

theorem allocateOutputs_spec [Zero R] (s : SimulatorInternal R F M) (fn : Function R)
    (hfn : s.output_fcn_ = some fn) :
    (allocateOutputs s).1 =
        (match (List.range fn.n_out).find? (fun i => match fn.output i with
            | some o => notColumnLike o
            | none => false) with
          | some i => .error (.outputNotColumn i)
          | none => .ok ()) ∧
      (allocateOutputs s).2 = { s with obuf_ := (allocateOutputs s).2.obuf_ } ∧
      (allocateOutputs s).2.obuf_.length = fn.n_out ∧
      ((allocateOutputs s).1 = .ok () → ∀ j : Nat,
        (allocateOutputs s).2.obuf_[j]? =
          (fn.obuf[j]?).map (fun o => DMatrix.zeros o.numel s.grid_.length)) := by
  have hrun : allocateOutputs s =
      Op.forEach (List.range fn.n_out) allocateOutput
        { s with obuf_ := resize s.obuf_ fn.n_out (DMatrix.zerosOf (Sparsity.sparse 0 0)) } := by
    unfold allocateOutputs
    simp only [hfn, n_out, length_resize]
  rw [hrun]
  obtain ⟨e1, e2, e3, e4⟩ := forEach_allocateOutput (List.range fn.n_out)
    { s with obuf_ := resize s.obuf_ fn.n_out (DMatrix.zerosOf (Sparsity.sparse 0 0)) } fn hfn
    (fun i hi => by simpa [Function.n_out] using hi)
  refine ⟨e1, ?_, ?_, ?_⟩
  · rw [e2]
  · rw [e3]; exact length_resize _ _ _
  · intro h j
    rw [e4 h j]
    simp only [List.mem_range, length_resize, and_self]
    by_cases hj : j < fn.n_out
    · simp [hj]
    · have h1 : fn.obuf[j]? = none :=
        List.getElem?_eq_none (Nat.le_of_not_lt hj)
      have h2 : (resize s.obuf_ fn.n_out (DMatrix.zerosOf (Sparsity.sparse 0 0)))[j]? = none :=
        List.getElem?_eq_none (by rw [length_resize]; exact Nat.le_of_not_lt hj)
      simp [hj, h1, h2]

theorem checkTimeArgument_eq (s : SimulatorInternal R F M) (fn : Function R)
    (hfn : s.output_fcn_ = some fn) :
    checkTimeArgument s =
      (if (fn.input DAE_T).numel ≤ 1 then .ok () else .error .timeArgument, s) := by
  unfold checkTimeArgument
  simp only [hfn]
  split <;> rfl

theorem checkParameterArgument_eq (s : SimulatorInternal R F M) (fn : Function R)
    (hfn : s.output_fcn_ = some fn) :
    checkParameterArgument s =
      (if (fn.input DAE_P).isempty = false ∧
          (s.integrator_.input INTEGRATOR_P).sparsity ≠ (fn.input DAE_P).sparsity
        then .error .parameterArgument else .ok (), s) := by
  unfold checkParameterArgument
  simp only [hfn]
  by_cases h1 : (fn.input DAE_P).isempty = true
  · simp [h1]
  · by_cases h2 : (s.integrator_.input INTEGRATOR_P).sparsity = (fn.input DAE_P).sparsity
    · simp [h1, h2]
    · simp [h1, h2]

theorem checkStateArgument_eq (s : SimulatorInternal R F M) (fn : Function R)
    (hfn : s.output_fcn_ = some fn) :
    checkStateArgument s =
      (if (fn.input DAE_X).isempty = false ∧
          (s.integrator_.input INTEGRATOR_X0).sparsity ≠ (fn.input DAE_X).sparsity
        then .error .stateArgument else .ok (), s) := by
  unfold checkStateArgument
  simp only [hfn]
  by_cases h1 : (fn.input DAE_X).isempty = true
  · simp [h1]
  · by_cases h2 : (s.integrator_.input INTEGRATOR_X0).sparsity = (fn.input DAE_X).sparsity
    · simp [h1, h2]
    · simp [h1, h2]

/-- The node as the first three blocks of `init()` leave it. -/
theorem init_first_blocks [LinearOrder R] [Zero R] (lay : OutputLayout) (s : SimulatorInternal R F M) :
    (allocateInputs (generateOutputFcn lay (initIntegrator s).2).2).2 =
      { s with
        integrator_ := (initIntegrator s).2.integrator_
        output_fcn_ := some (s.initFcn lay)
        oscheme_ := match s.output_fcn_ with
          | some _ => s.oscheme_
          | none => .SCHEME_IntegratorOutput
        ibuf_ := fun i => some ((initIntegrator s).2.integrator_.input i) } := by
  rw [generateOutputFcn_eq]
  have hfr := initIntegrator_frame s
  unfold allocateInputs
  simp only []
  rw [hfr]
  simp only [initFcn]

theorem init_of_grid_bad [LinearOrder R] [Zero R] (lay : OutputLayout)
    (s : SimulatorInternal R F M) (hg : isNonDecreasing s.grid_ = false) :
    init lay s = (.error .gridNotNonDecreasing, s) := by
  have h1 : (initIntegrator s).1 = .error .gridNotNonDecreasing := by
    rw [initIntegrator_fst]; simp [hg]
  have h2 : (initIntegrator s).2 = s := by
    obtain ⟨name, I, fn, grid, isch, osch, ib, ob, its⟩ := s
    unfold initIntegrator
    cases grid with
    | nil => simp
    | cons g0 gs =>
      simp only [] at hg
      simp [hg]
  unfold init
  rw [Op.seq_of_error h1, h2]

theorem init_of_grid_ok [LinearOrder R] [Zero R] (lay : OutputLayout)
    (s : SimulatorInternal R F M) (hg : isNonDecreasing s.grid_ = true) :
    init lay s =
      Op.seq allocateOutputs
        (Op.seq checkTimeArgument
          (Op.seq checkParameterArgument (Op.seq checkStateArgument resizeIterators)))
        (allocateInputs (generateOutputFcn lay (initIntegrator s).2).2).2 := by
  have h1 : (initIntegrator s).1 = .ok () := by
    rw [initIntegrator_fst]; simp [hg]
  have h2 : (generateOutputFcn lay (initIntegrator s).2).1 = .ok () := by
    rw [generateOutputFcn_eq]
  have h3 : (allocateInputs (generateOutputFcn lay (initIntegrator s).2).2).1 = .ok () := rfl
  unfold init
  rw [Op.seq_of_ok h1, Op.seq_of_ok h2, Op.seq_of_ok h3]

/-- The three slot assertions and the closing resize of `init()`, run on a node whose output
function is `fn`. -/
theorem init_checks (s : SimulatorInternal R F M) (fn : Function R)
    (hfn : s.output_fcn_ = some fn) :
    (Op.seq checkTimeArgument
        (Op.seq checkParameterArgument (Op.seq checkStateArgument resizeIterators)) s).1 =
      (if ¬ (fn.input DAE_T).numel ≤ 1 then .error .timeArgument
        else if (fn.input DAE_P).isempty = false ∧
            (s.integrator_.input INTEGRATOR_P).sparsity ≠ (fn.input DAE_P).sparsity then
          .error .parameterArgument
        else if (fn.input DAE_X).isempty = false ∧
            (s.integrator_.input INTEGRATOR_X0).sparsity ≠ (fn.input DAE_X).sparsity then
          .error .stateArgument
        else .ok ()) ∧
    ((Op.seq checkTimeArgument
        (Op.seq checkParameterArgument (Op.seq checkStateArgument resizeIterators)) s).1 = .ok () →
      (Op.seq checkTimeArgument
        (Op.seq checkParameterArgument (Op.seq checkStateArgument resizeIterators)) s).2 =
        { s with output_its_ := resize s.output_its_ s.n_out 0 }) := by
  have ht := checkTimeArgument_eq s fn hfn
  have hp := checkParameterArgument_eq s fn hfn
  have hx := checkStateArgument_eq s fn hfn
  by_cases c1 : (fn.input DAE_T).numel ≤ 1
  · have t1 : (checkTimeArgument s).1 = .ok () := by rw [ht]; exact if_pos c1
    have t2 : (checkTimeArgument s).2 = s := by rw [ht]
    rw [Op.seq_of_ok t1, t2, if_neg (not_not_intro c1)]
    by_cases c2 : (fn.input DAE_P).isempty = false ∧
        (s.integrator_.input INTEGRATOR_P).sparsity ≠ (fn.input DAE_P).sparsity
    · have p1 : (checkParameterArgument s).1 = .error .parameterArgument := by
        rw [hp]; exact if_pos c2
      rw [Op.seq_of_error p1, if_pos c2]
      refine ⟨rfl, ?_⟩
      intro h; simp at h
    · have p1 : (checkParameterArgument s).1 = .ok () := by
        rw [hp]; exact if_neg c2
      have p2 : (checkParameterArgument s).2 = s := by rw [hp]
      rw [Op.seq_of_ok p1, p2, if_neg c2]
      by_cases c3 : (fn.input DAE_X).isempty = false ∧
          (s.integrator_.input INTEGRATOR_X0).sparsity ≠ (fn.input DAE_X).sparsity
      · have x1 : (checkStateArgument s).1 = .error .stateArgument := by
          rw [hx]; exact if_pos c3
        rw [Op.seq_of_error x1, if_pos c3]
        refine ⟨rfl, ?_⟩
        intro h; simp at h
      · have x1 : (checkStateArgument s).1 = .ok () := by
          rw [hx]; exact if_neg c3
        have x2 : (checkStateArgument s).2 = s := by rw [hx]
        rw [Op.seq_of_ok x1, x2, if_neg c3]
        exact ⟨rfl, fun _ => rfl⟩
  · have t1 : (checkTimeArgument s).1 = .error .timeArgument := by rw [ht]; exact if_neg c1
    rw [Op.seq_of_error t1, if_pos c1]
    refine ⟨rfl, ?_⟩
    intro h; simp at h

/-- The outcome of `init()` is the first failing assertion in source order. -/
theorem init_fst [LinearOrder R] [Zero R] (lay : OutputLayout) (s : SimulatorInternal R F M) :
    (init lay s).1 = s.initOutcome lay := by
  by_cases hg : isNonDecreasing s.grid_ = true
  · rw [init_of_grid_ok lay s hg]
    have hfn3 : (allocateInputs (generateOutputFcn lay (initIntegrator s).2).2).2.output_fcn_ =
        some (s.initFcn lay) := by rw [init_first_blocks]
    have hI3 : (allocateInputs (generateOutputFcn lay (initIntegrator s).2).2).2.integrator_ =
        (initIntegrator s).2.integrator_ := by rw [init_first_blocks]
    obtain ⟨a1, a2, -, -⟩ := allocateOutputs_spec _ _ hfn3
    unfold initOutcome
    simp only [hg, Bool.true_eq_false, if_false]
    cases hfind : (List.range (s.initFcn lay).n_out).find? (fun i =>
        match (s.initFcn lay).output i with
        | some o => notColumnLike o
        | none => false) with
    | some i =>
      rw [hfind] at a1
      rw [Op.seq_of_error a1]
    | none =>
      rw [hfind] at a1
      rw [Op.seq_of_ok a1]
      have hfn4 : (allocateOutputs
          (allocateInputs (generateOutputFcn lay (initIntegrator s).2).2).2).2.output_fcn_ =
          some (s.initFcn lay) := by rw [a2]; exact hfn3
      have hI4 : (allocateOutputs
          (allocateInputs (generateOutputFcn lay (initIntegrator s).2).2).2).2.integrator_ =
          (initIntegrator s).2.integrator_ := by rw [a2]; exact hI3
      rw [(init_checks _ _ hfn4).1, hI4]
      simp only [initIntegrator_input_sparsity]
  · have hg2 : isNonDecreasing s.grid_ = false := by simpa using hg
    rw [init_of_grid_bad lay s hg2]
    unfold initOutcome
    simp [hg2]

theorem generateOutputFcn_frame [Zero R] {β : Type} (proj : SimulatorInternal R F M → β)
    (hproj : ∀ (s : SimulatorInternal R F M) fn osch,
      proj { s with output_fcn_ := fn, oscheme_ := osch } = proj s)
    (lay : OutputLayout) (s : SimulatorInternal R F M) :
    proj (generateOutputFcn lay s).2 = proj s := by
  rw [generateOutputFcn_eq]
  exact hproj s _ _

theorem allocateOutput_frame [Zero R] {β : Type} (proj : SimulatorInternal R F M → β)
    (hproj : ∀ (s : SimulatorInternal R F M) ob, proj { s with obuf_ := ob } = proj s)
    (i : Nat) (s : SimulatorInternal R F M) : proj (allocateOutput i s).2 = proj s := by
  obtain ⟨name, I, fn, grid, isch, osch, ib, ob, its⟩ := s
  unfold allocateOutput
  cases fn with
  | none => rfl
  | some fn =>
    simp only []
    cases fn.output i with
    | none => rfl
    | some o =>
      simp only []
      split
      · exact hproj ⟨name, I, some fn, grid, isch, osch, ib, ob, its⟩ _
      · exact hproj ⟨name, I, some fn, grid, isch, osch, ib, ob, its⟩ _

theorem allocateOutputs_frame [Zero R] {β : Type} (proj : SimulatorInternal R F M → β)
    (hproj : ∀ (s : SimulatorInternal R F M) ob, proj { s with obuf_ := ob } = proj s)
    (s : SimulatorInternal R F M) : proj (allocateOutputs s).2 = proj s := by
  obtain ⟨name, I, fn, grid, isch, osch, ib, ob, its⟩ := s
  unfold allocateOutputs
  cases fn with
  | none => rfl
  | some fn =>
    simp only []
    rw [Op.forEach_preserves proj _ _ (allocateOutput_frame proj hproj)]
    exact hproj ⟨name, I, some fn, grid, isch, osch, ib, ob, its⟩ _

theorem checkTimeArgument_snd (s : SimulatorInternal R F M) : (checkTimeArgument s).2 = s := by
  unfold checkTimeArgument
  cases s.output_fcn_ with
  | none => rfl
  | some fn => simp only []; split <;> rfl

theorem checkParameterArgument_snd (s : SimulatorInternal R F M) :
    (checkParameterArgument s).2 = s := by
  unfold checkParameterArgument
  cases s.output_fcn_ with
  | none => rfl
  | some fn => simp only []; split <;> rfl

theorem checkStateArgument_snd (s : SimulatorInternal R F M) :
    (checkStateArgument s).2 = s := by
  unfold checkStateArgument
  cases s.output_fcn_ with
  | none => rfl
  | some fn => simp only []; split <;> rfl

/-- The blocks of `init()` after the first one do not touch a member other than
`output_fcn_`, `oscheme_`, `ibuf_`, `obuf_` and `output_its_`. -/
theorem init_tail_frame [Zero R] {β : Type} (proj : SimulatorInternal R F M → β)
    (h1 : ∀ (s : SimulatorInternal R F M) fn osch,
      proj { s with output_fcn_ := fn, oscheme_ := osch } = proj s)
    (h2 : ∀ (s : SimulatorInternal R F M) ib, proj { s with ibuf_ := ib } = proj s)
    (h3 : ∀ (s : SimulatorInternal R F M) ob, proj { s with obuf_ := ob } = proj s)
    (h4 : ∀ (s : SimulatorInternal R F M) its, proj { s with output_its_ := its } = proj s)
    (lay : OutputLayout) (s : SimulatorInternal R F M) :
    proj (Op.seq (generateOutputFcn lay)
      (Op.seq allocateInputs
        (Op.seq allocateOutputs
          (Op.seq checkTimeArgument
            (Op.seq checkParameterArgument
              (Op.seq checkStateArgument resizeIterators))))) s).2 = proj s := by
  refine Op.seq_preserves proj _ _ (generateOutputFcn_frame proj h1 lay) ?_ s
  refine Op.seq_preserves proj _ _ (fun s => h2 s _) ?_
  refine Op.seq_preserves proj _ _ (allocateOutputs_frame proj h3) ?_
  refine Op.seq_preserves proj _ _ (fun s => by rw [checkTimeArgument_snd]) ?_
  refine Op.seq_preserves proj _ _ (fun s => by rw [checkParameterArgument_snd]) ?_
  refine Op.seq_preserves proj _ _ (fun s => by rw [checkStateArgument_snd]) ?_
  intro s
  exact h4 s _

/-- Whatever its outcome, `init()` leaves in the node the integrator its first block built. -/
theorem init_integrator [LinearOrder R] [Zero R] (lay : OutputLayout)
    (s : SimulatorInternal R F M) :
    (init lay s).2.integrator_ = (initIntegrator s).2.integrator_ := by
  unfold init
  exact Op.seq_snd_proj (fun s => s.integrator_) _ _
    (init_tail_frame (fun s => s.integrator_) (fun _ _ _ => rfl) (fun _ _ => rfl)
      (fun _ _ => rfl) (fun _ _ => rfl) lay) s

theorem init_grid [LinearOrder R] [Zero R] (lay : OutputLayout) (s : SimulatorInternal R F M) :
    (init lay s).2.grid_ = s.grid_ := by
  unfold init
  rw [Op.seq_snd_proj (fun s => s.grid_) _ _
    (init_tail_frame (fun s => s.grid_) (fun _ _ _ => rfl) (fun _ _ => rfl)
      (fun _ _ => rfl) (fun _ _ => rfl) lay) s, initIntegrator_frame]

/-- The node a successful `init()` leaves. -/
theorem init_ok_spec [LinearOrder R] [Zero R] (lay : OutputLayout)
    (s : SimulatorInternal R F M) (h : (init lay s).1 = .ok ()) :
    (init lay s).2.integrator_ = (initIntegrator s).2.integrator_ ∧
    (init lay s).2.output_fcn_ = some (s.initFcn lay) ∧
    (init lay s).2.grid_ = s.grid_ ∧
    (init lay s).2.ibuf_ = (fun i => some ((initIntegrator s).2.integrator_.input i)) ∧
    (init lay s).2.obuf_.length = (s.initFcn lay).n_out ∧
    (∀ j : Nat, (init lay s).2.obuf_[j]? =
      ((s.initFcn lay).obuf[j]?).map (fun o => DMatrix.zeros o.numel s.grid_.length)) ∧
    (init lay s).2.output_its_.length = (s.initFcn lay).n_out := by
  have hg : isNonDecreasing s.grid_ = true := by
    by_contra hcon
    have hg2 : isNonDecreasing s.grid_ = false := by simpa using hcon
    rw [init_of_grid_bad lay s hg2] at h
    simp at h
  rw [init_of_grid_ok lay s hg] at h ⊢
  have hpre := init_first_blocks lay s
  have hfn3 : (allocateInputs (generateOutputFcn lay (initIntegrator s).2).2).2.output_fcn_ =
      some (s.initFcn lay) := by rw [hpre]
  obtain ⟨a1, a2, a3, a4⟩ := allocateOutputs_spec _ _ hfn3
  have hao : (allocateOutputs
      (allocateInputs (generateOutputFcn lay (initIntegrator s).2).2).2).1 = .ok () := by
    cases hr : (allocateOutputs
      (allocateInputs (generateOutputFcn lay (initIntegrator s).2).2).2).1 with
    | ok u => rfl
    | error e =>
      rw [Op.seq_of_error hr] at h
      simp at h
  rw [Op.seq_of_ok hao] at h ⊢
  have hfn4 : (allocateOutputs
      (allocateInputs (generateOutputFcn lay (initIntegrator s).2).2).2).2.output_fcn_ =
      some (s.initFcn lay) := by rw [a2]; exact hfn3
  have hst := (init_checks _ _ hfn4).2 h
  rw [hst]
  have hgrid3 : (allocateInputs (generateOutputFcn lay (initIntegrator s).2).2).2.grid_ =
      s.grid_ := by rw [hpre]
  refine ⟨?_, hfn4, ?_, ?_, a3, ?_, ?_⟩
  · show (allocateOutputs _).2.integrator_ = _
    rw [a2, hpre]
  · show (allocateOutputs _).2.grid_ = _
    rw [a2, hpre]
  · show (allocateOutputs _).2.ibuf_ = _
    rw [a2, hpre]
  · intro j
    show (allocateOutputs _).2.obuf_[j]? = _
    rw [a4 hao j, hgrid3]
  · show (resize _ _ 0).length = _
    rw [length_resize]
    exact a3

end SimulatorInternal

/-! ## Facts on patterns -/

namespace Sparsity

theorem nnz_le_numel (sp : Sparsity) : sp.nnz ≤ sp.numel := by
  have hsub : sp.pattern ⊆ Finset.range sp.size1 ×ˢ Finset.range sp.size2 := by
    intro p hp
    have := sp.inRange p hp
    simp [Finset.mem_product, this.1, this.2]
  have := Finset.card_le_card hsub
  simpa [nnz, numel, Finset.card_product] using this

theorem isempty_iff_numel (sp : Sparsity) : sp.isempty = true ↔ sp.numel = 0 := by
  simp [isempty, numel, Nat.mul_eq_zero]

theorem isempty_eq_false_of_nnz_pos (sp : Sparsity) (h : 0 < sp.nnz) : sp.isempty = false := by
  have h1 := sp.nnz_le_numel
  cases he : sp.isempty with
  | false => rfl
  | true =>
    have := (sp.isempty_iff_numel).mp he
    omega

theorem numel_le_one_iff (sp : Sparsity) :
    sp.numel ≤ 1 ↔ (sp.size1 = 1 ∧ sp.size2 = 1) ∨ sp.isempty = true := by
  rw [isempty_iff_numel]
  unfold numel
  constructor
  · intro h
    rcases Nat.le_one_iff_eq_zero_or_eq_one.mp h with h0 | h1
    · exact Or.inr h0
    · exact Or.inl ⟨Nat.eq_one_of_mul_eq_one_right h1, Nat.eq_one_of_mul_eq_one_left h1⟩
  · rintro (⟨h1, h2⟩ | h0)
    · rw [h1, h2]
    · rw [h0]; exact Nat.zero_le 1

theorem dense_nnz (nrow ncol : Nat) : (dense nrow ncol).nnz = nrow * ncol := by
  simp [nnz, dense, Finset.card_product]

theorem dense_numel (nrow ncol : Nat) : (dense nrow ncol).numel = nrow * ncol := rfl

end Sparsity

theorem notColumnLike_iff {R : Type} (o : DMatrix R) :
    notColumnLike o = true ↔ o.numel ≠ 0 ∧ o.sparsity.size2 ≠ 1 := by
  have h := o.sparsity.isempty_iff_numel
  unfold notColumnLike DMatrix.isempty DMatrix.iscolumn DMatrix.numel Sparsity.iscolumn
  cases he : o.sparsity.isempty with
  | true =>
    have := h.mp he
    simp [this]
  | false =>
    have : ¬ o.sparsity.numel = 0 := fun hc => by
      have := h.mpr hc
      rw [he] at this
      exact Bool.false_ne_true this
    simp [this]

namespace SimulatorInternal

variable {R F M : Type}

theorem initFcn_of_some [LinearOrder R] [Zero R] (lay : OutputLayout)
    (s : SimulatorInternal R F M) (fn : Function R) (hfn : s.output_fcn_ = some fn) :
    s.initFcn lay = fn := by
  unfold initFcn
  rw [hfn]

/-- On a non-decreasing grid every failure of `init()` is a schema mismatch. -/
theorem initOutcome_error_kind [LinearOrder R] [Zero R] (lay : OutputLayout)
    (s : SimulatorInternal R F M) (hg : isNonDecreasing s.grid_ = true) (e : Error)
    (he : s.initOutcome lay = .error e) : e.kind = .SchemaMismatch := by
  unfold initOutcome at he
  simp only [hg, Bool.true_eq_false, if_false] at he
  split at he
  · cases he; rfl
  · split at he
    · cases he; rfl
    · split at he
      · cases he; rfl
      · split at he
        · cases he; rfl
        · cases he

end SimulatorInternal

namespace SimulatorInternal

variable {R F M : Type}

theorem initIntegrator_nil [LinearOrder R] [Zero R] (s : SimulatorInternal R F M)
    (hgrid : s.grid_ = []) : initIntegrator s = (.ok (), s) := by
  obtain ⟨name, I, fn, grid, isch, osch, ib, ob, its⟩ := s
  simp only [] at hgrid
  subst hgrid
  rfl

theorem initIntegrator_cons [LinearOrder R] [Zero R] (s : SimulatorInternal R F M)
    (g0 : R) (gs : List R) (hgrid : s.grid_ = g0 :: gs)
    (hg : isNonDecreasing (g0 :: gs) = true) :
    (initIntegrator s).2.integrator_ =
      ((((s.integrator_.create s.integrator_.name s.integrator_.f_ s.integrator_.g_).setOptions
        s.integrator_.dictionary).setOption "t0" (.double g0)).setOption "tf"
          (.double ((g0 :: gs).getLast (List.cons_ne_nil g0 gs)))).init := by
  obtain ⟨name, I, fn, grid, isch, osch, ib, ob, its⟩ := s
  simp only [] at hgrid
  subst hgrid
  simp [initIntegrator, hg]

end SimulatorInternal

/-! ## Properties of construction and `init()` -/

section InitProperties

open SimulatorInternal Examples

variable {R F M : Type}

/-- C1, counterexample: the dense column grid `[1, 0]` has an inversion (index 0 holds 1,
index 1 holds 0) and the constructor accepts it, returning the node with `grid_ = [1, 0]`. -/
theorem new_accepts_grid_with_inversion :
    (DMatrix.column [(1 : Int), 0]).iscolumn = true ∧
    (DMatrix.column [(1 : Int), 0]).isdense = true ∧
    HasInversion (DMatrix.column [(1 : Int), 0]).data ∧
    SimulatorInternal.new "sim"
        (holdIntegrator (Sparsity.dense 2 1) (Sparsity.sparse 0 0) (Sparsity.dense 1 1)) none
        (DMatrix.column [(1 : Int), 0]) =
      .ok (node [1, 0]
        (holdIntegrator (Sparsity.dense 2 1) (Sparsity.sparse 0 0) (Sparsity.dense 1 1)) none) := by
  refine ⟨by decide, by decide, ⟨0, 1, by decide, by decide, by decide, by decide⟩, rfl⟩

/-- C1, amended: the constructor accepts every dense column grid, with or without
inversions, and stores its non-zeros; the order of the grid is checked by `init()`: on a grid
with an inversion `init()` fails with the non-decreasing-grid error and leaves the node as it
was, and on a grid without inversion the grid check passes and no failure of `init()` is an
invalid-grid error. -/
theorem new_ok_and_init_checks_grid_order [LinearOrder R] [Zero R] (lay : OutputLayout)
    (name : String) (I : Integrator R F M) (fn : Option (Function R)) (grid : DMatrix R)
    (hcol : grid.iscolumn = true) (hdense : grid.isdense = true) :
    ∃ s, SimulatorInternal.new name I fn grid = .ok s ∧ s.grid_ = grid.data ∧
      (HasInversion grid.data → init lay s = (.error .gridNotNonDecreasing, s)) ∧
      (¬ HasInversion grid.data →
        (initIntegrator s).1 = .ok () ∧
          ∀ e, (init lay s).1 = .error e → e.kind ≠ .InvalidGrid) := by
  have hnew : SimulatorInternal.new name I fn grid =
      .ok ⟨name, I, fn, grid.data, .SCHEME_IntegratorInput, .unset, fun _ => none, [], []⟩ := by
    simp [SimulatorInternal.new, hcol, hdense]
  refine ⟨_, hnew, rfl, ?_, ?_⟩
  · intro hinv
    exact init_of_grid_bad lay _ ((isNonDecreasing_false_iff _).mpr hinv)
  · intro hinv
    have hg : isNonDecreasing grid.data = true := (isNonDecreasing_iff _).mpr hinv
    refine ⟨?_, ?_⟩
    · rw [initIntegrator_fst]
      simp [hg]
    · intro e he
      rw [init_fst] at he
      rw [initOutcome_error_kind lay _ hg e he]
      decide

/-- C1, the amended statement at the grids `[1, 0]` and `[0, 1]`: both are accepted by the
constructor; `init()` fails on the first with the non-decreasing-grid error and passes the
grid check on the second. -/
theorem new_ok_and_init_checks_grid_order_witness :
    (∃ s, SimulatorInternal.new "sim"
        (holdIntegrator (Sparsity.dense 2 1) (Sparsity.sparse 0 0) (Sparsity.dense 1 1)) none
        (DMatrix.column [(1 : Int), 0]) = .ok s ∧
      init layout s = (.error .gridNotNonDecreasing, s)) ∧
    (∃ s, SimulatorInternal.new "sim"
        (holdIntegrator (Sparsity.dense 2 1) (Sparsity.sparse 0 0) (Sparsity.dense 1 1)) none
        (DMatrix.column [(0 : Int), 1]) = .ok s ∧
      (initIntegrator s).1 = .ok ()) := by
  constructor
  · obtain ⟨s, h1, -, h3, -⟩ := new_ok_and_init_checks_grid_order layout "sim"
      (holdIntegrator (Sparsity.dense 2 1) (Sparsity.sparse 0 0) (Sparsity.dense 1 1)) none
      (DMatrix.column [(1 : Int), 0]) (by decide) (by decide)
    exact ⟨s, h1, h3 ⟨0, 1, by decide, by decide, by decide, by decide⟩⟩
  · obtain ⟨s, h1, -, -, h4⟩ := new_ok_and_init_checks_grid_order layout "sim"
      (holdIntegrator (Sparsity.dense 2 1) (Sparsity.sparse 0 0) (Sparsity.dense 1 1)) none
      (DMatrix.column [(0 : Int), 1]) (by decide) (by decide)
    refine ⟨s, h1, (h4 ?_).1⟩
    rw [← isNonDecreasing_iff]
    decide

/-- C5, counterexample: the constructor accepts the grid `[1, 0]`; the parameter slot of the
output function is dense `2 × 1`, in use, and differs from the dense `3 × 1` parameter slot
of the integrator; `init()` fails at its grid assertion, which comes first, and the failure
is an invalid-grid error, not a schema mismatch. -/
theorem init_parameter_mismatch_on_grid_with_inversion :
    SimulatorInternal.new "sim"
        (holdIntegrator (Sparsity.dense 2 1) (Sparsity.sparse 0 0) (Sparsity.dense 3 1))
        (some (sampleFcn (Sparsity.dense 1 1) (Sparsity.dense 2 1) (Sparsity.sparse 0 0)
          (Sparsity.dense 2 1) [Sparsity.dense 2 1]))
        (DMatrix.column [(1 : Int), 0]) =
      .ok (node [1, 0]
        (holdIntegrator (Sparsity.dense 2 1) (Sparsity.sparse 0 0) (Sparsity.dense 3 1))
        (some (sampleFcn (Sparsity.dense 1 1) (Sparsity.dense 2 1) (Sparsity.sparse 0 0)
          (Sparsity.dense 2 1) [Sparsity.dense 2 1]))) ∧
    ((sampleFcn (Sparsity.dense 1 1) (Sparsity.dense 2 1) (Sparsity.sparse 0 0)
        (Sparsity.dense 2 1) [Sparsity.dense 2 1] : Function Int).input DAE_P).sparsity ≠
      ((holdIntegrator (Sparsity.dense 2 1) (Sparsity.sparse 0 0)
        (Sparsity.dense 3 1)).input INTEGRATOR_P).sparsity ∧
    0 < ((sampleFcn (Sparsity.dense 1 1) (Sparsity.dense 2 1) (Sparsity.sparse 0 0)
        (Sparsity.dense 2 1) [Sparsity.dense 2 1] : Function Int).input DAE_P).nnz ∧
    (init layout (node [1, 0]
        (holdIntegrator (Sparsity.dense 2 1) (Sparsity.sparse 0 0) (Sparsity.dense 3 1))
        (some (sampleFcn (Sparsity.dense 1 1) (Sparsity.dense 2 1) (Sparsity.sparse 0 0)
          (Sparsity.dense 2 1) [Sparsity.dense 2 1])))).1 = .error .gridNotNonDecreasing ∧
    Error.gridNotNonDecreasing.kind = .InvalidGrid ∧
    Error.gridNotNonDecreasing.kind ≠ .SchemaMismatch := by
  refine ⟨rfl, by decide, by decide, ?_, rfl, by decide⟩
  rw [init_fst]
  rfl

/-- C5, amended: whenever the parameter slot of the output function has at least one
structural non-zero and a pattern `s_eval` different from the pattern `s_int` of the parameter
slot of the integrator, `init()` fails. On a non-decreasing grid the failure is a schema
mismatch, and it is the parameter-argument error when the assertions that come before it pass
(every output is empty or a column, the time slot has at most one element). On a grid that is
not non-decreasing the failure is the non-decreasing-grid error. -/
theorem init_rejects_parameter_mismatch [LinearOrder R] [Zero R] (lay : OutputLayout)
    (s : SimulatorInternal R F M) (fn : Function R) (s_eval s_int : Sparsity)
    (hfn : s.output_fcn_ = some fn)
    (heval : (fn.input DAE_P).sparsity = s_eval)
    (hint : (s.integrator_.input INTEGRATOR_P).sparsity = s_int)
    (hne : s_eval ≠ s_int) (hnz : 0 < s_eval.nnz) :
    ∃ e, (init lay s).1 = .error e ∧
      (isNonDecreasing s.grid_ = true → e.kind = .SchemaMismatch) ∧
      (isNonDecreasing s.grid_ = true →
        (∀ (i : Nat) (o : DMatrix R), fn.output i = some o → notColumnLike o = false) →
        (fn.input DAE_T).numel ≤ 1 → e = .parameterArgument) ∧
      (isNonDecreasing s.grid_ = false → e = .gridNotNonDecreasing) := by
  have hemp : (fn.input DAE_P).isempty = false := by
    unfold DMatrix.isempty
    rw [heval]
    exact s_eval.isempty_eq_false_of_nnz_pos hnz
  have hpar : (fn.input DAE_P).isempty = false ∧
      (s.integrator_.input INTEGRATOR_P).sparsity ≠ (fn.input DAE_P).sparsity := by
    refine ⟨hemp, ?_⟩
    rw [heval, hint]
    exact fun h => hne h.symm
  have hout : ∃ e, s.initOutcome lay = .error e := by
    unfold initOutcome
    rw [initFcn_of_some lay s fn hfn]
    split
    · exact ⟨_, rfl⟩
    · split
      · exact ⟨_, rfl⟩
      · split
        · exact ⟨_, rfl⟩
        · exact ⟨_, rfl⟩
  obtain ⟨e, he⟩ := hout
  refine ⟨e, ?_, ?_, ?_, ?_⟩
  · rw [init_fst]; exact he
  · intro hg
    exact initOutcome_error_kind lay s hg e he
  · intro hg hcols htime
    have hfind : (List.range fn.n_out).find? (fun i =>
        match fn.output i with
        | some o => notColumnLike o
        | none => false) = none := by
      rw [List.find?_eq_none]
      intro i _
      cases ho : fn.output i with
      | none => simp
      | some o => simp [hcols i o ho]
    unfold initOutcome at he
    rw [initFcn_of_some lay s fn hfn, if_neg (by rw [hg]; decide), hfind] at he
    simp only [] at he
    rw [if_neg (not_not.mpr htime), if_pos hpar] at he
    cases he
    rfl
  · intro hg
    unfold initOutcome at he
    rw [if_pos hg] at he
    cases he
    rfl

/-- C5, the amended statement at an output function with a dense `2 × 1` parameter slot over
an integrator with a dense `3 × 1` parameter slot, on the grid `[0, 1]`: `init()` fails with
the parameter-argument error, a schema mismatch. -/
theorem init_rejects_parameter_mismatch_witness :
    (init layout (node [0, 1]
        (holdIntegrator (Sparsity.dense 2 1) (Sparsity.sparse 0 0) (Sparsity.dense 3 1))
        (some (sampleFcn (Sparsity.dense 1 1) (Sparsity.dense 2 1) (Sparsity.sparse 0 0)
          (Sparsity.dense 2 1) [Sparsity.dense 2 1])))).1 = .error .parameterArgument ∧
    Error.parameterArgument.kind = .SchemaMismatch := by
  obtain ⟨e, he, -, h3, -⟩ := init_rejects_parameter_mismatch layout
    (node [0, 1]
      (holdIntegrator (Sparsity.dense 2 1) (Sparsity.sparse 0 0) (Sparsity.dense 3 1))
      (some (sampleFcn (Sparsity.dense 1 1) (Sparsity.dense 2 1) (Sparsity.sparse 0 0)
        (Sparsity.dense 2 1) [Sparsity.dense 2 1])))
    (sampleFcn (Sparsity.dense 1 1) (Sparsity.dense 2 1) (Sparsity.sparse 0 0)
      (Sparsity.dense 2 1) [Sparsity.dense 2 1])
    (Sparsity.dense 2 1) (Sparsity.dense 3 1) rfl rfl rfl (by decide) (by decide)
  have hcols : ∀ (i : Nat) (o : DMatrix Int),
      (sampleFcn (Sparsity.dense 1 1) (Sparsity.dense 2 1) (Sparsity.sparse 0 0)
        (Sparsity.dense 2 1) [Sparsity.dense 2 1]).output i = some o →
      notColumnLike o = false := by
    intro i o ho
    cases i with
    | zero =>
      simp only [Function.output, sampleFcn, List.map_cons, List.getElem?_cons_zero,
        Option.some.injEq] at ho
      subst ho
      decide
    | succ i =>
      simp [Function.output, sampleFcn] at ho
  have hpe := h3 (by decide) hcols (by decide)
  subst hpe
  exact ⟨he, rfl⟩

/-- C6, counterexample: a time slot of shape `2 × 1` without any structural non-zero is
unused, yet the time assertion rejects it and `init()` fails with the time-argument error;
and on the grid `[1, 0]` a dense `2 × 1` time slot, neither scalar nor unused, makes `init()`
fail with the non-decreasing-grid error, an invalid-grid error and not a schema mismatch. -/
theorem init_rejects_unused_time_slot :
    ((sampleFcn (Sparsity.sparse 2 1) (Sparsity.dense 2 1) (Sparsity.sparse 0 0)
        (Sparsity.sparse 0 0) [Sparsity.dense 2 1] : Function Int).input DAE_T).nnz = 0 ∧
    (init layout (node [0, 1]
        (holdIntegrator (Sparsity.dense 2 1) (Sparsity.sparse 0 0) (Sparsity.sparse 0 0))
        (some (sampleFcn (Sparsity.sparse 2 1) (Sparsity.dense 2 1) (Sparsity.sparse 0 0)
          (Sparsity.sparse 0 0) [Sparsity.dense 2 1])))).1 = .error .timeArgument ∧
    ((sampleFcn (Sparsity.dense 2 1) (Sparsity.dense 2 1) (Sparsity.sparse 0 0)
        (Sparsity.sparse 0 0) [Sparsity.dense 2 1] : Function Int).input DAE_T).nnz = 2 ∧
    (init layout (node [1, 0]
        (holdIntegrator (Sparsity.dense 2 1) (Sparsity.sparse 0 0) (Sparsity.sparse 0 0))
        (some (sampleFcn (Sparsity.dense 2 1) (Sparsity.dense 2 1) (Sparsity.sparse 0 0)
          (Sparsity.sparse 0 0) [Sparsity.dense 2 1])))).1 = .error .gridNotNonDecreasing ∧
    Error.gridNotNonDecreasing.kind ≠ .SchemaMismatch := by
  refine ⟨rfl, ?_, rfl, ?_, by decide⟩
  · rw [init_fst]
    rfl
  · rw [init_fst]
    rfl

/-- C6, amended: the time assertion of `init()` accepts the time slot of the output function
exactly when the slot has at most one element, that is when it is `1 × 1` or has zero rows or
zero columns. A slot that is not `1 × 1` and has a structural non-zero makes `init()` fail:
on a non-decreasing grid with a schema mismatch, which is the time-argument error when the
output assertion, which comes before it, passes (every output is empty or a column); on a
grid that is not non-decreasing with the non-decreasing-grid error. -/
theorem time_slot_accepted_iff [LinearOrder R] [Zero R] (lay : OutputLayout)
    (s : SimulatorInternal R F M) (fn : Function R) (hfn : s.output_fcn_ = some fn) :
    ((checkTimeArgument s).1 = .ok () ↔
      ((fn.input DAE_T).sparsity.size1 = 1 ∧ (fn.input DAE_T).sparsity.size2 = 1) ∨
        (fn.input DAE_T).isempty = true) ∧
    (¬ ((fn.input DAE_T).sparsity.size1 = 1 ∧ (fn.input DAE_T).sparsity.size2 = 1) →
      (fn.input DAE_T).nnz ≠ 0 →
      ∃ e, (init lay s).1 = .error e ∧
        (isNonDecreasing s.grid_ = true → e.kind = .SchemaMismatch) ∧
        (isNonDecreasing s.grid_ = true →
          (∀ (i : Nat) (o : DMatrix R), fn.output i = some o → notColumnLike o = false) →
          e = .timeArgument) ∧
        (isNonDecreasing s.grid_ = false → e = .gridNotNonDecreasing)) := by
  have hnum := (fn.input DAE_T).sparsity.numel_le_one_iff
  refine ⟨?_, ?_⟩
  · rw [checkTimeArgument_eq s fn hfn]
    show (if (fn.input DAE_T).sparsity.numel ≤ 1 then (Except.ok () : Except Error Unit)
      else .error .timeArgument) = .ok () ↔ _
    show _ ↔ ((fn.input DAE_T).sparsity.size1 = 1 ∧ (fn.input DAE_T).sparsity.size2 = 1) ∨
        (fn.input DAE_T).sparsity.isempty = true
    rw [← hnum]
    by_cases h : (fn.input DAE_T).sparsity.numel ≤ 1
    · simp [h]
    · simp [h]
  · intro hsc hnz
    have hemp : (fn.input DAE_T).sparsity.isempty = false :=
      Sparsity.isempty_eq_false_of_nnz_pos _ (Nat.pos_of_ne_zero hnz)
    have hbig : ¬ (fn.input DAE_T).numel ≤ 1 := by
      intro hle
      rcases hnum.mp hle with h1 | h2
      · exact hsc h1
      · rw [hemp] at h2
        exact Bool.false_ne_true h2
    have hout : ∃ e, s.initOutcome lay = .error e := by
      unfold initOutcome
      rw [initFcn_of_some lay s fn hfn]
      split
      · exact ⟨_, rfl⟩
      · split
        · exact ⟨_, rfl⟩
        · exact ⟨_, rfl⟩
    obtain ⟨e, he⟩ := hout
    refine ⟨e, ?_, ?_, ?_, ?_⟩
    · rw [init_fst]; exact he
    · intro hg
      exact initOutcome_error_kind lay s hg e he
    · intro hg hcols
      have hfind : (List.range fn.n_out).find? (fun i =>
          match fn.output i with
          | some o => notColumnLike o
          | none => false) = none := by
        rw [List.find?_eq_none]
        intro i _
        cases ho : fn.output i with
        | none => simp
        | some o => simp [hcols i o ho]
      unfold initOutcome at he
      rw [initFcn_of_some lay s fn hfn, if_neg (by rw [hg]; decide), hfind] at he
      simp only [] at he
      rw [if_pos hbig] at he
      cases he
      rfl
    · intro hg
      unfold initOutcome at he
      rw [if_pos hg] at he
      cases he
      rfl

/-- C6, the amended statement at an output function with a dense `2 × 1` time slot on the
grid `[0, 1]`: the slot is neither `1 × 1` nor empty, the assertion rejects it and `init()`
fails with the time-argument error, a schema mismatch. -/
theorem time_slot_accepted_iff_witness :
    ((checkTimeArgument (node [0, 1]
        (holdIntegrator (Sparsity.dense 2 1) (Sparsity.sparse 0 0) (Sparsity.sparse 0 0))
        (some (sampleFcn (Sparsity.dense 2 1) (Sparsity.dense 2 1) (Sparsity.sparse 0 0)
          (Sparsity.sparse 0 0) [Sparsity.dense 2 1])))).1 = .ok () ↔
      (((sampleFcn (Sparsity.dense 2 1) (Sparsity.dense 2 1) (Sparsity.sparse 0 0)
          (Sparsity.sparse 0 0) [Sparsity.dense 2 1] : Function Int).input DAE_T).sparsity.size1 = 1 ∧
        ((sampleFcn (Sparsity.dense 2 1) (Sparsity.dense 2 1) (Sparsity.sparse 0 0)
          (Sparsity.sparse 0 0) [Sparsity.dense 2 1] : Function Int).input DAE_T).sparsity.size2 = 1) ∨
        ((sampleFcn (Sparsity.dense 2 1) (Sparsity.dense 2 1) (Sparsity.sparse 0 0)
          (Sparsity.sparse 0 0) [Sparsity.dense 2 1] : Function Int).input DAE_T).isempty = true) ∧
    (init layout (node [0, 1]
        (holdIntegrator (Sparsity.dense 2 1) (Sparsity.sparse 0 0) (Sparsity.sparse 0 0))
        (some (sampleFcn (Sparsity.dense 2 1) (Sparsity.dense 2 1) (Sparsity.sparse 0 0)
          (Sparsity.sparse 0 0) [Sparsity.dense 2 1])))).1 = .error .timeArgument ∧
    Error.timeArgument.kind = .SchemaMismatch := by
  have hthm := time_slot_accepted_iff layout
    (node [0, 1]
      (holdIntegrator (Sparsity.dense 2 1) (Sparsity.sparse 0 0) (Sparsity.sparse 0 0))
      (some (sampleFcn (Sparsity.dense 2 1) (Sparsity.dense 2 1) (Sparsity.sparse 0 0)
        (Sparsity.sparse 0 0) [Sparsity.dense 2 1])))
    (sampleFcn (Sparsity.dense 2 1) (Sparsity.dense 2 1) (Sparsity.sparse 0 0)
      (Sparsity.sparse 0 0) [Sparsity.dense 2 1]) rfl
  obtain ⟨e, he, -, h3, -⟩ := hthm.2 (by decide) (by decide)
  have hcols : ∀ (i : Nat) (o : DMatrix Int),
      (sampleFcn (Sparsity.dense 2 1) (Sparsity.dense 2 1) (Sparsity.sparse 0 0)
        (Sparsity.sparse 0 0) [Sparsity.dense 2 1]).output i = some o →
      notColumnLike o = false := by
    intro i o ho
    cases i with
    | zero =>
      simp only [Function.output, sampleFcn, List.map_cons, List.getElem?_cons_zero,
        Option.some.injEq] at ho
      subst ho
      decide
    | succ i =>
      simp [Function.output, sampleFcn] at ho
  have hte := h3 (by decide) hcols
  subst hte
  exact ⟨hthm.1, he, rfl⟩

/-- C8, counterexample: every output of the output function is a column (`2 × 1`), and still
`init()` fails with a schema mismatch, raised by the time assertion on a `2 × 1` time slot. -/
theorem init_schema_mismatch_with_column_outputs :
    (¬ ∃ i o, (sampleFcn (Sparsity.dense 2 1) (Sparsity.dense 2 1) (Sparsity.sparse 0 0)
        (Sparsity.sparse 0 0) [Sparsity.dense 2 1] : Function Int).output i = some o ∧
        o.numel ≠ 0 ∧ o.sparsity.size2 ≠ 1) ∧
    (init layout (node [0, 1]
        (holdIntegrator (Sparsity.dense 2 1) (Sparsity.sparse 0 0) (Sparsity.sparse 0 0))
        (some (sampleFcn (Sparsity.dense 2 1) (Sparsity.dense 2 1) (Sparsity.sparse 0 0)
          (Sparsity.sparse 0 0) [Sparsity.dense 2 1])))).1 = .error .timeArgument ∧
    Error.timeArgument.kind = .SchemaMismatch := by
  refine ⟨?_, ?_, rfl⟩
  · rintro ⟨i, o, ho, -, h2⟩
    cases i with
    | zero =>
      simp only [Function.output, sampleFcn, List.map_cons, List.getElem?_cons_zero,
        Option.some.injEq] at ho
      subst ho
      exact h2 rfl
    | succ i =>
      simp [Function.output, sampleFcn] at ho
  · rw [init_fst]
    rfl

/-- C8, amended: on a non-decreasing grid the output assertion of `init()` fails, with the
error naming an output, exactly when some declared output has a non-zero element count and a
column count different from 1; outputs with zero elements and outputs with one column pass
it. The other schema-mismatch failures of `init()` come from the slot assertions. -/
theorem init_output_assertion_iff [LinearOrder R] [Zero R] (lay : OutputLayout)
    (s : SimulatorInternal R F M) (hg : isNonDecreasing s.grid_ = true) :
    (∃ i, (init lay s).1 = .error (.outputNotColumn i)) ↔
      ∃ i o, (s.initFcn lay).output i = some o ∧ o.numel ≠ 0 ∧ o.sparsity.size2 ≠ 1 := by
  rw [init_fst]
  unfold initOutcome
  simp only [hg, Bool.true_eq_false, if_false]
  cases hfind : (List.range (s.initFcn lay).n_out).find? (fun i =>
      match (s.initFcn lay).output i with
      | some o => notColumnLike o
      | none => false) with
  | some i =>
    simp only []
    have hsome := List.find?_some hfind
    constructor
    · intro _
      cases ho : (s.initFcn lay).output i with
      | none => rw [ho] at hsome; simp at hsome
      | some o =>
        rw [ho] at hsome
        exact ⟨i, o, ho, (notColumnLike_iff o).mp hsome⟩
    · intro _
      exact ⟨i, rfl⟩
  | none =>
    simp only []
    rw [List.find?_eq_none] at hfind
    constructor
    · rintro ⟨i, hi⟩
      split at hi
      · cases hi
      · split at hi
        · cases hi
        · split at hi
          · cases hi
          · cases hi
    · rintro ⟨i, o, ho, hbad⟩
      have hi : i ∈ List.range (s.initFcn lay).n_out := by
        rw [List.mem_range]
        unfold Function.output at ho
        exact (List.getElem?_eq_some.mp ho).1
      have := hfind i hi
      rw [ho] at this
      exact absurd ((notColumnLike_iff o).mpr hbad) this

/-- C8, the amended statement at an output function with one `2 × 2` output. -/
theorem init_output_assertion_iff_witness :
    (∃ i, (init layout (node [0, 1]
        (holdIntegrator (Sparsity.dense 2 1) (Sparsity.sparse 0 0) (Sparsity.sparse 0 0))
        (some (sampleFcn (Sparsity.dense 1 1) (Sparsity.dense 2 1) (Sparsity.sparse 0 0)
          (Sparsity.sparse 0 0) [Sparsity.dense 2 2])))).1 = .error (.outputNotColumn i)) ↔
      ∃ i o, ((node [0, 1]
        (holdIntegrator (Sparsity.dense 2 1) (Sparsity.sparse 0 0) (Sparsity.sparse 0 0))
        (some (sampleFcn (Sparsity.dense 1 1) (Sparsity.dense 2 1) (Sparsity.sparse 0 0)
          (Sparsity.sparse 0 0) [Sparsity.dense 2 2]))).initFcn layout).output i = some o ∧
        o.numel ≠ 0 ∧ o.sparsity.size2 ≠ 1 :=
  init_output_assertion_iff layout _ (by decide)

/-- C10: on a non-empty non-decreasing grid `init()` leaves in the node a fresh instance of
the plugin of the supplied integrator, built from the same name and the same functions `f`,
`g`, initialized, without any recorded call, whose option `t0` is the first grid point and
whose option `tf` is the last one, so that `t0 ≤ tf` and `t0 = tf` on a one-point grid; every
other option the supplied integrator defines has the same value in the fresh one, and an
option it does not define keeps the default of the plugin. On the empty grid `init()` leaves
the supplied integrator as it is, and when it succeeds every output buffer has zero columns
and no entry. -/
theorem init_rederives_integrator [LinearOrder R] [Zero R] (lay : OutputLayout)
    (s : SimulatorInternal R F M) :
    (∀ (g0 : R) (gs : List R), s.grid_ = g0 :: gs → isNonDecreasing s.grid_ = true →
      (init lay s).2.integrator_.cls = s.integrator_.cls ∧
      (init lay s).2.integrator_.name = s.integrator_.name ∧
      (init lay s).2.integrator_.f_ = s.integrator_.f_ ∧
      (init lay s).2.integrator_.g_ = s.integrator_.g_ ∧
      (init lay s).2.integrator_.is_init = true ∧
      (init lay s).2.integrator_.calls = [] ∧
      (init lay s).2.integrator_.dictionary "t0" = some (.double g0) ∧
      (init lay s).2.integrator_.dictionary "tf" =
        some (.double ((g0 :: gs).getLast (List.cons_ne_nil g0 gs))) ∧
      g0 ≤ (g0 :: gs).getLast (List.cons_ne_nil g0 gs) ∧
      (gs = [] → (g0 :: gs).getLast (List.cons_ne_nil g0 gs) = g0) ∧
      (∀ k : String, k ≠ "t0" → k ≠ "tf" →
        (init lay s).2.integrator_.dictionary k =
          match s.integrator_.dictionary k with
          | some v => some v
          | none => s.integrator_.cls.defaults k)) ∧
    (s.grid_ = [] →
      (init lay s).2.integrator_ = s.integrator_ ∧
      ((init lay s).1 = .ok () →
        (init lay s).2.obuf_.length = (s.initFcn lay).n_out ∧
        ∀ (j : Nat) (b : DMatrix R), (init lay s).2.obuf_[j]? = some b →
          b.sparsity.size2 = 0 ∧ b.data = [])) := by
  refine ⟨?_, ?_⟩
  · intro g0 gs hgrid hg
    rw [hgrid] at hg
    rw [init_integrator, initIntegrator_cons s g0 gs hgrid hg]
    refine ⟨rfl, rfl, rfl, rfl, rfl, rfl, ?_, ?_, ?_, ?_, ?_⟩
    · simp [Integrator.init, Integrator.setOption, Integrator.setOptions, Integrator.create,
        Dict.setOption]
    · simp [Integrator.init, Integrator.setOption, Integrator.setOptions, Integrator.create,
        Dict.setOption]
    · exact head_le_getLast_of_isNonDecreasing g0 gs hg
    · intro hgs
      subst hgs
      rfl
    · intro k h0 hf
      simp only [Integrator.init, Integrator.setOption, Integrator.setOptions,
        Integrator.create, Dict.setOption, Dict.setOptions, if_neg h0, if_neg hf]
  · intro hgrid
    refine ⟨?_, ?_⟩
    · rw [init_integrator, initIntegrator_nil s hgrid]
    · intro hok
      obtain ⟨-, -, -, -, hlen, hbuf, -⟩ := init_ok_spec lay s hok
      refine ⟨hlen, ?_⟩
      intro j b hb
      rw [hbuf j, hgrid] at hb
      cases ho : (s.initFcn lay).obuf[j]? with
      | none => rw [ho] at hb; simp at hb
      | some o =>
        rw [ho] at hb
        simp only [Option.map_some', Option.some.injEq] at hb
        subst hb
        refine ⟨rfl, ?_⟩
        simp [DMatrix.zeros, DMatrix.zerosOf, Sparsity.dense_nnz]

/-- C10 at the grid `[0, 2, 5]` and at the empty grid. -/
theorem init_rederives_integrator_witness :
    ((init layout (node [0, 2, 5]
        (holdIntegrator (Sparsity.dense 2 1) (Sparsity.sparse 0 0) (Sparsity.dense 1 1))
        none)).2.integrator_.dictionary "t0" = some (.double 0) ∧
      (init layout (node [0, 2, 5]
        (holdIntegrator (Sparsity.dense 2 1) (Sparsity.sparse 0 0) (Sparsity.dense 1 1))
        none)).2.integrator_.dictionary "tf" = some (.double 5) ∧
      (init layout (node [0, 2, 5]
        (holdIntegrator (Sparsity.dense 2 1) (Sparsity.sparse 0 0) (Sparsity.dense 1 1))
        none)).2.integrator_.dictionary "abstol" = some (.integer 7)) ∧
    (init layout (node []
        (holdIntegrator (Sparsity.dense 2 1) (Sparsity.sparse 0 0) (Sparsity.dense 1 1))
        none)).2.integrator_ =
      holdIntegrator (Sparsity.dense 2 1) (Sparsity.sparse 0 0) (Sparsity.dense 1 1) := by
  have h1 := (init_rederives_integrator layout (node [0, 2, 5]
    (holdIntegrator (Sparsity.dense 2 1) (Sparsity.sparse 0 0) (Sparsity.dense 1 1)) none)).1
    0 [2, 5] rfl (by decide)
  have h2 := (init_rederives_integrator layout (node []
    (holdIntegrator (Sparsity.dense 2 1) (Sparsity.sparse 0 0) (Sparsity.dense 1 1)) none)).2 rfl
  obtain ⟨-, -, -, -, -, -, ht0, htf, -, -, hk⟩ := h1
  refine ⟨⟨ht0, htf, ?_⟩, h2.1⟩
  rw [hk "abstol" (by decide) (by decide)]
  rfl

end InitProperties

/-! ## Copies through an iterator -/

section CopyFacts

variable {α : Type}

theorem length_copyAt_ge (dst : List α) (pos : Nat) (src : List α) (h : pos ≤ dst.length) :
    pos + src.length ≤ (copyAt dst pos src).length := by
  simp only [copyAt, List.length_append, List.length_take, List.length_drop]
  omega

theorem take_copyAt (dst : List α) (pos : Nat) (src : List α) (h : pos ≤ dst.length) :
    (copyAt dst pos src).take (pos + src.length) = dst.take pos ++ src := by
  unfold copyAt
  apply List.take_left'
  simp only [List.length_append, List.length_take]
  omega

theorem drop_copyAt (dst : List α) (pos : Nat) (src : List α) (h : pos ≤ dst.length) (n : Nat) :
    (copyAt dst pos src).drop (pos + src.length + n) = dst.drop (pos + src.length + n) := by
  unfold copyAt
  have hlen : (dst.take pos ++ src).length = pos + src.length := by
    simp only [List.length_append, List.length_take]
    omega
  rw [← hlen, List.drop_append, List.drop_drop, hlen]

theorem fillFrom_eq (dst : List α) (pos : Nat) (rs : List (List α)) (hpos : pos ≤ dst.length) :
    fillFrom dst pos rs =
      dst.take pos ++ rs.flatten ++ dst.drop (pos + rs.flatten.length) := by
  induction rs generalizing dst pos with
  | nil => simp [fillFrom]
  | cons r rs ih =>
    have h1 : pos + r.length ≤ (copyAt dst pos r).length := length_copyAt_ge dst pos r hpos
    rw [fillFrom, ih (copyAt dst pos r) (pos + r.length) h1, take_copyAt dst pos r hpos,
      drop_copyAt dst pos r hpos]
    simp only [List.flatten, List.length_append, List.append_assoc, Nat.add_assoc]

theorem length_flatten_const (rs : List (List α)) (c : Nat) (hc : ∀ r ∈ rs, r.length = c) :
    rs.flatten.length = rs.length * c := by
  induction rs with
  | nil => simp
  | cons r rs ih =>
    have h1 : r.length = c := hc r (List.mem_cons_self _ _)
    have h2 := ih (fun x hx => hc x (List.mem_cons_of_mem _ hx))
    simp only [List.flatten, List.length_append, List.length_cons, h1, h2, Nat.succ_mul]
    omega

theorem flatten_block (rs : List (List α)) (c : Nat) (hc : ∀ r ∈ rs, r.length = c)
    (k : Nat) (r : List α) (hk : rs[k]? = some r) :
    (rs.flatten.drop (k * c)).take c = r := by
  induction rs generalizing k with
  | nil => simp at hk
  | cons r0 rs ih =>
    have h1 : r0.length = c := hc r0 (List.mem_cons_self _ _)
    cases k with
    | zero =>
      simp only [List.getElem?_cons_zero, Option.some.injEq] at hk
      subst hk
      simp only [Nat.zero_mul, List.drop_zero, List.flatten]
      exact List.take_left' h1
    | succ k =>
      simp only [List.getElem?_cons_succ] at hk
      have h2 := ih (fun x hx => hc x (List.mem_cons_of_mem _ hx)) k hk
      have h3 : (k + 1) * c = r0.length + k * c := by rw [Nat.succ_mul, h1]; omega
      rw [h3]
      simp only [List.flatten]
      rw [List.drop_append]
      exact h2

end CopyFacts

/-! ## Analysis of `evaluate()` -/

namespace Op

variable {σ α : Type}

theorem seq_eq_of_eq {a b : Op σ} {s s1 : σ} (h : a s = (.ok (), s1)) : seq a b s = b s1 := by
  unfold seq
  rw [h]

theorem seq_eq_of_error {a b : Op σ} {s s1 : σ} {e : Error} (h : a s = (.error e, s1)) :
    seq a b s = (.error e, s1) := by
  unfold seq
  rw [h]

theorem forEach_singleton (x : α) (body : α → Op σ) (s : σ) :
    forEach [x] body s = body x s := by
  rw [forEach_cons]
  unfold seq
  rcases body x s with ⟨r, s1⟩
  cases r with
  | ok u => rfl
  | error e => rfl

theorem forEach_range_succ (m : Nat) (body : Nat → Op σ) (s s1 : σ)
    (h : forEach (List.range m) body s = (.ok (), s1)) :
    forEach (List.range (m + 1)) body s = body m s1 := by
  rw [List.range_succ, forEach_append, seq_eq_of_eq h, forEach_singleton]

end Op

section PassFacts

variable {R : Type}

theorem passedInputs_sparsity (ib : DAEInput → DMatrix R) (t : R) (xf zf p : DMatrix R)
    (slot : DAEInput) : (passedInputs ib t xf zf p slot).sparsity = (ib slot).sparsity := by
  unfold passedInputs
  split
  · cases slot <;> rfl
  · rfl

theorem passedInputs_absorb (ib : DAEInput → DMatrix R) (t0 t : R)
    (xf0 zf0 p0 xf zf p : DMatrix R) :
    passedInputs (passedInputs ib t0 xf0 zf0 p0) t xf zf p = passedInputs ib t xf zf p := by
  funext slot
  have hsp := passedInputs_sparsity ib t0 xf0 zf0 p0
  by_cases h : (ib slot).nnz ≠ 0
  · have h1 : (passedInputs ib t0 xf0 zf0 p0 slot).nnz ≠ 0 := by
      unfold DMatrix.nnz at h ⊢
      rw [hsp]; exact h
    unfold passedInputs at h1 ⊢
    rw [if_pos h1, if_pos h]
    cases slot <;> simp only [] <;> rw [if_pos h]
  · have h1 : ¬ (passedInputs ib t0 xf0 zf0 p0 slot).nnz ≠ 0 := by
      unfold DMatrix.nnz at h ⊢
      rw [hsp]; exact h
    unfold passedInputs at h1 ⊢
    rw [if_neg h1, if_neg h, if_neg h]

theorem getElem?_evalOutputs (f : (DAEInput → DMatrix R) → Nat → Nat → R)
    (ib : DAEInput → DMatrix R) (i : Nat) (obuf : List (DMatrix R)) (j : Nat) :
    (Function.evalOutputs f ib i obuf)[j]? =
      (obuf[j]?).map (fun o => Function.result f ib (i + j) o.sparsity) := by
  induction obuf generalizing i j with
  | nil => simp [Function.evalOutputs]
  | cons o os ih =>
    cases j with
    | zero => simp [Function.evalOutputs]
    | succ j =>
      simp only [Function.evalOutputs, List.getElem?_cons_succ]
      rw [ih (i + 1) j]
      have : i + 1 + j = i + (j + 1) := by omega
      rw [this]

theorem length_evalOutputs (f : (DAEInput → DMatrix R) → Nat → Nat → R)
    (ib : DAEInput → DMatrix R) (i : Nat) (obuf : List (DMatrix R)) :
    (Function.evalOutputs f ib i obuf).length = obuf.length := by
  induction obuf generalizing i with
  | nil => rfl
  | cons o os ih => simp [Function.evalOutputs, ih]

theorem length_result_data (f : (DAEInput → DMatrix R) → Nat → Nat → R)
    (ib : DAEInput → DMatrix R) (i : Nat) (sp : Sparsity) :
    (Function.result f ib i sp).data.length = sp.nnz := by
  simp [Function.result]

/-- The four conditional transfers of a pass, made in the order of the source, leave the
input buffers `passedInputs` describes. -/
theorem transfers_eq (fn : Function R) (t : R) (xf zf p : DMatrix R) :
    let fn1 := if (fn.input DAE_T).nnz ≠ 0 then fn.setInputScalar t DAE_T else fn
    let fn2 := if (fn1.input DAE_X).nnz ≠ 0 then fn1.assign xf DAE_X else fn1
    let fn3 := if (fn2.input DAE_Z).nnz ≠ 0 then fn2.assign zf DAE_Z else fn2
    let fn4 := if (fn3.input DAE_P).nnz ≠ 0 then fn3.assign p DAE_P else fn3
    fn4.evaluate = fn.sampled t xf zf p := by
  intro fn1 fn2 fn3 fn4
  have hib : fn4.ibuf = passedInputs fn.ibuf t xf zf p := by
    funext slot
    simp only [fn4, fn3, fn2, fn1, Function.input, Function.assign, Function.setInputScalar,
      passedInputs]
    by_cases hT : (fn.ibuf DAE_T).nnz ≠ 0 <;> by_cases hX : (fn.ibuf DAE_X).nnz ≠ 0 <;>
      by_cases hZ : (fn.ibuf DAE_Z).nnz ≠ 0 <;> by_cases hP : (fn.ibuf DAE_P).nnz ≠ 0 <;>
      cases slot <;> simp [hT, hX, hZ, hP]
  have hf : fn4.f = fn.f := by
    simp only [fn4, fn3, fn2, fn1]
    repeat' split
    all_goals rfl
  have hob : fn4.obuf = fn.obuf := by
    simp only [fn4, fn3, fn2, fn1]
    repeat' split
    all_goals rfl
  unfold Function.evaluate Function.sampled
  rw [hib, hf, hob]

end PassFacts

namespace SimulatorInternal

variable {R F M : Type}

theorem passTime_eq (t : R) (s : SimulatorInternal R F M) (fn : Function R)
    (hfn : s.output_fcn_ = some fn) :
    passTime t s =
      (.ok (),
        { s with
          output_fcn_ := some (if (fn.input DAE_T).nnz ≠ 0 then fn.setInputScalar t DAE_T else fn) }) := by
  obtain ⟨name, I, fn0, grid, isch, osch, ib, ob, its⟩ := s
  simp only [] at hfn
  subst hfn
  unfold passTime
  simp only []
  split <;> rfl

theorem passMatrix_eq (slot : DAEInput)
    (val : SimulatorInternal R F M → Except Error (DMatrix R))
    (s : SimulatorInternal R F M) (fn : Function R) (hfn : s.output_fcn_ = some fn)
    (v : DMatrix R) (hval : val s = .ok v)
    (hsp : (fn.input slot).nnz ≠ 0 → v.sparsity = (fn.ibuf slot).sparsity) :
    passMatrix slot val s =
      (.ok (),
        { s with
          output_fcn_ := some (if (fn.input slot).nnz ≠ 0 then fn.assign v slot else fn) }) := by
  obtain ⟨name, I, fn0, grid, isch, osch, ib, ob, its⟩ := s
  simp only [] at hfn
  subst hfn
  unfold passMatrix
  simp only []
  by_cases h : (fn.input slot).nnz ≠ 0
  · rw [if_pos h, if_pos h, hval]
    simp only [Function.setInput, hsp h, if_true]
  · rw [if_neg h, if_neg h]

theorem passMatrix_mismatch (slot : DAEInput)
    (val : SimulatorInternal R F M → Except Error (DMatrix R))
    (s : SimulatorInternal R F M) (fn : Function R) (hfn : s.output_fcn_ = some fn)
    (v : DMatrix R) (hval : val s = .ok v)
    (hnz : (fn.input slot).nnz ≠ 0) (hsp : v.sparsity ≠ (fn.ibuf slot).sparsity) :
    passMatrix slot val s = (.error .slotMismatch, s) := by
  unfold passMatrix
  simp only [hfn]
  rw [if_pos hnz, hval]
  simp only [Function.setInput, hsp, if_false]

theorem evaluateOutputFcn_eq (s : SimulatorInternal R F M) (fn : Function R)
    (hfn : s.output_fcn_ = some fn) :
    evaluateOutputFcn s = (.ok (), { s with output_fcn_ := some fn.evaluate }) := by
  unfold evaluateOutputFcn
  simp only [hfn]

theorem cond_assign_sparsity (g : Function R) (c : Prop) [Decidable c] (v : DMatrix R)
    (slot j : DAEInput) :
    ((if c then g.assign v slot else g).ibuf j).sparsity = (g.ibuf j).sparsity := by
  split
  · unfold Function.assign
    by_cases hj : j = slot
    · subst hj; simp
    · simp [hj]
  · rfl

theorem cond_scalar_sparsity (g : Function R) (c : Prop) [Decidable c] (t : R)
    (slot j : DAEInput) :
    ((if c then g.setInputScalar t slot else g).ibuf j).sparsity = (g.ibuf j).sparsity := by
  split
  · unfold Function.setInputScalar
    by_cases hj : j = slot
    · subst hj; simp
    · simp [hj]
  · rfl

/-- A pass of the time loop, up to its save loop. -/
theorem step_eq (t : R) (s : SimulatorInternal R F M) (fn : Function R) (p : DMatrix R)
    (h : s.LoopReady fn p) :
    step t s =
      Op.forEach (List.range s.obuf_.length) saveOutput
        { s with
          integrator_ := s.integrator_.integrate t
          output_fcn_ := some (fn.sampled t ((s.integrator_.integrate t).output INTEGRATOR_XF)
            ((s.integrator_.integrate t).output INTEGRATOR_ZF) p) } := by
  obtain ⟨name, I, fn0, grid, isch, osch, ib, ob, its⟩ := s
  obtain ⟨hfn, hp, -, -, hX, hZ, hP⟩ := h
  simp only [] at hfn hp hX hZ hP
  subst hfn
  have key := transfers_eq fn t ((I.integrate t).output INTEGRATOR_XF)
    ((I.integrate t).output INTEGRATOR_ZF) p
  simp only [] at key
  obtain ⟨fn1, hfn1⟩ : ∃ g, g = (if (fn.input DAE_T).nnz ≠ 0 then fn.setInputScalar t DAE_T
    else fn) := ⟨_, rfl⟩
  rw [← hfn1] at key
  obtain ⟨fn2, hfn2⟩ : ∃ g, g = (if (fn1.input DAE_X).nnz ≠ 0 then
    fn1.assign ((I.integrate t).output INTEGRATOR_XF) DAE_X else fn1) := ⟨_, rfl⟩
  rw [← hfn2] at key
  obtain ⟨fn3, hfn3⟩ : ∃ g, g = (if (fn2.input DAE_Z).nnz ≠ 0 then
    fn2.assign ((I.integrate t).output INTEGRATOR_ZF) DAE_Z else fn2) := ⟨_, rfl⟩
  rw [← hfn3] at key
  have s1 : ∀ j, (fn1.ibuf j).sparsity = (fn.ibuf j).sparsity := by
    intro j; rw [hfn1]; exact cond_scalar_sparsity fn _ t DAE_T j
  have s2 : ∀ j, (fn2.ibuf j).sparsity = (fn.ibuf j).sparsity := by
    intro j; rw [hfn2, cond_assign_sparsity fn1 _ _ DAE_X j]; exact s1 j
  have s3 : ∀ j, (fn3.ibuf j).sparsity = (fn.ibuf j).sparsity := by
    intro j; rw [hfn3, cond_assign_sparsity fn2 _ _ DAE_Z j]; exact s2 j
  have e1 : integrateTo t (⟨name, I, some fn, grid, isch, osch, ib, ob, its⟩ :
      SimulatorInternal R F M) =
      (.ok (), ⟨name, I.integrate t, some fn, grid, isch, osch, ib, ob, its⟩) := rfl
  have e2 : passTime t (⟨name, I.integrate t, some fn, grid, isch, osch, ib, ob, its⟩ :
      SimulatorInternal R F M) =
      (.ok (), ⟨name, I.integrate t, some fn1, grid, isch, osch, ib, ob, its⟩) := by
    rw [hfn1]
    exact passTime_eq t _ fn rfl
  have e3 : passMatrix DAE_X (fun s => .ok (s.integrator_.output INTEGRATOR_XF))
      (⟨name, I.integrate t, some fn1, grid, isch, osch, ib, ob, its⟩ :
        SimulatorInternal R F M) =
      (.ok (), ⟨name, I.integrate t, some fn2, grid, isch, osch, ib, ob, its⟩) := by
    rw [hfn2]
    refine passMatrix_eq DAE_X _ _ fn1 rfl _ rfl ?_
    intro hnz
    unfold Function.input DMatrix.nnz at hnz
    rw [s1 DAE_X] at hnz ⊢
    exact hX hnz
  have e4 : passMatrix DAE_Z (fun s => .ok (s.integrator_.output INTEGRATOR_ZF))
      (⟨name, I.integrate t, some fn2, grid, isch, osch, ib, ob, its⟩ :
        SimulatorInternal R F M) =
      (.ok (), ⟨name, I.integrate t, some fn3, grid, isch, osch, ib, ob, its⟩) := by
    rw [hfn3]
    refine passMatrix_eq DAE_Z _ _ fn2 rfl _ rfl ?_
    intro hnz
    unfold Function.input DMatrix.nnz at hnz
    rw [s2 DAE_Z] at hnz ⊢
    exact hZ hnz
  have e5 : passMatrix DAE_P inputP
      (⟨name, I.integrate t, some fn3, grid, isch, osch, ib, ob, its⟩ :
        SimulatorInternal R F M) =
      (.ok (), ⟨name, I.integrate t,
        some (if (fn3.input DAE_P).nnz ≠ 0 then fn3.assign p DAE_P else fn3),
        grid, isch, osch, ib, ob, its⟩) := by
    refine passMatrix_eq DAE_P _ _ fn3 rfl p ?_ ?_
    · unfold inputP
      simp only [hp]
    · intro hnz
      unfold Function.input DMatrix.nnz at hnz
      rw [s3 DAE_P] at hnz ⊢
      exact hP hnz
  have e6 : evaluateOutputFcn
      (⟨name, I.integrate t,
        some (if (fn3.input DAE_P).nnz ≠ 0 then fn3.assign p DAE_P else fn3),
        grid, isch, osch, ib, ob, its⟩ : SimulatorInternal R F M) =
      (.ok (), ⟨name, I.integrate t,
        some (fn.sampled t ((I.integrate t).output INTEGRATOR_XF)
          ((I.integrate t).output INTEGRATOR_ZF) p),
        grid, isch, osch, ib, ob, its⟩) := by
    rw [← key]
    exact evaluateOutputFcn_eq _ _ rfl
  unfold step
  rw [Op.seq_eq_of_eq e1, Op.seq_eq_of_eq e2, Op.seq_eq_of_eq e3, Op.seq_eq_of_eq e4,
    Op.seq_eq_of_eq e5, Op.seq_eq_of_eq e6]
  rfl

theorem saveOutput_eq (i : Nat) (s : SimulatorInternal R F M) (fn : Function R)
    (hfn : s.output_fcn_ = some fn) (res : DMatrix R) (hres : fn.obuf[i]? = some res)
    (it : Nat) (hit : s.output_its_[i]? = some it) (buf : DMatrix R)
    (hbuf : s.obuf_[i]? = some buf) :
    saveOutput i s =
      (.ok (),
        { s with
          obuf_ := s.obuf_.set i { buf with data := copyAt buf.data it res.data }
          output_its_ := s.output_its_.set i (it + res.nnz) }) := by
  unfold saveOutput
  simp only [hfn, Function.output, hres, hit, hbuf]

/-- The save loop over the first `m` outputs: it does not throw, it leaves the buffers and
iterators from `m` on as they were, and for an index below `m` it copies the output at the
iterator and advances the iterator by the number of non-zeros of the output. -/
theorem saveLoop_spec (s : SimulatorInternal R F M) (fn : Function R)
    (hfn : s.output_fcn_ = some fn) (hob : s.obuf_.length = fn.obuf.length)
    (hits : s.output_its_.length = fn.obuf.length) (m : Nat) (hm : m ≤ fn.obuf.length) :
    ∃ ob its, Op.forEach (List.range m) saveOutput s =
        (.ok (), { s with obuf_ := ob, output_its_ := its }) ∧
      ob.length = s.obuf_.length ∧ its.length = s.output_its_.length ∧
      (∀ j : Nat, m ≤ j → ob[j]? = s.obuf_[j]? ∧ its[j]? = s.output_its_[j]?) ∧
      (∀ j : Nat, j < m → ∀ (buf : DMatrix R) (it : Nat) (res : DMatrix R),
        s.obuf_[j]? = some buf → s.output_its_[j]? = some it → fn.obuf[j]? = some res →
        ob[j]? = some { buf with data := copyAt buf.data it res.data } ∧
          its[j]? = some (it + res.nnz)) := by
  induction m with
  | zero =>
    refine ⟨s.obuf_, s.output_its_, rfl, rfl, rfl, fun j _ => ⟨rfl, rfl⟩, ?_⟩
    intro j hj
    exact absurd hj (Nat.not_lt_zero j)
  | succ m ih =>
    obtain ⟨ob, its, heq, hlo, hli, hge, hlt⟩ := ih (Nat.le_of_succ_le hm)
    have hmlt : m < fn.obuf.length := hm
    obtain ⟨res, hres⟩ : ∃ res, fn.obuf[m]? = some res :=
      ⟨fn.obuf[m], List.getElem?_eq_getElem hmlt⟩
    obtain ⟨buf, hbuf⟩ : ∃ buf, s.obuf_[m]? = some buf :=
      ⟨s.obuf_[m], List.getElem?_eq_getElem (by rw [hob]; exact hmlt)⟩
    obtain ⟨it, hit⟩ : ∃ it, s.output_its_[m]? = some it :=
      ⟨s.output_its_[m], List.getElem?_eq_getElem (by rw [hits]; exact hmlt)⟩
    have hbuf1 : ob[m]? = some buf := by rw [(hge m (Nat.le_refl m)).1]; exact hbuf
    have hit1 : its[m]? = some it := by rw [(hge m (Nat.le_refl m)).2]; exact hit
    have hstep := saveOutput_eq m { s with obuf_ := ob, output_its_ := its } fn hfn res hres
      it hit1 buf hbuf1
    refine ⟨ob.set m { buf with data := copyAt buf.data it res.data },
      its.set m (it + res.nnz), ?_, ?_, ?_, ?_, ?_⟩
    · rw [Op.forEach_range_succ m saveOutput s _ heq, hstep]
    · rw [List.length_set]; exact hlo
    · rw [List.length_set]; exact hli
    · intro j hj
      have hne : m ≠ j := by omega
      rw [List.getElem?_set_ne hne, List.getElem?_set_ne hne]
      exact hge j (by omega)
    · intro j hj buf1 it1 res1 hb1 hi1 hr1
      by_cases hjm : j = m
      · subst hjm
        rw [hbuf] at hb1
        rw [hit] at hi1
        rw [hres] at hr1
        cases hb1
        cases hi1
        cases hr1
        have h1 : j < ob.length := by rw [hlo, hob]; exact hmlt
        have h2 : j < its.length := by rw [hli, hits]; exact hmlt
        rw [List.getElem?_set_self h1, List.getElem?_set_self h2]
        exact ⟨rfl, rfl⟩
      · have hne : m ≠ j := fun h => hjm h.symm
        rw [List.getElem?_set_ne hne, List.getElem?_set_ne hne]
        exact hlt j (by omega) buf1 it1 res1 hb1 hi1 hr1

theorem sampled_ibuf_sparsity (fn : Function R) (t : R) (xf zf p : DMatrix R)
    (slot : DAEInput) :
    ((fn.sampled t xf zf p).ibuf slot).sparsity = (fn.ibuf slot).sparsity :=
  passedInputs_sparsity fn.ibuf t xf zf p slot

theorem outputsAlong_passed (f : (DAEInput → DMatrix R) → Nat → Nat → R)
    (ib : DAEInput → DMatrix R) (t0 : R) (xf0 zf0 p0 p : DMatrix R) (j : Nat) (sp : Sparsity)
    (I : Integrator R F M) (ts : List R) :
    outputsAlong f (passedInputs ib t0 xf0 zf0 p0) p j sp I ts =
      outputsAlong f ib p j sp I ts := by
  induction ts generalizing I with
  | nil => rfl
  | cons t ts ih =>
    simp only [outputsAlong]
    rw [passedInputs_absorb, ih]

theorem length_outputsAlong (f : (DAEInput → DMatrix R) → Nat → Nat → R)
    (ib : DAEInput → DMatrix R) (p : DMatrix R) (j : Nat) (sp : Sparsity)
    (I : Integrator R F M) (ts : List R) :
    (outputsAlong f ib p j sp I ts).length = ts.length := by
  induction ts generalizing I with
  | nil => rfl
  | cons t ts ih => simp [outputsAlong, ih]

theorem mem_outputsAlong_length (f : (DAEInput → DMatrix R) → Nat → Nat → R)
    (ib : DAEInput → DMatrix R) (p : DMatrix R) (j : Nat) (sp : Sparsity)
    (I : Integrator R F M) (ts : List R) :
    ∀ r ∈ outputsAlong f ib p j sp I ts, r.length = sp.nnz := by
  induction ts generalizing I with
  | nil => intro r hr; simp [outputsAlong] at hr
  | cons t ts ih =>
    intro r hr
    simp only [outputsAlong, List.mem_cons] at hr
    rcases hr with h | h
    · rw [h]; exact length_result_data _ _ _ _
    · exact ih _ r h

/-- The time loop over the grid points `ts`, run on a node that is ready for it: it does not
throw; the integrator is advanced through the points in order; iterator `j` advances by the
number of non-zeros of output `j` for every point, and buffer `j` receives the outputs of the
passes one after the other. -/
theorem timeLoop_spec (ts : List R) (s : SimulatorInternal R F M) (fn : Function R)
    (p : DMatrix R) (h : s.LoopReady fn p) :
    ∃ fn1 ob its, Op.forEach ts step s =
        (.ok (),
          { s with
            integrator_ := ts.foldl Integrator.integrate s.integrator_
            output_fcn_ := some fn1
            obuf_ := ob
            output_its_ := its }) ∧
      ob.length = s.obuf_.length ∧ its.length = s.output_its_.length ∧
      ∀ (j : Nat) (buf : DMatrix R) (it : Nat) (o : DMatrix R),
        s.obuf_[j]? = some buf → s.output_its_[j]? = some it → fn.obuf[j]? = some o →
        its[j]? = some (it + ts.length * o.nnz) ∧
          ∃ buf1, ob[j]? = some buf1 ∧ buf1.sparsity = buf.sparsity ∧
            buf1.data =
              fillFrom buf.data it (outputsAlong fn.f fn.ibuf p j o.sparsity s.integrator_ ts) := by
  induction ts generalizing s fn with
  | nil =>
    refine ⟨fn, s.obuf_, s.output_its_, ?_, rfl, rfl, ?_⟩
    · obtain ⟨name, I, fn0, grid, isch, osch, ib, ob, its⟩ := s
      have := h.hfn
      simp only [] at this
      subst this
      rfl
    · intro j buf it o hb hi _
      refine ⟨by simpa using hi, buf, hb, rfl, rfl⟩
  | cons t ts ih =>
    have hlenS : (fn.sampled t ((s.integrator_.integrate t).output INTEGRATOR_XF)
        ((s.integrator_.integrate t).output INTEGRATOR_ZF) p).obuf.length = fn.obuf.length :=
      length_evalOutputs _ _ _ _
    obtain ⟨ob1, its1, hsave, hlo1, hli1, -, hlt1⟩ := saveLoop_spec
      { s with
        integrator_ := s.integrator_.integrate t
        output_fcn_ := some (fn.sampled t ((s.integrator_.integrate t).output INTEGRATOR_XF)
          ((s.integrator_.integrate t).output INTEGRATOR_ZF) p) }
      (fn.sampled t ((s.integrator_.integrate t).output INTEGRATOR_XF)
          ((s.integrator_.integrate t).output INTEGRATOR_ZF) p)
      rfl (by rw [hlenS]; exact h.hob) (by rw [hlenS]; exact h.hits) _ (Nat.le_refl _)
    rw [hlenS] at hsave
    simp only [] at hlo1 hli1 hlt1
    have hstep : step t s = (.ok (),
        { s with
          integrator_ := s.integrator_.integrate t
          output_fcn_ := some (fn.sampled t ((s.integrator_.integrate t).output INTEGRATOR_XF)
            ((s.integrator_.integrate t).output INTEGRATOR_ZF) p)
          obuf_ := ob1
          output_its_ := its1 }) := by
      rw [step_eq t s fn p h, h.hob, hsave]
    have hready : SimulatorInternal.LoopReady
        { s with
          integrator_ := s.integrator_.integrate t
          output_fcn_ := some (fn.sampled t ((s.integrator_.integrate t).output INTEGRATOR_XF)
            ((s.integrator_.integrate t).output INTEGRATOR_ZF) p)
          obuf_ := ob1
          output_its_ := its1 }
        (fn.sampled t ((s.integrator_.integrate t).output INTEGRATOR_XF)
          ((s.integrator_.integrate t).output INTEGRATOR_ZF) p) p := by
      refine ⟨rfl, h.hp, ?_, ?_, ?_, ?_, ?_⟩
      · rw [hlenS]; exact hlo1.trans h.hob
      · rw [hlenS]; exact hli1.trans h.hits
      · intro hnz
        have e : ((fn.sampled t ((s.integrator_.integrate t).output INTEGRATOR_XF)
            ((s.integrator_.integrate t).output INTEGRATOR_ZF) p).ibuf DAE_X).sparsity =
            (fn.ibuf DAE_X).sparsity := sampled_ibuf_sparsity _ _ _ _ _ _
        unfold DMatrix.nnz at hnz
        rw [e] at hnz ⊢
        exact h.hX hnz
      · intro hnz
        have e : ((fn.sampled t ((s.integrator_.integrate t).output INTEGRATOR_XF)
            ((s.integrator_.integrate t).output INTEGRATOR_ZF) p).ibuf DAE_Z).sparsity =
            (fn.ibuf DAE_Z).sparsity := sampled_ibuf_sparsity _ _ _ _ _ _
        unfold DMatrix.nnz at hnz
        rw [e] at hnz ⊢
        exact h.hZ hnz
      · intro hnz
        have e : ((fn.sampled t ((s.integrator_.integrate t).output INTEGRATOR_XF)
            ((s.integrator_.integrate t).output INTEGRATOR_ZF) p).ibuf DAE_P).sparsity =
            (fn.ibuf DAE_P).sparsity := sampled_ibuf_sparsity _ _ _ _ _ _
        unfold DMatrix.nnz at hnz
        rw [e] at hnz ⊢
        exact h.hP hnz
    obtain ⟨fn1, ob, its, hloop, hlo, hli, hpt⟩ := ih _ _ hready
    refine ⟨fn1, ob, its, ?_, hlo.trans hlo1, hli.trans hli1, ?_⟩
    · rw [Op.forEach_cons, Op.seq_eq_of_eq hstep, hloop]
      rfl
    · intro j buf it o hb hi ho
      have hj : j < fn.obuf.length := (List.getElem?_eq_some.mp ho).1
      have hres : (fn.sampled t ((s.integrator_.integrate t).output INTEGRATOR_XF)
          ((s.integrator_.integrate t).output INTEGRATOR_ZF) p).obuf[j]? =
          some (Function.result fn.f (passedInputs fn.ibuf t
            ((s.integrator_.integrate t).output INTEGRATOR_XF)
            ((s.integrator_.integrate t).output INTEGRATOR_ZF) p) j o.sparsity) := by
        show (Function.evalOutputs _ _ 0 fn.obuf)[j]? = _
        rw [getElem?_evalOutputs, ho, Nat.zero_add]
        rfl
      obtain ⟨hb1, hi1⟩ := hlt1 j (by rw [hlenS]; exact hj) buf it _ hb hi hres
      obtain ⟨hits2, buf2, hb2, hsp2, hd2⟩ := hpt j _ _ _ hb1 hi1 hres
      refine ⟨?_, buf2, hb2, hsp2, ?_⟩
      · rw [hits2]
        congr 1
        show it + o.sparsity.nnz + ts.length * o.sparsity.nnz =
          it + (ts.length + 1) * o.sparsity.nnz
        rw [Nat.succ_mul]
        omega
      · rw [hd2]
        show fillFrom _ (it + o.sparsity.nnz) (outputsAlong fn.f (passedInputs fn.ibuf t _ _ p)
          p j o.sparsity (s.integrator_.integrate t) ts) = _
        rw [outputsAlong_passed]
        simp only [outputsAlong, fillFrom, length_result_data]

/-- The time loop needs the transfers to be accepted only when it makes one, that is on a
non-empty list of grid points. -/
theorem timeLoop_spec_weak (ts : List R) (s : SimulatorInternal R F M) (fn : Function R)
    (p : DMatrix R) (hfn : s.output_fcn_ = some fn) (h : ts ≠ [] → s.LoopReady fn p) :
    ∃ fn1 ob its, Op.forEach ts step s =
        (.ok (),
          { s with
            integrator_ := ts.foldl Integrator.integrate s.integrator_
            output_fcn_ := some fn1
            obuf_ := ob
            output_its_ := its }) ∧
      ob.length = s.obuf_.length ∧ its.length = s.output_its_.length ∧
      ∀ (j : Nat) (buf : DMatrix R) (it : Nat) (o : DMatrix R),
        s.obuf_[j]? = some buf → s.output_its_[j]? = some it → fn.obuf[j]? = some o →
        its[j]? = some (it + ts.length * o.nnz) ∧
          ∃ buf1, ob[j]? = some buf1 ∧ buf1.sparsity = buf.sparsity ∧
            buf1.data =
              fillFrom buf.data it (outputsAlong fn.f fn.ibuf p j o.sparsity s.integrator_ ts) := by
  cases ts with
  | nil =>
    refine ⟨fn, s.obuf_, s.output_its_, ?_, rfl, rfl, ?_⟩
    · obtain ⟨name, I, fn0, grid, isch, osch, ib, ob, its⟩ := s
      simp only [] at hfn
      subst hfn
      rfl
    · intro j buf it o hb hi _
      refine ⟨by simpa using hi, buf, hb, rfl, rfl⟩
  | cons t ts => exact timeLoop_spec (t :: ts) s fn p (h (List.cons_ne_nil t ts))

theorem passInput_eq (slot : IntegratorInput) (s : SimulatorInternal R F M) (v : DMatrix R)
    (hv : s.ibuf_ slot = some v) (hsp : v.sparsity = (s.integrator_.input slot).sparsity) :
    passInput slot s = (.ok (), { s with integrator_ := s.integrator_.assign v slot }) := by
  unfold passInput
  simp only [hv, Integrator.setInput, hsp, if_true]

/-- The opening statements of `evaluate()` on a node whose input buffers have the patterns of
the integrator inputs: the three inputs are passed and the integrator is reset. -/
theorem opening_eq (s : SimulatorInternal R F M) (v0 vz vp : DMatrix R)
    (h0 : s.ibuf_ INTEGRATOR_X0 = some v0) (hz : s.ibuf_ INTEGRATOR_Z0 = some vz)
    (hp : s.ibuf_ INTEGRATOR_P = some vp)
    (s0 : v0.sparsity = (s.integrator_.input INTEGRATOR_X0).sparsity)
    (sz : vz.sparsity = (s.integrator_.input INTEGRATOR_Z0).sparsity)
    (sp : vp.sparsity = (s.integrator_.input INTEGRATOR_P).sparsity) (rest : Op (SimulatorInternal R F M)) :
    Op.seq (passInput INTEGRATOR_X0)
        (Op.seq (passInput INTEGRATOR_Z0)
          (Op.seq (passInput INTEGRATOR_P) (Op.seq resetIntegrator rest))) s =
      rest { s with integrator_ :=
              (((s.integrator_.assign v0 INTEGRATOR_X0).assign vz INTEGRATOR_Z0).assign vp
                INTEGRATOR_P).reset } := by
  have e1 := passInput_eq INTEGRATOR_X0 s v0 h0 s0
  have e2 := passInput_eq INTEGRATOR_Z0
    { s with integrator_ := s.integrator_.assign v0 INTEGRATOR_X0 } vz hz sz
  have e3 := passInput_eq INTEGRATOR_P
    { s with integrator_ := (s.integrator_.assign v0 INTEGRATOR_X0).assign vz INTEGRATOR_Z0 }
    vp hp sp
  rw [Op.seq_eq_of_eq e1, Op.seq_eq_of_eq e2, Op.seq_eq_of_eq e3]
  rfl

theorem startedIntegrator_eq (s : SimulatorInternal R F M) (v0 vz vp : DMatrix R)
    (h0 : s.ibuf_ INTEGRATOR_X0 = some v0) (hz : s.ibuf_ INTEGRATOR_Z0 = some vz)
    (hp : s.ibuf_ INTEGRATOR_P = some vp)
    (s0 : v0.sparsity = (s.integrator_.input INTEGRATOR_X0).sparsity)
    (sz : vz.sparsity = (s.integrator_.input INTEGRATOR_Z0).sparsity)
    (sp : vp.sparsity = (s.integrator_.input INTEGRATOR_P).sparsity) :
    s.startedIntegrator =
      (((s.integrator_.assign v0 INTEGRATOR_X0).assign vz INTEGRATOR_Z0).assign vp
        INTEGRATOR_P).reset := by
  unfold startedIntegrator
  have e1 := passInput_eq INTEGRATOR_X0 s v0 h0 s0
  have e2 := passInput_eq INTEGRATOR_Z0
    { s with integrator_ := s.integrator_.assign v0 INTEGRATOR_X0 } vz hz sz
  have e3 := passInput_eq INTEGRATOR_P
    { s with integrator_ := (s.integrator_.assign v0 INTEGRATOR_X0).assign vz INTEGRATOR_Z0 }
    vp hp sp
  rw [Op.seq_eq_of_eq e1, Op.seq_eq_of_eq e2, Op.seq_eq_of_eq e3]
  rfl

/-- The iterator loop over the first `m` iterators: each is put at the begin of its buffer. -/
theorem initLoop_spec (s : SimulatorInternal R F M)
    (hlen : s.output_its_.length ≤ s.obuf_.length) (m : Nat) (hm : m ≤ s.output_its_.length) :
    ∃ its, Op.forEach (List.range m) initIterator s = (.ok (), { s with output_its_ := its }) ∧
      its.length = s.output_its_.length ∧
      (∀ j : Nat, j < m → its[j]? = some 0) ∧
      (∀ j : Nat, m ≤ j → its[j]? = s.output_its_[j]?) := by
  induction m with
  | zero =>
    exact ⟨s.output_its_, rfl, rfl, fun j hj => absurd hj (Nat.not_lt_zero j), fun _ _ => rfl⟩
  | succ m ih =>
    obtain ⟨its, heq, hl, hlt, hge⟩ := ih (Nat.le_of_succ_le hm)
    have hmlt : m < s.obuf_.length := Nat.lt_of_lt_of_le hm hlen
    have hstep : initIterator m { s with output_its_ := its } =
        (.ok (), { s with output_its_ := its.set m 0 }) := by
      unfold initIterator
      simp only [List.getElem?_eq_getElem hmlt]
    refine ⟨its.set m 0, ?_, ?_, ?_, ?_⟩
    · rw [Op.forEach_range_succ m initIterator s _ heq, hstep]
    · rw [List.length_set]; exact hl
    · intro j hj
      by_cases hjm : j = m
      · subst hjm
        exact List.getElem?_set_self (by rw [hl]; exact hm)
      · have hne : m ≠ j := fun h => hjm h.symm
        rw [List.getElem?_set_ne hne]
        exact hlt j (by omega)
    · intro j hj
      have hne : m ≠ j := by omega
      rw [List.getElem?_set_ne hne]
      exact hge j (by omega)

theorem checkIterator_eq (j : Nat) (s : SimulatorInternal R F M) (it : Nat) (buf : DMatrix R)
    (hit : s.output_its_[j]? = some it) (hbuf : s.obuf_[j]? = some buf) :
    checkIterator j s =
      (if it = buf.data.length then .ok () else .error .consistencyCheck, s) := by
  unfold checkIterator
  simp only [hit, hbuf]
  split <;> rfl

/-- The consistency loop over a list of valid indices: it leaves the node as it is, and it
passes exactly when every iterator is at the end of its buffer; a failure is the consistency
error. -/
theorem checkLoop_spec (l : List Nat) (s : SimulatorInternal R F M)
    (hl : ∀ j ∈ l, j < s.output_its_.length ∧ j < s.obuf_.length) :
    (Op.forEach l checkIterator s).2 = s ∧
    ((Op.forEach l checkIterator s).1 = .ok () ↔
      ∀ j ∈ l, ∀ (it : Nat) (buf : DMatrix R),
        s.output_its_[j]? = some it → s.obuf_[j]? = some buf → it = buf.data.length) ∧
    ((Op.forEach l checkIterator s).1 = .ok () ∨
      (Op.forEach l checkIterator s).1 = .error .consistencyCheck) := by
  induction l with
  | nil =>
    refine ⟨rfl, ⟨fun _ j hj => absurd hj (List.not_mem_nil j), fun _ => rfl⟩, Or.inl rfl⟩
  | cons i l ih =>
    obtain ⟨hi1, hi2⟩ := hl i (List.mem_cons_self _ _)
    obtain ⟨e1, e2, e3⟩ := ih (fun j hj => hl j (List.mem_cons_of_mem _ hj))
    have hit : s.output_its_[i]? = some s.output_its_[i] := List.getElem?_eq_getElem hi1
    have hbuf : s.obuf_[i]? = some s.obuf_[i] := List.getElem?_eq_getElem hi2
    have hstep := checkIterator_eq i s _ _ hit hbuf
    rw [Op.forEach_cons]
    by_cases hc : s.output_its_[i] = s.obuf_[i].data.length
    · rw [if_pos hc] at hstep
      rw [Op.seq_eq_of_eq hstep]
      refine ⟨e1, ?_, e3⟩
      rw [e2]
      constructor
      · intro h j hj it buf hjt hjb
        rcases List.mem_cons.mp hj with hji | hjl
        · subst hji
          rw [hit] at hjt
          rw [hbuf] at hjb
          cases hjt
          cases hjb
          exact hc
        · exact h j hjl it buf hjt hjb
      · intro h j hj
        exact h j (List.mem_cons_of_mem _ hj)
    · rw [if_neg hc] at hstep
      rw [Op.seq_eq_of_error hstep]
      refine ⟨rfl, ?_, Or.inr rfl⟩
      constructor
      · intro h
        simp at h
      · intro h
        exact absurd (h i (List.mem_cons_self _ _) _ _ hit hbuf) hc

theorem foldl_integrate_calls (ts : List R) (I : Integrator R F M) :
    (ts.foldl Integrator.integrate I).calls = I.calls ++ ts.map IntegratorCall.integrate := by
  induction ts generalizing I with
  | nil => simp
  | cons t ts ih =>
    simp only [List.foldl_cons, List.map_cons]
    rw [ih]
    simp [Integrator.integrate]

theorem foldl_integrate_schema (ts : List R) (I : Integrator R F M) (slot : IntegratorOutput) :
    ((ts.foldl Integrator.integrate I).output slot).sparsity = (I.output slot).sparsity := by
  induction ts generalizing I with
  | nil => rfl
  | cons t ts ih =>
    simp only [List.foldl_cons]
    rw [ih]
    rfl

/-- A run of `evaluate()` on an initialized node whose transfers, if the grid is not empty,
are accepted: the node it leaves, and its outcome, which is decided by the consistency check
alone. -/
theorem evaluate_spec (s : SimulatorInternal R F M) (hi : s.Initialized)
    (ht : s.grid_ ≠ [] → s.TransfersAccepted) (fn : Function R)
    (hfn : s.output_fcn_ = some fn)
    (p : DMatrix R) (hp : s.ibuf_ INTEGRATOR_P = some p) :
    ∃ fn1 ob its,
      (evaluate s).2 =
        { s with
          integrator_ := s.grid_.foldl Integrator.integrate s.startedIntegrator
          output_fcn_ := some fn1
          obuf_ := ob
          output_its_ := its } ∧
      ob.length = s.obuf_.length ∧ its.length = s.obuf_.length ∧
      (∀ (j : Nat) (buf o : DMatrix R), s.obuf_[j]? = some buf → fn.obuf[j]? = some o →
        its[j]? = some (s.grid_.length * o.nnz) ∧
          ∃ buf1, ob[j]? = some buf1 ∧ buf1.sparsity = buf.sparsity ∧
            buf1.data = fillFrom buf.data 0
              (outputsAlong fn.f fn.ibuf p j o.sparsity s.startedIntegrator s.grid_)) ∧
      ((evaluate s).1 = .ok () ↔
        ∀ (j it : Nat) (buf1 : DMatrix R), its[j]? = some it → ob[j]? = some buf1 →
          it = buf1.data.length) ∧
      ((evaluate s).1 = .ok () ∨ (evaluate s).1 = .error .consistencyCheck) := by
  obtain ⟨v0, h0, s0⟩ := hi.inputs INTEGRATOR_X0
  obtain ⟨vz, hz, sz⟩ := hi.inputs INTEGRATOR_Z0
  obtain ⟨vp, hp1, sp⟩ := hi.inputs INTEGRATOR_P
  rw [hp] at hp1
  cases hp1
  obtain ⟨fn0, hfn0, hob, -⟩ := hi.fcn
  rw [hfn] at hfn0
  cases hfn0
  have hits := hi.iterators
  have hstart := startedIntegrator_eq s v0 vz p h0 hz hp s0 sz sp
  -- the iterator loop
  obtain ⟨its0, hit0, hl0, hlt0, -⟩ := initLoop_spec
    { s with integrator_ := s.startedIntegrator } (Nat.le_of_eq hits) _ (Nat.le_refl _)
  simp only [] at hit0 hl0 hlt0
  -- the time loop
  have hready : s.grid_ ≠ [] → SimulatorInternal.LoopReady
      { s with integrator_ := s.startedIntegrator, output_its_ := its0 } fn p := by
    intro hne
    obtain ⟨hX, hZ, hP⟩ := ht hne fn hfn
    refine ⟨hfn, hp, hob, ?_, ?_, ?_, ?_⟩
    · exact hl0.trans (hits.trans hob)
    · intro hnz
      have hx := hX hnz
      rw [hstart]
      exact hx
    · intro hnz
      have hx := hZ hnz
      rw [hstart]
      exact hx
    · intro hnz
      exact hP hnz p hp
  obtain ⟨fn1, ob, its, hloop, hlo, hli, hpt⟩ := timeLoop_spec_weak s.grid_
    { s with integrator_ := s.startedIntegrator, output_its_ := its0 } fn p hfn hready
  simp only [] at hloop hlo hli hpt
  -- the consistency loop
  have hcheck := checkLoop_spec (List.range its.length)
    { s with
      integrator_ := s.grid_.foldl Integrator.integrate s.startedIntegrator
      output_fcn_ := some fn1
      obuf_ := ob
      output_its_ := its }
    (by
      intro j hj
      rw [List.mem_range] at hj
      refine ⟨hj, ?_⟩
      show j < ob.length
      rw [hlo, ← hits, ← hl0, ← hli]
      exact hj)
  have heval : evaluate s = Op.forEach (List.range its.length) checkIterator
      { s with
        integrator_ := s.grid_.foldl Integrator.integrate s.startedIntegrator
        output_fcn_ := some fn1
        obuf_ := ob
        output_its_ := its } := by
    unfold evaluate
    rw [opening_eq s v0 vz p h0 hz hp s0 sz sp, ← hstart]
    have e1 : initIterators ({ s with integrator_ := s.startedIntegrator } :
        SimulatorInternal R F M) =
        (.ok (), { s with integrator_ := s.startedIntegrator, output_its_ := its0 }) := hit0
    have e2 : advance ({ s with integrator_ := s.startedIntegrator, output_its_ := its0 } :
        SimulatorInternal R F M) =
        (.ok (), { s with
          integrator_ := s.grid_.foldl Integrator.integrate s.startedIntegrator
          output_fcn_ := some fn1
          obuf_ := ob
          output_its_ := its }) := hloop
    rw [Op.seq_eq_of_eq e1, Op.seq_eq_of_eq e2]
    rfl
  rw [heval]
  obtain ⟨c1, c2, c3⟩ := hcheck
  refine ⟨fn1, ob, its, c1, hlo, ?_, ?_, ?_, c3⟩
  · rw [hli, hl0, hits]
  · intro j buf o hb ho
    have hj : j < fn.obuf.length := (List.getElem?_eq_some.mp ho).1
    have hi0 : its0[j]? = some 0 := hlt0 j (by rw [hits, hob]; exact hj)
    obtain ⟨r1, r2⟩ := hpt j buf 0 o hb hi0 ho
    refine ⟨?_, r2⟩
    rw [r1, Nat.zero_add]
  · rw [c2]
    constructor
    · intro h j it buf1 hjt hjb
      have hj : j < its.length := (List.getElem?_eq_some.mp hjt).1
      exact h j (List.mem_range.mpr hj) it buf1 hjt hjb
    · intro h j _ it buf1 hjt hjb
      exact h j it buf1 hjt hjb

/-- A pass of the time loop in which a transfer into a slot in use is between slots of
different patterns throws at the first such transfer. -/
theorem step_mismatch (t : R) (s : SimulatorInternal R F M) (fn : Function R) (p : DMatrix R)
    (hfn : s.output_fcn_ = some fn) (hp : s.ibuf_ INTEGRATOR_P = some p)
    (hbad : ¬ (((fn.ibuf DAE_X).nnz ≠ 0 →
        s.integrator_.cls.outputSparsity s.integrator_.f_ s.integrator_.g_ INTEGRATOR_XF =
          (fn.ibuf DAE_X).sparsity) ∧
      ((fn.ibuf DAE_Z).nnz ≠ 0 →
        s.integrator_.cls.outputSparsity s.integrator_.f_ s.integrator_.g_ INTEGRATOR_ZF =
          (fn.ibuf DAE_Z).sparsity) ∧
      ((fn.ibuf DAE_P).nnz ≠ 0 → p.sparsity = (fn.ibuf DAE_P).sparsity))) :
    (step t s).1 = .error .slotMismatch := by
  obtain ⟨name, I, fn0, grid, isch, osch, ib, ob, its⟩ := s
  simp only [] at hfn hp hbad
  subst hfn
  obtain ⟨fn1, hfn1⟩ : ∃ g, g = (if (fn.input DAE_T).nnz ≠ 0 then fn.setInputScalar t DAE_T
    else fn) := ⟨_, rfl⟩
  obtain ⟨fn2, hfn2⟩ : ∃ g, g = (if (fn1.input DAE_X).nnz ≠ 0 then
    fn1.assign ((I.integrate t).output INTEGRATOR_XF) DAE_X else fn1) := ⟨_, rfl⟩
  obtain ⟨fn3, hfn3⟩ : ∃ g, g = (if (fn2.input DAE_Z).nnz ≠ 0 then
    fn2.assign ((I.integrate t).output INTEGRATOR_ZF) DAE_Z else fn2) := ⟨_, rfl⟩
  have s1 : ∀ j, (fn1.ibuf j).sparsity = (fn.ibuf j).sparsity := by
    intro j; rw [hfn1]; exact cond_scalar_sparsity fn _ t DAE_T j
  have s2 : ∀ j, (fn2.ibuf j).sparsity = (fn.ibuf j).sparsity := by
    intro j; rw [hfn2, cond_assign_sparsity fn1 _ _ DAE_X j]; exact s1 j
  have s3 : ∀ j, (fn3.ibuf j).sparsity = (fn.ibuf j).sparsity := by
    intro j; rw [hfn3, cond_assign_sparsity fn2 _ _ DAE_Z j]; exact s2 j
  have e1 : integrateTo t (⟨name, I, some fn, grid, isch, osch, ib, ob, its⟩ :
      SimulatorInternal R F M) =
      (.ok (), ⟨name, I.integrate t, some fn, grid, isch, osch, ib, ob, its⟩) := rfl
  have e2 : passTime t (⟨name, I.integrate t, some fn, grid, isch, osch, ib, ob, its⟩ :
      SimulatorInternal R F M) =
      (.ok (), ⟨name, I.integrate t, some fn1, grid, isch, osch, ib, ob, its⟩) := by
    rw [hfn1]
    exact passTime_eq t _ fn rfl
  unfold step
  rw [Op.seq_eq_of_eq e1, Op.seq_eq_of_eq e2]
  by_cases hX : (fn.ibuf DAE_X).nnz ≠ 0 →
      I.cls.outputSparsity I.f_ I.g_ INTEGRATOR_XF = (fn.ibuf DAE_X).sparsity
  · have e3 : passMatrix DAE_X (fun s => .ok (s.integrator_.output INTEGRATOR_XF))
        (⟨name, I.integrate t, some fn1, grid, isch, osch, ib, ob, its⟩ :
          SimulatorInternal R F M) =
        (.ok (), ⟨name, I.integrate t, some fn2, grid, isch, osch, ib, ob, its⟩) := by
      rw [hfn2]
      refine passMatrix_eq DAE_X _ _ fn1 rfl _ rfl ?_
      intro hnz
      unfold Function.input DMatrix.nnz at hnz
      rw [s1 DAE_X] at hnz ⊢
      exact hX hnz
    rw [Op.seq_eq_of_eq e3]
    by_cases hZ : (fn.ibuf DAE_Z).nnz ≠ 0 →
        I.cls.outputSparsity I.f_ I.g_ INTEGRATOR_ZF = (fn.ibuf DAE_Z).sparsity
    · have e4 : passMatrix DAE_Z (fun s => .ok (s.integrator_.output INTEGRATOR_ZF))
          (⟨name, I.integrate t, some fn2, grid, isch, osch, ib, ob, its⟩ :
            SimulatorInternal R F M) =
          (.ok (), ⟨name, I.integrate t, some fn3, grid, isch, osch, ib, ob, its⟩) := by
        rw [hfn3]
        refine passMatrix_eq DAE_Z _ _ fn2 rfl _ rfl ?_
        intro hnz
        unfold Function.input DMatrix.nnz at hnz
        rw [s2 DAE_Z] at hnz ⊢
        exact hZ hnz
      rw [Op.seq_eq_of_eq e4]
      have hP : ¬ ((fn.ibuf DAE_P).nnz ≠ 0 → p.sparsity = (fn.ibuf DAE_P).sparsity) :=
        fun h => hbad ⟨hX, hZ, h⟩
      rw [Classical.not_imp] at hP
      have e5 : passMatrix DAE_P inputP
          (⟨name, I.integrate t, some fn3, grid, isch, osch, ib, ob, its⟩ :
            SimulatorInternal R F M) =
          (.error .slotMismatch, ⟨name, I.integrate t, some fn3, grid, isch, osch, ib, ob, its⟩) := by
        refine passMatrix_mismatch DAE_P _ _ fn3 rfl p ?_ ?_ ?_
        · unfold inputP
          simp only [hp]
        · unfold Function.input DMatrix.nnz
          rw [s3 DAE_P]
          exact hP.1
        · rw [s3 DAE_P]
          exact hP.2
      rw [Op.seq_eq_of_error e5]
    · rw [Classical.not_imp] at hZ
      have e4 : passMatrix DAE_Z (fun s => .ok (s.integrator_.output INTEGRATOR_ZF))
          (⟨name, I.integrate t, some fn2, grid, isch, osch, ib, ob, its⟩ :
            SimulatorInternal R F M) =
          (.error .slotMismatch, ⟨name, I.integrate t, some fn2, grid, isch, osch, ib, ob, its⟩) := by
        refine passMatrix_mismatch DAE_Z _ _ fn2 rfl _ rfl ?_ ?_
        · unfold Function.input DMatrix.nnz
          rw [s2 DAE_Z]
          exact hZ.1
        · rw [s2 DAE_Z]
          exact hZ.2
      rw [Op.seq_eq_of_error e4]
  · rw [Classical.not_imp] at hX
    have e3 : passMatrix DAE_X (fun s => .ok (s.integrator_.output INTEGRATOR_XF))
        (⟨name, I.integrate t, some fn1, grid, isch, osch, ib, ob, its⟩ :
          SimulatorInternal R F M) =
        (.error .slotMismatch, ⟨name, I.integrate t, some fn1, grid, isch, osch, ib, ob, its⟩) := by
      refine passMatrix_mismatch DAE_X _ _ fn1 rfl _ rfl ?_ ?_
      · unfold Function.input DMatrix.nnz
        rw [s1 DAE_X]
        exact hX.1
      · rw [s1 DAE_X]
        exact hX.2
    rw [Op.seq_eq_of_error e3]

/-- On an initialized node with a non-empty grid, a transfer between slots of different
patterns makes `evaluate()` throw in its first pass. -/
theorem evaluate_mismatch (s : SimulatorInternal R F M) (hi : s.Initialized)
    (hgrid : s.grid_ ≠ []) (ht : ¬ s.TransfersAccepted) :
    (evaluate s).1 = .error .slotMismatch := by
  obtain ⟨v0, h0, s0⟩ := hi.inputs INTEGRATOR_X0
  obtain ⟨vz, hz, sz⟩ := hi.inputs INTEGRATOR_Z0
  obtain ⟨p, hp, sp⟩ := hi.inputs INTEGRATOR_P
  obtain ⟨fn, hfn, -, -⟩ := hi.fcn
  have hits := hi.iterators
  have hstart := startedIntegrator_eq s v0 vz p h0 hz hp s0 sz sp
  obtain ⟨its0, hit0, -, -, -⟩ := initLoop_spec
    { s with integrator_ := s.startedIntegrator } (Nat.le_of_eq hits) _ (Nat.le_refl _)
  simp only [] at hit0
  have hbad : ¬ (((fn.ibuf DAE_X).nnz ≠ 0 →
        s.startedIntegrator.cls.outputSparsity s.startedIntegrator.f_ s.startedIntegrator.g_
          INTEGRATOR_XF = (fn.ibuf DAE_X).sparsity) ∧
      ((fn.ibuf DAE_Z).nnz ≠ 0 →
        s.startedIntegrator.cls.outputSparsity s.startedIntegrator.f_ s.startedIntegrator.g_
          INTEGRATOR_ZF = (fn.ibuf DAE_Z).sparsity) ∧
      ((fn.ibuf DAE_P).nnz ≠ 0 → p.sparsity = (fn.ibuf DAE_P).sparsity)) := by
    rintro ⟨hX, hZ, hP⟩
    apply ht
    intro fn1 hfn1
    rw [hfn] at hfn1
    cases hfn1
    rw [hstart] at hX hZ
    refine ⟨hX, hZ, ?_⟩
    intro hnz v hv
    rw [hp] at hv
    cases hv
    exact hP hnz
  obtain ⟨t, ts, hts⟩ : ∃ t ts, s.grid_ = t :: ts := by
    cases hg : s.grid_ with
    | nil => exact absurd hg hgrid
    | cons t ts => exact ⟨t, ts, rfl⟩
  have hstep := step_mismatch t
    { s with integrator_ := s.startedIntegrator, output_its_ := its0 } fn p hfn hp hbad
  unfold evaluate
  rw [opening_eq s v0 vz p h0 hz hp s0 sz sp, ← hstart]
  have e1 : initIterators ({ s with integrator_ := s.startedIntegrator } :
      SimulatorInternal R F M) =
      (.ok (), { s with integrator_ := s.startedIntegrator, output_its_ := its0 }) := hit0
  rw [Op.seq_eq_of_eq e1]
  have e2 : (advance ({ s with integrator_ := s.startedIntegrator, output_its_ := its0 } :
      SimulatorInternal R F M)).1 = .error .slotMismatch := by
    have hfe : Op.forEach s.grid_ (step : R → Op (SimulatorInternal R F M)) =
        Op.forEach (t :: ts) step := by rw [hts]
    show (Op.forEach s.grid_ step _).1 = _
    rw [hfe, Op.forEach_cons, Op.seq_of_error hstep]
  rw [Op.seq_of_error e2]

end SimulatorInternal

namespace SimulatorInternal

variable {R F M : Type}

theorem initialized_withInputs (s : SimulatorInternal R F M) (x0 z0 p : List R)
    (hi : s.Initialized) : (s.withInputs x0 z0 p).Initialized := by
  refine ⟨hi.fcn, hi.iterators, ?_⟩
  intro slot
  obtain ⟨v, hv, hs⟩ := hi.inputs slot
  cases slot
  · exact ⟨{ v with data := x0 }, by simp [withInputs, hv], hs⟩
  · exact ⟨{ v with data := p }, by simp [withInputs, hv], hs⟩
  · exact ⟨{ v with data := z0 }, by simp [withInputs, hv], hs⟩

theorem transfers_withInputs (s : SimulatorInternal R F M) (x0 z0 p : List R)
    (ht : s.TransfersAccepted) : (s.withInputs x0 z0 p).TransfersAccepted := by
  intro fn hfn
  obtain ⟨hX, hZ, hP⟩ := ht fn hfn
  refine ⟨hX, hZ, ?_⟩
  intro hnz v hv
  simp only [withInputs] at hv
  cases hq : s.ibuf_ INTEGRATOR_P with
  | none => rw [hq] at hv; simp at hv
  | some w =>
    rw [hq] at hv
    simp only [Option.map_some', Option.some.injEq] at hv
    subst hv
    exact hP hnz w hq

theorem initIntegrator_output_sparsity [LinearOrder R] [Zero R] (s : SimulatorInternal R F M)
    (slot : IntegratorOutput) :
    ((initIntegrator s).2.integrator_.output slot).sparsity =
      (s.integrator_.output slot).sparsity := by
  obtain ⟨name, I, fn, grid, isch, osch, ib, ob, its⟩ := s
  unfold initIntegrator
  cases grid with
  | nil => simp
  | cons g0 gs =>
    by_cases h : isNonDecreasing (g0 :: gs) = true
    · simp [h, Integrator.output, Integrator.init, Integrator.setOption, Integrator.setOptions,
        Integrator.create]
    · simp [h]

/-- What a successful `init()` has checked. -/
theorem initOutcome_ok [LinearOrder R] [Zero R] (lay : OutputLayout)
    (s : SimulatorInternal R F M) (h : s.initOutcome lay = .ok ()) :
    isNonDecreasing s.grid_ = true ∧
    (∀ (i : Nat) (o : DMatrix R), (s.initFcn lay).output i = some o → notColumnLike o = false) ∧
    ((s.initFcn lay).input DAE_T).numel ≤ 1 ∧
    (((s.initFcn lay).input DAE_P).isempty = false →
      (s.integrator_.input INTEGRATOR_P).sparsity = ((s.initFcn lay).input DAE_P).sparsity) ∧
    (((s.initFcn lay).input DAE_X).isempty = false →
      (s.integrator_.input INTEGRATOR_X0).sparsity = ((s.initFcn lay).input DAE_X).sparsity) := by
  unfold initOutcome at h
  by_cases hg : isNonDecreasing s.grid_ = true
  · simp only [hg, Bool.true_eq_false, if_false] at h
    cases hfind : (List.range (s.initFcn lay).n_out).find? (fun i =>
        match (s.initFcn lay).output i with
        | some o => notColumnLike o
        | none => false) with
    | some i => rw [hfind] at h; simp at h
    | none =>
      rw [hfind] at h
      simp only [] at h
      rw [List.find?_eq_none] at hfind
      by_cases c1 : ((s.initFcn lay).input DAE_T).numel ≤ 1
      · rw [if_neg (not_not_intro c1)] at h
        by_cases c2 : ((s.initFcn lay).input DAE_P).isempty = false ∧
            (s.integrator_.input INTEGRATOR_P).sparsity ≠ ((s.initFcn lay).input DAE_P).sparsity
        · rw [if_pos c2] at h; simp at h
        · rw [if_neg c2] at h
          by_cases c3 : ((s.initFcn lay).input DAE_X).isempty = false ∧
              (s.integrator_.input INTEGRATOR_X0).sparsity ≠
                ((s.initFcn lay).input DAE_X).sparsity
          · rw [if_pos c3] at h; simp at h
          · refine ⟨hg, ?_, c1, ?_, ?_⟩
            · intro i o ho
              have hi : i ∈ List.range (s.initFcn lay).n_out := by
                rw [List.mem_range]
                unfold Function.output at ho
                exact (List.getElem?_eq_some.mp ho).1
              have := hfind i hi
              rw [ho] at this
              simpa using this
            · intro he
              by_contra hne
              exact c2 ⟨he, hne⟩
            · intro he
              by_contra hne
              exact c3 ⟨he, hne⟩
      · rw [if_pos c1] at h; simp at h
  · have hg2 : isNonDecreasing s.grid_ = false := by simpa using hg
    simp [hg2] at h

/-- A successful `init()` leaves an initialized node. -/
theorem init_initialized [LinearOrder R] [Zero R] (lay : OutputLayout)
    (s : SimulatorInternal R F M) (h : (init lay s).1 = .ok ()) :
    (init lay s).2.Initialized := by
  obtain ⟨-, hfn, hgrid, hib, hlen, hbuf, hits⟩ := init_ok_spec lay s h
  refine ⟨⟨s.initFcn lay, hfn, hlen, ?_⟩, by rw [hits, hlen], ?_⟩
  · intro j o b ho hb
    rw [hbuf j, ho] at hb
    simp only [Option.map_some', Option.some.injEq] at hb
    subst hb
    rw [hgrid]
    simp [DMatrix.zeros, DMatrix.zerosOf, Sparsity.dense_nnz]
  · intro slot
    rw [hib]
    refine ⟨_, rfl, ?_⟩
    rw [init_integrator]

/-- After a successful `init()` the transfers of `evaluate()` are accepted, provided the
state output of the integrator has the pattern of its state input and the algebraic slot of
the output function, when in use, has the pattern of the algebraic output. -/
theorem init_transfers [LinearOrder R] [Zero R] (lay : OutputLayout)
    (s : SimulatorInternal R F M) (h : (init lay s).1 = .ok ())
    (hxf : (s.integrator_.output INTEGRATOR_XF).sparsity =
      (s.integrator_.input INTEGRATOR_X0).sparsity)
    (hzf : ((s.initFcn lay).input DAE_Z).nnz ≠ 0 →
      (s.integrator_.output INTEGRATOR_ZF).sparsity = ((s.initFcn lay).input DAE_Z).sparsity) :
    (init lay s).2.TransfersAccepted := by
  obtain ⟨hI, hfn, -, hib, -, -, -⟩ := init_ok_spec lay s h
  have hout : s.initOutcome lay = .ok () := by rw [← init_fst]; exact h
  obtain ⟨-, -, -, cP, cX⟩ := initOutcome_ok lay s hout
  intro fn hfn1
  rw [hfn] at hfn1
  cases hfn1
  refine ⟨?_, ?_, ?_⟩
  · intro hnz
    rw [hI, initIntegrator_output_sparsity, hxf]
    exact cX (Sparsity.isempty_eq_false_of_nnz_pos _ (Nat.pos_of_ne_zero hnz))
  · intro hnz
    rw [hI, initIntegrator_output_sparsity]
    exact hzf hnz
  · intro hnz v hv
    rw [hib] at hv
    simp only [Option.some.injEq] at hv
    subst hv
    rw [initIntegrator_input_sparsity]
    exact cP (Sparsity.isempty_eq_false_of_nnz_pos _ (Nat.pos_of_ne_zero hnz))

theorem getElem?_outputsAlong (f : (DAEInput → DMatrix R) → Nat → Nat → R)
    (ib : DAEInput → DMatrix R) (p : DMatrix R) (j : Nat) (sp : Sparsity)
    (I : Integrator R F M) (ts : List R) (k : Nat) :
    (outputsAlong f ib p j sp I ts)[k]? =
      (ts[k]?).map (fun t =>
        (Function.result f (passedInputs ib t
          (((ts.take (k + 1)).foldl Integrator.integrate I).output INTEGRATOR_XF)
          (((ts.take (k + 1)).foldl Integrator.integrate I).output INTEGRATOR_ZF) p) j sp).data) := by
  induction ts generalizing I k with
  | nil => simp [outputsAlong]
  | cons t ts ih =>
    cases k with
    | zero => simp [outputsAlong]
    | succ k =>
      simp only [outputsAlong, List.getElem?_cons_succ, List.take_succ_cons, List.foldl_cons]
      exact ih (I.integrate t) k

/-- The output buffers and iterators a run of `evaluate()` leaves on an initialized node whose
transfers are accepted: iterator `j` stands at `grid size × nnz` of output `j`, and buffer `j`
holds the outputs of the passes one after the other, followed by what the buffer held beyond
them. -/
theorem evaluate_buffer (s : SimulatorInternal R F M) (hi : s.Initialized)
    (ht : s.TransfersAccepted) (fn : Function R) (hfn : s.output_fcn_ = some fn)
    (p : DMatrix R) (hp : s.ibuf_ INTEGRATOR_P = some p)
    (j : Nat) (o : DMatrix R) (ho : fn.obuf[j]? = some o) :
    ∃ buf buf1, s.obuf_[j]? = some buf ∧ buf.data.length = o.numel * s.grid_.length ∧
      (evaluate s).2.obuf_[j]? = some buf1 ∧ buf1.sparsity = buf.sparsity ∧
      (evaluate s).2.output_its_[j]? = some (s.grid_.length * o.nnz) ∧
      buf1.data =
        (outputsAlong fn.f fn.ibuf p j o.sparsity s.startedIntegrator s.grid_).flatten ++
          buf.data.drop (s.grid_.length * o.nnz) := by
  obtain ⟨fn0, hfn0, hob, hcap⟩ := hi.fcn
  rw [hfn] at hfn0
  cases hfn0
  have hj : j < fn.obuf.length := (List.getElem?_eq_some.mp ho).1
  have hjs : j < s.obuf_.length := by rw [hob]; exact hj
  have hb : s.obuf_[j]? = some s.obuf_[j] := List.getElem?_eq_getElem hjs
  obtain ⟨fn1, ob, its, hst, -, -, hpt, -, -⟩ := evaluate_spec s hi (fun _ => ht) fn hfn p hp
  obtain ⟨r1, buf1, r2, r4, r3⟩ := hpt j _ o hb ho
  refine ⟨_, buf1, hb, hcap j o _ ho hb, ?_, r4, ?_, ?_⟩
  · rw [hst]; exact r2
  · rw [hst]; exact r1
  · rw [r3, fillFrom_eq _ 0 _ (Nat.zero_le _)]
    have hlen := length_flatten_const _ _
      (mem_outputsAlong_length fn.f fn.ibuf p j o.sparsity s.startedIntegrator s.grid_)
    rw [length_outputsAlong] at hlen
    rw [hlen]
    simp [DMatrix.nnz]

/-- The outcome of `evaluate()` on an initialized node whose transfers are accepted: the
consistency check passes exactly when the grid is empty or every output of the output
function has as many structural non-zeros as elements; otherwise it fails. -/
theorem evaluate_outcome (s : SimulatorInternal R F M) (hi : s.Initialized)
    (ht : s.TransfersAccepted) (fn : Function R) (hfn : s.output_fcn_ = some fn) :
    ((evaluate s).1 = .ok () ↔
      (s.grid_ = [] ∨ ∀ (j : Nat) (o : DMatrix R), fn.obuf[j]? = some o → o.nnz = o.numel)) ∧
    ((evaluate s).1 = .ok () ∨ (evaluate s).1 = .error .consistencyCheck) := by
  obtain ⟨p, hp, -⟩ := hi.inputs INTEGRATOR_P
  obtain ⟨fn0, hfn0, hob, hcap⟩ := hi.fcn
  rw [hfn] at hfn0
  cases hfn0
  obtain ⟨fn1, ob, its, hst, hlo, hli, hpt, hiff, hor⟩ :=
    evaluate_spec s hi (fun _ => ht) fn hfn p hp
  refine ⟨?_, hor⟩
  rw [hiff]
  have hlenfill : ∀ (j : Nat) (buf o : DMatrix R), s.obuf_[j]? = some buf →
      fn.obuf[j]? = some o →
      (fillFrom buf.data 0
        (outputsAlong fn.f fn.ibuf p j o.sparsity s.startedIntegrator s.grid_)).length =
        s.grid_.length * o.nnz + (o.numel * s.grid_.length - s.grid_.length * o.nnz) := by
    intro j buf o hb ho
    rw [fillFrom_eq _ 0 _ (Nat.zero_le _)]
    have hlen := length_flatten_const _ _
      (mem_outputsAlong_length fn.f fn.ibuf p j o.sparsity s.startedIntegrator s.grid_)
    rw [length_outputsAlong] at hlen
    simp only [List.take_zero, List.nil_append, List.length_append, List.length_drop, hlen,
      Nat.zero_add, hcap j o buf ho hb, DMatrix.nnz]
  constructor
  · intro h
    by_cases hN : s.grid_.length = 0
    · exact Or.inl (List.length_eq_zero.mp hN)
    · right
      intro j o ho
      have hj : j < fn.obuf.length := (List.getElem?_eq_some.mp ho).1
      have hjs : j < s.obuf_.length := by rw [hob]; exact hj
      have hb : s.obuf_[j]? = some s.obuf_[j] := List.getElem?_eq_getElem hjs
      obtain ⟨r1, buf1, r2, -, r3⟩ := hpt j _ o hb ho
      have := h j _ buf1 r1 r2
      rw [r3, hlenfill j _ o hb ho] at this
      have h1 : o.numel * s.grid_.length ≤ s.grid_.length * o.nnz := by omega
      have h2 : o.nnz ≤ o.numel := o.sparsity.nnz_le_numel
      rw [Nat.mul_comm o.numel] at h1
      have h3 := Nat.le_of_mul_le_mul_left h1 (Nat.pos_of_ne_zero hN)
      omega
  · intro h j it buf1 hjt hjb
    have hj : j < fn.obuf.length := by
      have := (List.getElem?_eq_some.mp hjb).1
      rw [hlo, hob] at this
      exact this
    have ho : fn.obuf[j]? = some fn.obuf[j] := List.getElem?_eq_getElem hj
    have hjs : j < s.obuf_.length := by rw [hob]; exact hj
    have hb : s.obuf_[j]? = some s.obuf_[j] := List.getElem?_eq_getElem hjs
    obtain ⟨r1, buf2, r2, -, r3⟩ := hpt j _ _ hb ho
    rw [r1] at hjt
    rw [r2] at hjb
    cases hjt
    cases hjb
    rw [r3, hlenfill j _ _ hb ho]
    rcases h with hnil | hall
    · rw [hnil]; simp
    · rw [hall j _ ho, Nat.mul_comm]
      omega

end SimulatorInternal

/-! ## The generated output function -/

namespace SimulatorInternal

variable {R F M : Type}

theorem getElem?_defaultOutputs [Zero R] (lay : OutputLayout) (x z : Sparsity) (i : Nat) :
    (defaultOutputs lay x z : List (DMatrix R))[i]? =
      if i < lay.INTEGRATOR_NUM_OUT then
        some (if i = lay.INTEGRATOR_ZF then DMatrix.zerosOf z
          else if i = lay.INTEGRATOR_XF then DMatrix.zerosOf x
          else DMatrix.zerosOf (Sparsity.sparse 0 0))
      else none := by
  unfold defaultOutputs
  rw [List.getElem?_set, List.getElem?_set, List.getElem?_replicate]
  simp only [List.length_set, List.length_replicate]
  by_cases hi : i < lay.INTEGRATOR_NUM_OUT
  · by_cases hz : lay.INTEGRATOR_ZF = i
    · subst hz
      simp [hi]
    · have hz2 : ¬ i = lay.INTEGRATOR_ZF := fun h => hz h.symm
      by_cases hx : lay.INTEGRATOR_XF = i
      · subst hx
        simp [hi, hz, hz2]
      · have hx2 : ¬ i = lay.INTEGRATOR_XF := fun h => hx h.symm
        simp [hi, hz, hz2, hx, hx2]
  · by_cases hz : lay.INTEGRATOR_ZF = i
    · subst hz
      simp [hi]
    · by_cases hx : lay.INTEGRATOR_XF = i
      · subst hx
        simp [hi, hz]
      · simp [hi, hz, hx]

theorem initIntegrator_cls [LinearOrder R] [Zero R] (s : SimulatorInternal R F M) :
    (initIntegrator s).2.integrator_.cls = s.integrator_.cls := by
  obtain ⟨name, I, fn, grid, isch, osch, ib, ob, its⟩ := s
  unfold initIntegrator
  cases grid with
  | nil => simp
  | cons g0 gs =>
    by_cases h : isNonDecreasing (g0 :: gs) = true
    · simp [h, Integrator.init, Integrator.setOption, Integrator.setOptions, Integrator.create]
    · simp [h]

/-- The converse of `initOutcome_ok`: when every assertion holds, `init()` succeeds. -/
theorem initOutcome_of_checks [LinearOrder R] [Zero R] (lay : OutputLayout)
    (s : SimulatorInternal R F M) (hg : isNonDecreasing s.grid_ = true)
    (hout : ∀ (i : Nat) (o : DMatrix R), (s.initFcn lay).output i = some o →
      notColumnLike o = false)
    (ht : ((s.initFcn lay).input DAE_T).numel ≤ 1)
    (hP : (s.integrator_.input INTEGRATOR_P).sparsity = ((s.initFcn lay).input DAE_P).sparsity)
    (hX : (s.integrator_.input INTEGRATOR_X0).sparsity =
      ((s.initFcn lay).input DAE_X).sparsity) :
    s.initOutcome lay = .ok () := by
  unfold initOutcome
  simp only [hg, Bool.true_eq_false, if_false]
  have hfind : (List.range (s.initFcn lay).n_out).find? (fun i =>
      match (s.initFcn lay).output i with
      | some o => notColumnLike o
      | none => false) = none := by
    rw [List.find?_eq_none]
    intro i _
    cases ho : (s.initFcn lay).output i with
    | none => simp
    | some o => simp [hout i o ho]
  rw [hfind]
  simp only []
  rw [if_neg (not_not_intro ht), if_neg (fun h => h.2 hP), if_neg (fun h => h.2 hX)]

theorem foldl_integrate_state (ts : List R) (I : Integrator R F M) (hid : I.cls.HoldsState) :
    ((ts.foldl Integrator.integrate I).output INTEGRATOR_XF).data =
      (I.output INTEGRATOR_XF).data := by
  induction ts generalizing I with
  | nil => rfl
  | cons t ts ih =>
    simp only [List.foldl_cons]
    rw [ih (I.integrate t) hid]
    exact hid.2 I.f_ I.g_ I.dictionary I.mem t

theorem map_getD_range {α : Type} (l : List α) (d : α) :
    (List.range l.length).map (fun k => l.getD k d) = l := by
  apply List.ext_getElem
  · simp
  · intro i h1 h2
    simp [List.getD_eq_getElem?_getD, List.getElem?_eq_getElem h2]

end SimulatorInternal

/-! ## Properties of `evaluate()` -/

section EvaluateProperties

open SimulatorInternal Examples

variable {R F M : Type}

/-- C2: on an initialized node none of whose transfers is refused (on a non-empty grid the
transfers into the slots in use are between slots of one pattern; on the empty grid there is
no transfer), whatever the length of the grid and whatever the outcome of the closing
consistency check, one run of `evaluate()` adds to the record of the calls received by the
integrator the three `setInput` calls, then one `reset`, then one `integrate` per grid point,
with the grid values in grid order; so `reset` is called exactly once and before every
`integrate`, and `integrate` exactly `N` times with `grid[0], ..., grid[N-1]`. -/
theorem evaluate_calls (s : SimulatorInternal R F M) (hi : s.Initialized)
    (ht : s.grid_ ≠ [] → s.TransfersAccepted) :
    ∃ v0 vz vp, s.ibuf_ INTEGRATOR_X0 = some v0 ∧ s.ibuf_ INTEGRATOR_Z0 = some vz ∧
      s.ibuf_ INTEGRATOR_P = some vp ∧
      (evaluate s).2.integrator_.calls =
        s.integrator_.calls ++
          [.setInput INTEGRATOR_X0 v0, .setInput INTEGRATOR_Z0 vz, .setInput INTEGRATOR_P vp,
            .reset] ++
          s.grid_.map IntegratorCall.integrate := by
  obtain ⟨v0, h0, s0⟩ := hi.inputs INTEGRATOR_X0
  obtain ⟨vz, hz, sz⟩ := hi.inputs INTEGRATOR_Z0
  obtain ⟨vp, hp, sp⟩ := hi.inputs INTEGRATOR_P
  obtain ⟨fn, hfn, -, -⟩ := hi.fcn
  obtain ⟨fn1, ob, its, hst, -, -, -, -, -⟩ := evaluate_spec s hi ht fn hfn vp hp
  refine ⟨v0, vz, vp, h0, hz, hp, ?_⟩
  rw [hst]
  show (s.grid_.foldl Integrator.integrate s.startedIntegrator).calls = _
  rw [foldl_integrate_calls, startedIntegrator_eq s v0 vz vp h0 hz hp s0 sz sp]
  simp [Integrator.reset, Integrator.assign]

/-- C2 at the grid `[0, 2, 5]`: after `init()` on a fresh node, `evaluate()` makes the calls
`setInput`, `setInput`, `setInput`, `reset`, `integrate(0)`, `integrate(2)`, `integrate(5)`. -/
theorem evaluate_calls_witness :
    ∃ v0 vz vp,
      (evaluate (init layout (node [0, 2, 5]
        (holdIntegrator (Sparsity.dense 2 1) (Sparsity.sparse 0 0) (Sparsity.dense 1 1))
        none)).2).2.integrator_.calls =
      [.setInput INTEGRATOR_X0 v0, .setInput INTEGRATOR_Z0 vz, .setInput INTEGRATOR_P vp,
        .reset, .integrate 0, .integrate 2, .integrate 5] := by
  have hok : (init layout (node [0, 2, 5]
      (holdIntegrator (Sparsity.dense 2 1) (Sparsity.sparse 0 0) (Sparsity.dense 1 1))
      none)).1 = .ok () := by
    rw [init_fst]; rfl
  obtain ⟨v0, vz, vp, -, -, -, h⟩ := evaluate_calls _ (init_initialized layout _ hok)
    (fun _ => init_transfers layout _ hok rfl (fun hnz => absurd rfl hnz))
  refine ⟨v0, vz, vp, ?_⟩
  rw [h, init_grid, init_integrator,
    initIntegrator_cons _ 0 [2, 5] rfl (by decide)]
  rfl

/-- C3, the code at the failing input: over the grid `[0]`, with one output of shape `2 × 1`
holding a single structural non-zero, `init()` succeeds and allocates a buffer of
`2 × 1 = 2` entries; `evaluate()` then writes one entry, leaves the iterator at position 1,
and fails at its own consistency check. -/
theorem evaluate_fails_on_sparse_output :
    (init layout sparseOutputNode).1 = .ok () ∧
    (∃ b, (init layout sparseOutputNode).2.obuf_[0]? = some b ∧ b.data.length = 2) ∧
    (evaluate (init layout sparseOutputNode).2).2.output_its_[0]? = some 1 ∧
    (evaluate (init layout sparseOutputNode).2).1 = .error .consistencyCheck := by
  have hok : (init layout sparseOutputNode).1 = .ok () := by
    rw [init_fst]; rfl
  have hi := init_initialized layout _ hok
  have ht := init_transfers layout sparseOutputNode hok rfl (fun hnz => absurd rfl hnz)
  obtain ⟨-, hfn, hgrid, hib, -, hbuf, -⟩ := init_ok_spec layout _ hok
  have ho : (sparseOutputNode.initFcn layout).obuf[0]? =
      some (DMatrix.zerosOf (Sparsity.firstOnly 1)) := rfl
  obtain ⟨buf, buf1, hb, hcap, -, -, hits, -⟩ := evaluate_buffer _ hi ht _ hfn _
    (by rw [hib]) 0 _ ho
  refine ⟨hok, ⟨buf, hb, ?_⟩, ?_, ?_⟩
  · rw [hcap, hgrid]
    rfl
  · rw [hits, hgrid]
    rfl
  · obtain ⟨hiff, hor⟩ := evaluate_outcome _ hi ht _ hfn
    rcases hor with h | h
    · exfalso
      rcases hiff.mp h with hnil | hall
      · rw [hgrid] at hnil
        exact absurd hnil (by decide)
      · exact absurd (hall 0 _ ho) (by decide)
    · exact h

/-- C7, the code at the failing input: the algebraic slot of the output function is in use
(dense `2 × 1`) and differs from the algebraic slots of the integrator (dense `3 × 1`);
`init()` succeeds all the same, and the mismatch surfaces only in `evaluate()`, whose first
transfer into the slot is refused. -/
theorem init_accepts_algebraic_mismatch :
    (init layout algebraicMismatchNode).1 = .ok () ∧
    (∃ fn, (init layout algebraicMismatchNode).2.output_fcn_ = some fn ∧
      (fn.input DAE_Z).nnz ≠ 0 ∧
      (fn.input DAE_Z).sparsity ≠
        ((init layout algebraicMismatchNode).2.integrator_.input INTEGRATOR_Z0).sparsity ∧
      (fn.input DAE_Z).sparsity ≠
        ((init layout algebraicMismatchNode).2.integrator_.output INTEGRATOR_ZF).sparsity) ∧
    (evaluate (init layout algebraicMismatchNode).2).1 = .error .slotMismatch := by
  have hok : (init layout algebraicMismatchNode).1 = .ok () := by
    rw [init_fst]; rfl
  have hi := init_initialized layout _ hok
  obtain ⟨hI, hfn, hgrid, -, -, -, -⟩ := init_ok_spec layout _ hok
  have hzin : ((init layout algebraicMismatchNode).2.integrator_.input INTEGRATOR_Z0).sparsity =
      Sparsity.dense 3 1 := by
    rw [hI, initIntegrator_input_sparsity]; rfl
  have hzout : ((init layout algebraicMismatchNode).2.integrator_.output INTEGRATOR_ZF).sparsity =
      Sparsity.dense 3 1 := by
    rw [hI, initIntegrator_output_sparsity]; rfl
  have hzfn : ((algebraicMismatchNode.initFcn layout).input DAE_Z).sparsity =
      Sparsity.dense 2 1 := rfl
  have hnz : ((algebraicMismatchNode.initFcn layout).input DAE_Z).nnz ≠ 0 := by decide
  refine ⟨hok, ⟨_, hfn, hnz, ?_, ?_⟩, ?_⟩
  · rw [hzin, hzfn]; decide
  · rw [hzout, hzfn]; decide
  · apply evaluate_mismatch _ hi
    · rw [hgrid]; decide
    · intro ht
      have := (ht _ hfn).2.1 hnz
      rw [hzout, hzfn] at this
      exact absurd this (by decide)

/-- C9: after a successful `evaluate()` on an initialized node, for every grid index `k` and
every output `i` of the output function, buffer `i` holds `numel × grid size` entries, all
written (the iterator stands at the end), and its column `k`, the entries
`k * numel, ..., (k + 1) * numel - 1`, is output `i` of the output function evaluated on the
inputs of pass `k`: the time slot holds `grid[k]`, the state and algebraic slots hold the
outputs of the integrator after `integrate(grid[k])`, the parameter slot holds the parameters
of the caller, and a slot without structural non-zero is as it was before the run. -/
theorem evaluate_columns (s : SimulatorInternal R F M) (hi : s.Initialized)
    (hok : (evaluate s).1 = .ok ()) (fn : Function R) (hfn : s.output_fcn_ = some fn)
    (p : DMatrix R) (hp : s.ibuf_ INTEGRATOR_P = some p)
    (k : Nat) (hk : k < s.grid_.length) (i : Nat) (o : DMatrix R) (ho : fn.output i = some o) :
    ∃ buf1, (evaluate s).2.obuf_[i]? = some buf1 ∧
      buf1.data.length = o.numel * s.grid_.length ∧
      (evaluate s).2.output_its_[i]? = some (o.numel * s.grid_.length) ∧
      (buf1.data.drop (k * o.numel)).take o.numel =
        (Function.result fn.f
          (passedInputs fn.ibuf s.grid_[k] ((s.integratorAt k).output INTEGRATOR_XF)
            ((s.integratorAt k).output INTEGRATOR_ZF) p) i o.sparsity).data := by
  have hne : s.grid_ ≠ [] := by
    intro h
    rw [h] at hk
    exact absurd hk (Nat.not_lt_zero k)
  have ht : s.TransfersAccepted := by
    by_contra hcon
    rw [evaluate_mismatch s hi hne hcon] at hok
    simp at hok
  have hdense : o.nnz = o.numel := by
    rcases (evaluate_outcome s hi ht fn hfn).1.mp hok with h | h
    · exact absurd h hne
    · exact h i o ho
  obtain ⟨buf, buf1, -, hcap, hb1, -, hits, hdata⟩ := evaluate_buffer s hi ht fn hfn p hp i o ho
  have hlenrs := length_flatten_const _ _
    (mem_outputsAlong_length fn.f fn.ibuf p i o.sparsity s.startedIntegrator s.grid_)
  rw [length_outputsAlong] at hlenrs
  have hnn : o.sparsity.nnz = o.numel := hdense
  have hdrop : buf.data.drop (s.grid_.length * o.nnz) = [] := by
    apply List.drop_eq_nil_of_le
    rw [hcap, hdense, Nat.mul_comm]
  rw [hdrop, List.append_nil] at hdata
  refine ⟨buf1, hb1, ?_, ?_, ?_⟩
  · rw [hdata, hlenrs, hnn, Nat.mul_comm]
  · rw [hits, hdense, Nat.mul_comm]
  · rw [hdata, ← hnn]
    apply flatten_block _ _
      (mem_outputsAlong_length fn.f fn.ibuf p i o.sparsity s.startedIntegrator s.grid_) k
    rw [getElem?_outputsAlong, List.getElem?_eq_getElem hk]
    rfl

/-- C4, counterexample: over the grid `[0, 1, 2]`, without output function, with identity
dynamics and an empty algebraic slot, the buffer of the claim is not obtained for every state.
With state slots of shape `2 × 2`, `init()` fails at its output assertion: the generated state
output, output 0 in the layout used, is not a column. With state slots of shape `2 × 1`
holding a single structural non-zero and the initial state `[7]`, `init()` succeeds and
allocates a `2 × 3` buffer, and `evaluate()` copies one entry per grid point, leaves the
iterator at 3 and the buffer at `[7, 7, 7, 0, 0, 0]`, and fails at its consistency check. -/
theorem default_evaluator_fails_off_dense_columns :
    (matrixStateNode.output_fcn_ = none ∧ isNonDecreasing matrixStateNode.grid_ = true ∧
      (matrixStateNode.integrator_.input INTEGRATOR_Z0).isempty = true ∧
      matrixStateNode.integrator_.cls.HoldsState ∧
      (init layout matrixStateNode).1 = .error (.outputNotColumn 0) ∧
      (Error.outputNotColumn 0).kind = .SchemaMismatch) ∧
    (sparseStateNode.output_fcn_ = none ∧ isNonDecreasing sparseStateNode.grid_ = true ∧
      (sparseStateNode.integrator_.input INTEGRATOR_Z0).isempty = true ∧
      sparseStateNode.integrator_.cls.HoldsState ∧
      (init layout sparseStateNode).1 = .ok () ∧
      (evaluate ((init layout sparseStateNode).2.withInputs [7] [] [3])).1 =
        .error .consistencyCheck ∧
      (evaluate ((init layout sparseStateNode).2.withInputs [7] [] [3])).2.output_its_[0]? =
        some 3 ∧
      ∃ buf, (evaluate ((init layout sparseStateNode).2.withInputs [7] [] [3])).2.obuf_[0]? =
          some buf ∧
        buf.sparsity = Sparsity.dense 2 3 ∧ buf.data = [7, 7, 7, 0, 0, 0]) := by
  refine ⟨⟨rfl, by decide, by rfl, ⟨fun _ _ _ _ => rfl, fun _ _ _ _ _ => rfl⟩, ?_, rfl⟩,
    rfl, by decide, by rfl, ⟨fun _ _ _ _ => rfl, fun _ _ _ _ _ => rfl⟩, ?_⟩
  · rw [init_fst]
    rfl
  · have hok : (init layout sparseStateNode).1 = .ok () := by
      rw [init_fst]; rfl
    have hi0 := init_initialized layout _ hok
    have ht0 := init_transfers layout sparseStateNode hok rfl (fun hnz => absurd rfl hnz)
    obtain ⟨hI, hfn, hgrid, hib, -, hbuf, -⟩ := init_ok_spec layout _ hok
    refine ⟨hok, ?_⟩
    generalize (init layout sparseStateNode).2 = S at hi0 ht0 hI hfn hgrid hib hbuf ⊢
    have hi := initialized_withInputs S [7] [] [3] hi0
    have ht := transfers_withInputs S [7] [] [3] ht0
    have hfn1 : (S.withInputs [7] [] [3]).output_fcn_ =
        some (sparseStateNode.initFcn layout) := hfn
    have hgrid1 : (S.withInputs [7] [] [3]).grid_ = [0, 1, 2] := hgrid
    have ho : (sparseStateNode.initFcn layout).obuf[0]? =
        some (DMatrix.zerosOf (Sparsity.firstOnly 1)) := rfl
    have hp : (S.withInputs [7] [] [3]).ibuf_ INTEGRATOR_P =
        some ⟨Sparsity.dense 1 1, [3]⟩ := by
      show (S.ibuf_ INTEGRATOR_P).map _ = _
      rw [hib]
      rfl
    have h0 : (S.withInputs [7] [] [3]).ibuf_ INTEGRATOR_X0 =
        some ⟨Sparsity.firstOnly 1, [7]⟩ := by
      show (S.ibuf_ INTEGRATOR_X0).map _ = _
      rw [hib]
      rfl
    have hz : (S.withInputs [7] [] [3]).ibuf_ INTEGRATOR_Z0 =
        some ⟨Sparsity.sparse 0 0, []⟩ := by
      show (S.ibuf_ INTEGRATOR_Z0).map _ = _
      rw [hib]
      rfl
    have hI1 : (S.withInputs [7] [] [3]).integrator_ =
        (initIntegrator sparseStateNode).2.integrator_ := hI
    have hstart := startedIntegrator_eq _ _ _ _ h0 hz hp
      (by rw [hI1]; rfl) (by rw [hI1]; rfl) (by rw [hI1]; rfl)
    obtain ⟨buf, buf1, hb, hcap, hb1, hsp, hits, hdata⟩ :=
      evaluate_buffer _ hi ht _ hfn1 _ hp 0 _ ho
    have hb0 : buf = DMatrix.zeros 2 3 := by
      have : S.obuf_[0]? = some buf := hb
      rw [hbuf, ho] at this
      simp only [Option.map_some', Option.some.injEq] at this
      exact this.symm
    refine ⟨?_, ?_, buf1, hb1, ?_, ?_⟩
    · obtain ⟨hiff, hor⟩ := evaluate_outcome _ hi ht _ hfn1
      rcases hor with h | h
      · exfalso
        rcases hiff.mp h with hnil | hall
        · rw [hgrid1] at hnil
          exact absurd hnil (by decide)
        · exact absurd (hall 0 _ ho) (by decide)
      · exact h
    · rw [hits, hgrid1]
      rfl
    · rw [hsp, hb0]
      rfl
    · rw [hdata, hgrid1, hstart, hI1, hb0]
      rfl

/-- C4, amended: let no output function be supplied, the grid be non-decreasing, the state
slots of the integrator be dense columns of `n` rows, its algebraic slot be empty, and its
dynamics be the identity. Then `init()` succeeds and generates an output function whose state
output is its state argument and whose algebraic output is its algebraic argument; and for
every initial state `x0` written into the node, `evaluate()` succeeds and leaves a state
output buffer of `n` rows and one column per grid point, every column of which is `x0`. The
numeric layout of the integrator outputs is a parameter, required only to place the state
output inside the output vector and apart from the algebraic output. -/
theorem default_evaluator_returns_state [LinearOrder R] [Zero R] (lay : OutputLayout)
    (s : SimulatorInternal R F M) (n : Nat) (x0 z0 p : List R)
    (hnull : s.output_fcn_ = none)
    (hg : isNonDecreasing s.grid_ = true)
    (hlt : lay.INTEGRATOR_XF < lay.INTEGRATOR_NUM_OUT)
    (hxz : lay.INTEGRATOR_XF ≠ lay.INTEGRATOR_ZF)
    (hx : (s.integrator_.input INTEGRATOR_X0).sparsity = Sparsity.dense n 1)
    (hxo : (s.integrator_.output INTEGRATOR_XF).sparsity = Sparsity.dense n 1)
    (hz : (s.integrator_.input INTEGRATOR_Z0).isempty = true)
    (hid : s.integrator_.cls.HoldsState)
    (hx0 : x0.length = n) :
    (init lay s).1 = .ok () ∧
    (∃ fn, (init lay s).2.output_fcn_ = some fn ∧
      ∀ (inputs : DAEInput → DMatrix R) (k : Nat),
        fn.f inputs lay.INTEGRATOR_XF k = (inputs DAE_X).data.getD k 0 ∧
        fn.f inputs lay.INTEGRATOR_ZF k = (inputs DAE_Z).data.getD k 0) ∧
    (evaluate ((init lay s).2.withInputs x0 z0 p)).1 = .ok () ∧
    ∃ buf, (evaluate ((init lay s).2.withInputs x0 z0 p)).2.obuf_[lay.INTEGRATOR_XF]? =
        some buf ∧
      buf.sparsity = Sparsity.dense n s.grid_.length ∧
      ∀ k : Nat, k < s.grid_.length → (buf.data.drop (k * n)).take n = x0 := by
  -- the generated function
  have hfcn : s.initFcn lay = defaultOutputFcn lay (initIntegrator s).2.integrator_ := by
    unfold initFcn
    rw [hnull]
  have hx1 : ((initIntegrator s).2.integrator_.input INTEGRATOR_X0).sparsity =
      Sparsity.dense n 1 := by
    rw [initIntegrator_input_sparsity]; exact hx
  have hz1 : ((initIntegrator s).2.integrator_.input INTEGRATOR_Z0).sparsity.isempty = true := by
    rw [initIntegrator_input_sparsity]; exact hz
  have hznnz : ((initIntegrator s).2.integrator_.input INTEGRATOR_Z0).sparsity.nnz = 0 := by
    have h1 := Sparsity.nnz_le_numel
      ((initIntegrator s).2.integrator_.input INTEGRATOR_Z0).sparsity
    have h2 := (Sparsity.isempty_iff_numel _).mp hz1
    omega
  have hobuf : ∀ i : Nat, (s.initFcn lay).obuf[i]? =
      if i < lay.INTEGRATOR_NUM_OUT then
        some (if i = lay.INTEGRATOR_ZF then
            DMatrix.zerosOf ((initIntegrator s).2.integrator_.input INTEGRATOR_Z0).sparsity
          else if i = lay.INTEGRATOR_XF then DMatrix.zerosOf (Sparsity.dense n 1)
          else DMatrix.zerosOf (Sparsity.sparse 0 0))
      else none := by
    intro i
    rw [hfcn]
    show (defaultOutputs lay _ _)[i]? = _
    rw [getElem?_defaultOutputs, hx1]
  have hshape : ∀ (i : Nat) (o : DMatrix R), (s.initFcn lay).obuf[i]? = some o →
      notColumnLike o = false ∧ o.nnz = o.numel := by
    intro i o ho
    rw [hobuf i] at ho
    by_cases hi : i < lay.INTEGRATOR_NUM_OUT
    · rw [if_pos hi] at ho
      simp only [Option.some.injEq] at ho
      subst ho
      by_cases c1 : i = lay.INTEGRATOR_ZF
      · rw [if_pos c1]
        have hnum := (Sparsity.isempty_iff_numel _).mp hz1
        refine ⟨?_, ?_⟩
        · simp [notColumnLike, DMatrix.isempty, DMatrix.zerosOf, hz1]
        · show ((initIntegrator s).2.integrator_.input INTEGRATOR_Z0).sparsity.nnz =
            ((initIntegrator s).2.integrator_.input INTEGRATOR_Z0).sparsity.numel
          rw [hnum]; exact hznnz
      · rw [if_neg c1]
        by_cases c2 : i = lay.INTEGRATOR_XF
        · rw [if_pos c2]
          refine ⟨?_, ?_⟩
          · simp [notColumnLike, DMatrix.iscolumn, DMatrix.zerosOf, Sparsity.iscolumn,
              Sparsity.dense]
          · show (Sparsity.dense n 1).nnz = (Sparsity.dense n 1).numel
            rw [Sparsity.dense_nnz, Sparsity.dense_numel]
        · rw [if_neg c2]
          exact ⟨rfl, rfl⟩
    · rw [if_neg hi] at ho
      simp at ho
  -- `init()` succeeds
  have hout : s.initOutcome lay = .ok () := by
    apply initOutcome_of_checks lay s hg
    · intro i o ho
      exact (hshape i o ho).1
    · rw [hfcn]
      show (Sparsity.dense 1 1).numel ≤ 1
      exact Nat.le_refl 1
    · rw [hfcn]
      exact (initIntegrator_input_sparsity s INTEGRATOR_P).symm
    · rw [hfcn]
      exact (initIntegrator_input_sparsity s INTEGRATOR_X0).symm
  have hok : (init lay s).1 = .ok () := by rw [init_fst]; exact hout
  obtain ⟨hI, hfn, hgrid, hib, -, hbuf, -⟩ := init_ok_spec lay s hok
  have hi := initialized_withInputs _ x0 z0 p (init_initialized lay s hok)
  have ht := transfers_withInputs _ x0 z0 p
    (init_transfers lay s hok (hxo.trans hx.symm) (by
      intro hnz
      rw [hfcn] at hnz
      exact absurd hznnz hnz))
  have hfn1 : ((init lay s).2.withInputs x0 z0 p).output_fcn_ = some (s.initFcn lay) := hfn
  -- `evaluate()` succeeds
  have hev : (evaluate ((init lay s).2.withInputs x0 z0 p)).1 = .ok () :=
    (evaluate_outcome _ hi ht _ hfn1).1.mpr (Or.inr (fun j o ho => (hshape j o ho).2))
  refine ⟨hok, ⟨_, hfn, ?_⟩, hev, ?_⟩
  · intro inputs k
    rw [hfcn]
    refine ⟨?_, ?_⟩
    · show (if lay.INTEGRATOR_XF = lay.INTEGRATOR_ZF then _ else _) = _
      rw [if_neg hxz, if_pos rfl]
    · show (if lay.INTEGRATOR_ZF = lay.INTEGRATOR_ZF then _ else _) = _
      rw [if_pos rfl]
  -- the state buffer
  obtain ⟨pm, hpm, -⟩ := hi.inputs INTEGRATOR_P
  have ho : (s.initFcn lay).obuf[lay.INTEGRATOR_XF]? =
      some (DMatrix.zerosOf (Sparsity.dense n 1)) := by
    rw [hobuf, if_pos hlt, if_neg hxz, if_pos rfl]
  obtain ⟨buf, buf1, hb, hcap, hb1, hsp, -, hdata⟩ :=
    evaluate_buffer _ hi ht _ hfn1 pm hpm lay.INTEGRATOR_XF _ ho
  have hb0 : buf = DMatrix.zeros (DMatrix.zerosOf (Sparsity.dense n 1) : DMatrix R).numel
      s.grid_.length := by
    have : (init lay s).2.obuf_[lay.INTEGRATOR_XF]? = some buf := hb
    rw [hbuf, ho] at this
    simp only [Option.map_some', Option.some.injEq] at this
    exact this.symm
  have hgrid1 : ((init lay s).2.withInputs x0 z0 p).grid_ = s.grid_ := hgrid
  rw [hgrid1] at hcap hdata
  have hnnz : (DMatrix.zerosOf (Sparsity.dense n 1) : DMatrix R).nnz = n := by
    show (Sparsity.dense n 1).nnz = n
    rw [Sparsity.dense_nnz, Nat.mul_one]
  have hnumel : (DMatrix.zerosOf (Sparsity.dense n 1) : DMatrix R).numel = n := by
    show (Sparsity.dense n 1).numel = n
    rw [Sparsity.dense_numel, Nat.mul_one]
  have hdrop : buf.data.drop (s.grid_.length * n) = [] := by
    apply List.drop_eq_nil_of_le
    rw [hcap, hnumel, Nat.mul_comm]
  rw [hnnz, hdrop, List.append_nil] at hdata
  refine ⟨buf1, hb1, ?_, ?_⟩
  · rw [hsp, hb0, hnumel]
    rfl
  · intro k hk
    rw [hdata]
    have hblocks := mem_outputsAlong_length (s.initFcn lay).f (s.initFcn lay).ibuf pm
      lay.INTEGRATOR_XF (Sparsity.dense n 1)
      ((init lay s).2.withInputs x0 z0 p).startedIntegrator s.grid_
    rw [Sparsity.dense_nnz, Nat.mul_one] at hblocks
    apply flatten_block _ n hblocks k
    rw [getElem?_outputsAlong, List.getElem?_eq_getElem hk]
    simp only [Option.map_some', Option.some.injEq]
    -- the state output of the integrator along the run is `x0`
    obtain ⟨v0, h0, s0⟩ := hi.inputs INTEGRATOR_X0
    obtain ⟨vz, hvz, sz⟩ := hi.inputs INTEGRATOR_Z0
    have hv0 : v0.data = x0 := by
      have h1 : ((init lay s).2.withInputs x0 z0 p).ibuf_ INTEGRATOR_X0 =
          ((init lay s).2.ibuf_ INTEGRATOR_X0).map (fun m => { m with data := x0 }) := rfl
      rw [h1, hib] at h0
      simp only [Option.map_some', Option.some.injEq] at h0
      rw [← h0]
    have hcls : ((init lay s).2.withInputs x0 z0 p).integrator_.cls = s.integrator_.cls := by
      show (init lay s).2.integrator_.cls = _
      rw [hI, initIntegrator_cls]
    have hstart := startedIntegrator_eq _ v0 vz pm h0 hvz hpm s0 sz
      (by obtain ⟨w, hw, sw⟩ := hi.inputs INTEGRATOR_P
          rw [hpm] at hw
          cases hw
          exact sw)
    have hid1 : ((init lay s).2.withInputs x0 z0 p).startedIntegrator.cls.HoldsState := by
      rw [hstart]
      show ((init lay s).2.withInputs x0 z0 p).integrator_.cls.HoldsState
      rw [hcls]
      exact hid
    have hstate : ((List.foldl Integrator.integrate
        ((init lay s).2.withInputs x0 z0 p).startedIntegrator
        (s.grid_.take (k + 1))).output INTEGRATOR_XF).data = x0 := by
      rw [foldl_integrate_state _ _ hid1, hstart]
      have hid2 : ((init lay s).2.withInputs x0 z0 p).integrator_.cls.HoldsState := by
        rw [hcls]; exact hid
      refine (hid2.1 _ _ _ _).trans ?_
      simp only [Integrator.input, Integrator.assign]
      exact hv0
    rw [hfcn] at *
    show (List.range (Sparsity.dense n 1).nnz).map _ = x0
    rw [Sparsity.dense_nnz, Nat.mul_one]
    have hXslot : ((defaultOutputFcn lay (initIntegrator s).2.integrator_).ibuf DAE_X :
        DMatrix R).sparsity = Sparsity.dense n 1 := hx1
    by_cases hn : n = 0
    · subst hn
      rw [List.length_eq_zero.mp hx0]
      rfl
    · have hused : ((defaultOutputFcn lay (initIntegrator s).2.integrator_).ibuf DAE_X :
          DMatrix R).nnz ≠ 0 := by
        show Sparsity.nnz _ ≠ 0
        rw [hXslot, Sparsity.dense_nnz, Nat.mul_one]
        exact hn
      have hf : ∀ kk : Nat,
          (defaultOutputFcn lay (initIntegrator s).2.integrator_ : Function R).f
            (passedInputs (defaultOutputFcn lay (initIntegrator s).2.integrator_).ibuf
              s.grid_[k]
              ((List.foldl Integrator.integrate
                ((init lay s).2.withInputs x0 z0 p).startedIntegrator
                (s.grid_.take (k + 1))).output INTEGRATOR_XF)
              ((List.foldl Integrator.integrate
                ((init lay s).2.withInputs x0 z0 p).startedIntegrator
                (s.grid_.take (k + 1))).output INTEGRATOR_ZF) pm)
            lay.INTEGRATOR_XF kk = x0.getD kk 0 := by
        intro kk
        show (if lay.INTEGRATOR_XF = lay.INTEGRATOR_ZF then _ else
          if lay.INTEGRATOR_XF = lay.INTEGRATOR_XF then _ else _) = _
        rw [if_neg hxz, if_pos rfl]
        unfold passedInputs
        rw [if_pos hused]
        simp only []
        rw [hstate]
      simp only [Function.result] at hf ⊢
      rw [← hx0]
      rw [List.map_congr_left (fun kk _ => hf kk)]
      exact map_getD_range x0 0

/-- C4, the amended statement at the grid `[0, 1, 2]` with the initial state `[7, 8]`: the
state output buffer is `2 × 3` and each of its three columns is `[7, 8]`. -/
theorem default_evaluator_returns_state_witness :
    (init layout (node [0, 1, 2]
      (holdIntegrator (Sparsity.dense 2 1) (Sparsity.sparse 0 0) (Sparsity.dense 1 1))
      none)).1 = .ok () ∧
    (evaluate ((init layout (node [0, 1, 2]
      (holdIntegrator (Sparsity.dense 2 1) (Sparsity.sparse 0 0) (Sparsity.dense 1 1))
      none)).2.withInputs [7, 8] [] [3])).1 = .ok () ∧
    ∃ buf, (evaluate ((init layout (node [0, 1, 2]
        (holdIntegrator (Sparsity.dense 2 1) (Sparsity.sparse 0 0) (Sparsity.dense 1 1))
        none)).2.withInputs [7, 8] [] [3])).2.obuf_[0]? = some buf ∧
      buf.sparsity = Sparsity.dense 2 3 ∧
      ∀ k : Nat, k < 3 → (buf.data.drop (k * 2)).take 2 = [7, 8] := by
  obtain ⟨h1, -, h3, buf, h4, h5, h6⟩ := default_evaluator_returns_state layout
    (node [0, 1, 2]
      (holdIntegrator (Sparsity.dense 2 1) (Sparsity.sparse 0 0) (Sparsity.dense 1 1)) none)
    2 [7, 8] [] [3] rfl (by decide) (by decide) (by decide) rfl rfl rfl
    ⟨fun _ _ _ _ => rfl, fun _ _ _ _ _ => rfl⟩ rfl
  exact ⟨h1, h3, buf, h4, h5, h6⟩

/-- C9 at the grid `[0, 2, 5]`, grid index 1 and output 0, for an output function adding the
time to the state and an integrator holding the state `[7, 8]`: the buffer holds 6 entries,
all written, and its column 1 is `[7 + 2, 8 + 2]`. -/
theorem evaluate_columns_witness :
    ∃ buf1, (evaluate readyNode).2.obuf_[0]? = some buf1 ∧
      buf1.data.length = 6 ∧
      (evaluate readyNode).2.output_its_[0]? = some 6 ∧
      (buf1.data.drop 2).take 2 = [9, 10] := by
  have hi : readyNode.Initialized := by
    refine ⟨⟨_, rfl, rfl, ?_⟩, rfl, ?_⟩
    · intro j o b ho hb
      cases j with
      | zero =>
        simp only [readyNode, List.getElem?_cons_zero, Option.some.injEq] at hb
        simp only [sampleFcn, List.map_cons, List.getElem?_cons_zero, Option.some.injEq] at ho
        subst hb
        subst ho
        decide
      | succ j => simp [readyNode] at hb
    · intro slot
      cases slot
      · exact ⟨_, rfl, rfl⟩
      · exact ⟨_, rfl, rfl⟩
      · exact ⟨_, rfl, rfl⟩
  have ht : readyNode.TransfersAccepted := by
    intro fn hfn
    simp only [readyNode, Option.some.injEq] at hfn
    subst hfn
    refine ⟨fun _ => rfl, fun hnz => absurd rfl hnz, ?_⟩
    intro _ v hv
    simp only [readyNode, Option.some.injEq] at hv
    subst hv
    rfl
  have hok : (evaluate readyNode).1 = .ok () := by
    refine (evaluate_outcome readyNode hi ht _ rfl).1.mpr (Or.inr ?_)
    intro j o ho
    cases j with
    | zero =>
      simp only [sampleFcn, List.map_cons, List.getElem?_cons_zero, Option.some.injEq] at ho
      subst ho
      decide
    | succ j => simp [sampleFcn] at ho
  obtain ⟨buf1, h1, h2, h3, h4⟩ := evaluate_columns readyNode hi hok _ rfl
    ⟨Sparsity.dense 1 1, [3]⟩ rfl 1 (by decide) 0 (DMatrix.zerosOf (Sparsity.dense 2 1)) rfl
  exact ⟨buf1, h1, h2, h3, h4⟩

end EvaluateProperties

end casadi
